import Mathlib

/-!
Popcorn Palace: booking and scheduling-conflict engine.

A shallow embedding of the service layer of the repository
(`src/services/*.js`, `src/utils/timeHelpers.js`) together with the parts of
the relational store the services rely on (`models/*.js`, `migrations/*.js`),
the error mapping of the controllers (`src/controllers/*.js`,
`src/utils/errorHandler.js`) and the showtime validator
(`src/utils/validators.js`).

Modelling conventions

* An instant is an `Int`: milliseconds since the epoch, the value a JavaScript
  `Date` carries.  Durations are whole minutes (`Int`).
* The store is a record of three tables, each a list of rows in storage order.
  A query that returns one row (`findOne`, `findByPk`) returns the first match.
* Every `await`ed service function becomes a function from the store to an
  outcome and the store afterwards.  A thrown JavaScript error is a `JsError`
  carrying the `name` and the `message` of the thrown object.
* The wall clock is read once per service call and passed in as `now`.
* The time helpers are embedded twice.  `timeHelpers.calculateEndTime`,
  `timeHelpers.differenceInMinutes` and `timeHelpers.matchesExactDuration` follow the
  language: dates are cells of a heap, read and written in the local time of the
  process and clipped to the range of `Date`, and numbers are doubles.  The services
  use `calculateEndTime` and `matchesExactDuration` on integers, which is what the
  former compute in a process in UTC for instants inside the range of `Date` that are
  less than 2^53 milliseconds apart (`calculateEndTime_utc`,
  `matchesExactDuration_agrees`).
-/

namespace PopcornPalace

/-! ## Data model -/

/-- A thrown JavaScript error object: its `name` and its `message`. -/
structure JsError where
  name : String
  message : String
deriving DecidableEq, Repr

deriving instance DecidableEq for Except

/-- The object built by `new Error(message)`; its `name` is `Error`. -/
def mkError (message : String) : JsError := ⟨"Error", message⟩

/-- A row of the `Movies` table (`models/movie.js`). -/
structure Movie where
  id : Nat
  title : String
  genre : String
  duration : Int
  rating : Int
  releaseYear : Int
deriving DecidableEq, Repr

/-- A row of the `Showtimes` table (`models/showtime.js`). -/
structure Showtime where
  id : Nat
  movieId : Nat
  theater : String
  startTime : Int
  endTime : Int
  price : Int
deriving DecidableEq, Repr

/-- A row of the `Tickets` table (`models/ticket.js`). -/
structure Ticket where
  id : Nat
  showtimeId : Nat
  seatNumber : Int
  userId : String
  bookingId : String
deriving DecidableEq, Repr

/-- The relational store: the three tables. -/
structure Store where
  movies : List Movie
  showtimes : List Showtime
  tickets : List Ticket
deriving DecidableEq, Repr

/-- The value an auto-increment primary key takes for the next inserted row:
one more than the largest key present. -/
def nextId (ids : List Nat) : Nat := ids.foldl max 0 + 1

/-! ## Dates of the language

The `Date` methods used by the helpers, after the language specification.  A time value
is a number of milliseconds since the epoch; a `Date` object is a mutable cell that holds
a time value or `NaN` (an invalid date), written `none`.  The methods that read or write
fields of the date work on local time, which depends on the time zone of the process. -/

/-- The time zone of the process: the offset of local time from UTC, in milliseconds, at
an instant given in UTC (`LocalTZA(t, true)`) and at a local time (`LocalTZA(t, false)`;
a local time that a transition skips or repeats takes the offset before the transition). -/
structure TimeZone where
  offsetAtUTC : Int → Int
  offsetAtLocal : Int → Int

/-- The zone `UTC`. -/
def utcZone : TimeZone := ⟨fun _ => 0, fun _ => 0⟩

/-- The zone `America/New_York` for the instants of the year 2025: five hours behind UTC,
four hours behind from 2025-03-09T07:00Z (`1741503600000`) to 2025-11-02T06:00Z
(`1762063200000`). -/
def newYork : TimeZone :=
  ⟨fun t => if 1741503600000 ≤ t ∧ t < 1762063200000 then -14400000 else -18000000,
    fun t => if 1741489200000 ≤ t ∧ t < 1762048800000 then -14400000 else -18000000⟩

/-- The local time of an instant. -/
def LocalTime (tz : TimeZone) (t : Int) : Int := t + tz.offsetAtUTC t

/-- The instant of a local time. -/
def UTC (tz : TimeZone) (t : Int) : Int := t - tz.offsetAtLocal t

/-- The time value a date can hold: `NaN` beyond 8.64e15 milliseconds from the epoch. -/
def TimeClip (t : Int) : Option Int := if t.natAbs ≤ 8640000000000000 then some t else none

/-- The day number of a time value. -/
def Day (t : Int) : Int := t / 86400000

/-- The hour of the day of a time value. -/
def HourFromTime (t : Int) : Int := (t / 3600000) % 24

/-- The minute of the hour of a time value. -/
def MinFromTime (t : Int) : Int := (t / 60000) % 60

/-- The second of the minute of a time value. -/
def SecFromTime (t : Int) : Int := (t / 1000) % 60

/-- The millisecond of the second of a time value. -/
def msFromTime (t : Int) : Int := t % 1000

/-- The milliseconds of a time of day given by fields that may lie outside their range. -/
def MakeTime (hour min sec ms : Int) : Int := hour * 3600000 + min * 60000 + sec * 1000 + ms

/-- The time value of a day number and a time of day. -/
def MakeDate (day time : Int) : Int := day * 86400000 + time

/-- The method `Date.prototype.getMinutes` on a date holding the time value `t`: the
minute of the hour in local time. -/
def getMinutes (tz : TimeZone) (t : Int) : Int := MinFromTime (LocalTime tz t)

/-- The instant `Date.prototype.setMinutes(min)` computes for a date holding the time
value `t`, before `TimeClip`: the fields of the local time with the minutes replaced,
taken back to UTC. -/
def setMinutes (tz : TimeZone) (t min : Int) : Int :=
  UTC tz (MakeDate (Day (LocalTime tz t))
    (MakeTime (HourFromTime (LocalTime tz t)) min (SecFromTime (LocalTime tz t))
      (msFromTime (LocalTime tz t))))

/-- The heap of `Date` objects: a reference is an index, a cell is the time value held,
`none` for an invalid date. -/
abbrev DateHeap := List (Option Int)

/-- The constructor call `new Date(d)` on a reference to a date: a new cell with a copy
of the time value. -/
def newDate (heap : DateHeap) (d : Nat) : Option (DateHeap × Nat) :=
  match heap[d]? with
  | none => none
  | some t => some (heap ++ [t], heap.length)

/-! ## Numbers of the language

A number is `NaN`, written `none`, or a double: a sign, a significand of at most 53 bits
and a binary exponent.  The operations round to the nearest double, ties to the even
significand.  Overflow and subnormal results are outside the magnitudes that differences
of time values and their quotients by 60000 can take, and are not modelled. -/

/-- A finite double: the number `m * 2 ^ e`, negated when `neg` holds. -/
structure Double where
  neg : Bool
  m : Nat
  e : Int
deriving DecidableEq, Repr

/-- The binary logarithm of a positive natural number, rounded down; `fuel` bounds the
number of halvings. -/
def log2Fuel : Nat → Nat → Nat
  | 0, _ => 0
  | fuel + 1, n => if n < 2 then 0 else log2Fuel fuel (n / 2) + 1

/-- The binary logarithm of a positive natural number, rounded down. -/
def ilog2 (n : Nat) : Nat := log2Fuel n n

/-- The least `k` from `j` on with `den ≤ num * 2 ^ k`; `fuel` bounds the search. -/
def shiftUp : Nat → Nat → Nat → Nat → Nat
  | 0, _, _, j => j
  | fuel + 1, num, den, j => if den ≤ num * 2 ^ j then j else shiftUp fuel num den (j + 1)

/-- The binary logarithm of the positive fraction `num / den`, rounded down. -/
def binaryExponent (num den : Nat) : Int :=
  if den ≤ num then (ilog2 (num / den) : Int) else -(shiftUp den num den 1 : Int)

/-- The quotient `n / d` rounded to a whole significand, ties to even, with the given sign
and exponent: rounded up when the remainder is more than half the divisor, or half of it
with an odd quotient. -/
def roundQuotient (neg : Bool) (n d : Nat) (e : Int) : Double :=
  if 2 * (n % d) > d ∨ (2 * (n % d) = d ∧ (n / d) % 2 = 1) then ⟨neg, n / d + 1, e⟩
  else ⟨neg, n / d, e⟩

/-- The double nearest to the fraction `num / den`, ties to even, with the given sign:
the quotient is scaled by the power of two that gives a significand of 53 bits, and
rounded. -/
def roundRat (neg : Bool) (num den : Nat) : Double :=
  if num = 0 then ⟨neg, 0, 0⟩
  else
    let e := binaryExponent num den - 52
    roundQuotient neg (if e < 0 then num * 2 ^ (-e).toNat else num)
      (if e < 0 then den else den * 2 ^ e.toNat) e

/-- The number of an integer: the nearest double. -/
def Double.ofInt (a : Int) : Double := roundRat (decide (a < 0)) a.natAbs 1

/-- The quotient `x / q` of a double by a positive whole number, rounded. -/
def Double.divNat (x : Double) (q : Nat) : Double :=
  if x.e < 0 then roundRat x.neg x.m (q * 2 ^ (-x.e).toNat)
  else roundRat x.neg (x.m * 2 ^ x.e.toNat) q

/-- Whether the absolute value of the double is the natural number `v`. -/
def Double.hasMagnitude (x : Double) (v : Nat) : Bool :=
  if x.e < 0 then x.m == v * 2 ^ (-x.e).toNat else x.m * 2 ^ x.e.toNat == v

/-- The strict equality `x === d` of a double and a whole number. -/
def Double.eqInt (x : Double) (d : Int) : Bool :=
  if x.m = 0 then d == 0
  else (x.neg == decide (d < 0)) && x.hasMagnitude d.natAbs

/-- The rational number a double stands for. -/
def Double.toRat (x : Double) : ℚ := (if x.neg then -1 else 1) * (x.m : ℚ) * (2 : ℚ) ^ x.e

/-! ## Time helpers (`src/utils/timeHelpers.js`) -/

/-- The JavaScript `calculateEndTime` in a process of time zone `tz`: copies the start
date into a new object, sets the minutes of the copy to its local minutes plus `duration`
and returns the copy.  An invalid date stays invalid. -/
def timeHelpers.calculateEndTime (tz : TimeZone) (heap : DateHeap) (startTime : Nat)
    (duration : Int) : Option (DateHeap × Nat) :=
  match newDate heap startTime with
  | none => none
  | some (heap1, newEndTime) =>
    match heap1[newEndTime]? with
    | none => none
    | some none => some (heap1, newEndTime)
    | some (some t) =>
      some (heap1.set newEndTime (TimeClip (setMinutes tz t (getMinutes tz t + duration))),
        newEndTime)

/-- The JavaScript `differenceInMinutes` on the time values of two dates: the difference
of the two numbers, divided by `60 * 1000`; `NaN` when a date is invalid. -/
def timeHelpers.differenceInMinutes (startTime endTime : Option Int) : Option Double :=
  match startTime, endTime with
  | some s, some e => some ((Double.ofInt (e - s)).divNat 60000)
  | _, _ => none

/-- The JavaScript `matchesExactDuration` on the time values of two dates. -/
def timeHelpers.matchesExactDuration (startTime endTime : Option Int)
    (durationInMinutes : Int) : Bool :=
  match timeHelpers.differenceInMinutes startTime endTime with
  | some diff => diff.eqInt durationInMinutes
  | none => false

/-! ## Time helpers as the services use them

The services are embedded for a process in UTC, for instants inside the range of `Date`
and durations that are whole numbers of minutes: there the end computed by
`calculateEndTime` is the start moved by the minutes, and the duration test is the
comparison of the millisecond difference with the minutes. -/

/-- The JavaScript test `new Date(date) < new Date()`, with the clock reading `now`. -/
def isDateInThePast (now date : Int) : Bool := decide (date < now)

/-- The JavaScript `calculateEndTime` on time values, in a process in UTC: the time value
of the date it returns for a start date holding `startTime`. -/
def calculateEndTime (startTime duration : Int) : Int :=
  setMinutes utcZone startTime (getMinutes utcZone startTime + duration)

/-- The JavaScript `differenceInMinutes`: the millisecond difference divided by `60 * 1000`. -/
def differenceInMinutes (startTime endTime : Int) : ℚ := ((endTime - startTime : Int) : ℚ) / 60000

/-- A decision procedure for the equality of a minute difference and a whole number of
minutes, by integer arithmetic on the milliseconds. -/
def decideMinutes (startTime endTime durationInMinutes : Int) :
    Decidable (differenceInMinutes startTime endTime = (durationInMinutes : ℚ)) :=
  decidable_of_iff (endTime - startTime = durationInMinutes * 60000) (by
    unfold differenceInMinutes
    rw [div_eq_iff (by norm_num : (60000 : ℚ) ≠ 0)]
    exact_mod_cast Iff.rfl)

/-- The JavaScript `matchesExactDuration`: strict equality of the minute difference and the duration. -/
def matchesExactDuration (startTime endTime durationInMinutes : Int) : Bool :=
  @decide (differenceInMinutes startTime endTime = (durationInMinutes : ℚ))
    (decideMinutes startTime endTime durationInMinutes)

/-! ## Showtime lookup (`src/services/showtimeService.js`) -/

/-- The JavaScript `getShowtimeById`: the row with that primary key, or the error `Showtime not found`. -/
def getShowtimeById (db : Store) (id : Nat) : Except JsError Showtime :=
  match db.showtimes.find? (fun s => s.id == id) with
  | none => .error (mkError "Showtime not found")
  | some showtime => .ok showtime

/-! ## Booking (`src/services/bookingService.js`) -/

/-- A call made on the transaction handle. -/
inductive TxEvent where
  | opened
  | commit
  | rollback
deriving DecidableEq, Repr

/-- A transaction handle: the committed store, the store as the statements of the
transaction see it, and the calls made on the handle so far. -/
structure Transaction where
  committed : Store
  working : Store
  log : List TxEvent
deriving Repr

/-- The call `sequelize.transaction()`: opens a transaction on the store. -/
def sequelizeTransaction (db : Store) : Transaction := ⟨db, db, [TxEvent.opened]⟩

/-- The call `transaction.commit()`: the writes of the transaction become the committed store. -/
def Transaction.commit (tx : Transaction) : Transaction :=
  ⟨tx.working, tx.working, tx.log ++ [TxEvent.commit]⟩

/-- The call `transaction.rollback()`: the writes of the transaction are discarded. -/
def Transaction.rollback (tx : Transaction) : Transaction :=
  ⟨tx.committed, tx.committed, tx.log ++ [TxEvent.rollback]⟩

/-- What lies outside the program during one `bookTicket` call: the clock reading,
the token `uuidv4()` returns, and the error, if any, with which the storage layer
rejects the insert for a reason of its own (a lost connection, a row committed by
another transaction after the probe). -/
structure Env where
  now : Int
  uuid : String
  insertFault : Option JsError
deriving Repr

/-- The argument object of `bookTicket`. -/
structure BookingRequest where
  showtimeId : Nat
  seatNumber : Int
  userId : String
deriving DecidableEq, Repr

/-- The error Sequelize raises when an insert violates a unique index. -/
def uniqueConstraintError : JsError := ⟨"SequelizeUniqueConstraintError", "Validation error"⟩

/-- The error Sequelize raises when an insert violates a foreign key. -/
def foreignKeyConstraintError : JsError :=
  ⟨"SequelizeForeignKeyConstraintError", "insert or update on table violates foreign key constraint"⟩

/-- The insert `Ticket.create(row, { transaction })` against the `Tickets` table of
`migrations/20250322204422-create-ticket.js`: the storage layer may reject it for a
reason of its own; the unique constraint `unique_showtime_seat` rejects a second row
for the same `(showtimeId, seatNumber)`; the foreign key rejects a row for a showtime
that does not exist; otherwise the row is appended with a new primary key. -/
def ticketCreate (fault : Option JsError) (db : Store)
    (showtimeId : Nat) (seatNumber : Int) (userId bookingId : String) :
    Except JsError Ticket × Store :=
  match fault with
  | some e => (.error e, db)
  | none =>
    if db.tickets.any (fun t => t.showtimeId == showtimeId && t.seatNumber == seatNumber) then
      (.error uniqueConstraintError, db)
    else if !(db.showtimes.any (fun s => s.id == showtimeId)) then
      (.error foreignKeyConstraintError, db)
    else
      let ticket : Ticket :=
        ⟨nextId (db.tickets.map (fun t => t.id)), showtimeId, seatNumber, userId, bookingId⟩
      (.ok ticket, { db with tickets := db.tickets ++ [ticket] })

/-- The JavaScript `createTicket`: mints the booking id and inserts the row inside the transaction. -/
def createTicket (env : Env) (tx : Transaction) (req : BookingRequest) :
    Except JsError Ticket × Transaction :=
  let bookingId := env.uuid
  match ticketCreate env.insertFault tx.working req.showtimeId req.seatNumber req.userId bookingId with
  | (r, db) => (r, { tx with working := db })

/-- The JavaScript `isSeatAlreadyBooked`: whether `Ticket.findOne` finds a row for the seat. -/
def isSeatAlreadyBooked (db : Store) (showtimeId : Nat) (seatNumber : Int) : Bool :=
  (db.tickets.find? (fun t => t.showtimeId == showtimeId && t.seatNumber == seatNumber)).isSome

/-- The JavaScript `findTicketsByShowtimeId`: all tickets of a showtime. -/
def findTicketsByShowtimeId (db : Store) (showtimeId : Nat) : List Ticket :=
  db.tickets.filter (fun t => t.showtimeId == showtimeId)

/-- The `try` block of `bookTicket`: the value it returns or the error it throws,
with the transaction handle as it stands when the block is left. -/
def bookTicketTry (env : Env) (tx : Transaction) (req : BookingRequest) :
    Except JsError Ticket × Transaction :=
  match getShowtimeById tx.working req.showtimeId with
  | .error e => (.error e, tx)
  | .ok showtime =>
    if isDateInThePast env.now showtime.endTime then
      (.error (mkError "Showtime has already ended. Cannot book ticket."), tx)
    else if isSeatAlreadyBooked tx.working req.showtimeId req.seatNumber then
      (.error (mkError "Seat is already booked for this showtime."), tx)
    else
      match createTicket env tx req with
      | (.error e, tx1) => (.error e, tx1)
      | (.ok ticket, tx1) => (.ok ticket, tx1.commit)

/-- The outcome of one `bookTicket` call: what the caller receives, the committed
store afterwards, and the calls made on the transaction handle. -/
structure BookingRun where
  result : Except JsError Ticket
  store : Store
  log : List TxEvent

/-- The JavaScript `bookTicket`: the `try` block, and the `catch` block that rolls back and
turns a unique-constraint error into the seat-already-booked error. -/
def bookTicket (env : Env) (db : Store) (req : BookingRequest) : BookingRun :=
  let transaction := sequelizeTransaction db
  match bookTicketTry env transaction req with
  | (.ok ticket, tx) => ⟨.ok ticket, tx.committed, tx.log⟩
  | (.error err, tx) =>
    let tx1 := tx.rollback
    if err.name = "SequelizeUniqueConstraintError" then
      ⟨.error (mkError "Seat is already booked for this showtime."), tx1.committed, tx1.log⟩
    else
      ⟨.error err, tx1.committed, tx1.log⟩

/-- A sequence of `bookTicket` calls, one after the other, each in its own environment. -/
def bookAll (db : Store) : List (Env × BookingRequest) → Store
  | [] => db
  | (env, req) :: rest => bookAll (bookTicket env db req).store rest

/-! ## Store queries (`src/services/dbQueries.js`) -/

/-- The JavaScript `findMovieById`: `Movie.findByPk(movieId)`; an absent key finds nothing. -/
def findMovieById (db : Store) (movieId : Option Nat) : Option Movie :=
  match movieId with
  | none => none
  | some k => db.movies.find? (fun m => m.id == k)

/-! ## Showtime lifecycle (`src/services/showtimeService.js`) -/

/-- The JavaScript `findShowtimesByMovieId`: all showtimes of a movie. -/
def findShowtimesByMovieId (db : Store) (movieId : Nat) : List Showtime :=
  db.showtimes.filter (fun s => s.movieId == movieId)

/-- JavaScript truthiness of an optional numeric id: `null`, `undefined` and `0` are falsy. -/
def truthyId (id : Option Nat) : Bool :=
  match id with
  | none => false
  | some k => k != 0

/-- The `where` clause built by `checkOverlappingShowtime`, as a test on one stored row. -/
def overlapClause (theater : String) (startTime endTime : Int) (excludeId : Option Nat)
    (s : Showtime) : Bool :=
  s.theater == theater && decide (s.startTime < endTime) && decide (s.endTime > startTime) &&
    (if truthyId excludeId then some s.id != excludeId else true)

/-- The JavaScript `checkOverlappingShowtime`: `Showtime.findOne` with the overlap clause. -/
def checkOverlappingShowtime (db : Store) (theater : String) (startTime endTime : Int)
    (excludeId : Option Nat) : Option Showtime :=
  db.showtimes.find? (overlapClause theater startTime endTime excludeId)

/-- The argument object of `createShowtime`: every column of the row but the key. -/
structure ShowtimeData where
  movieId : Nat
  theater : String
  startTime : Int
  endTime : Int
  price : Int
deriving DecidableEq, Repr

/-- The JavaScript `createShowtime`. -/
def createShowtime (db : Store) (data : ShowtimeData) : Except JsError Showtime × Store :=
  match findMovieById db (some data.movieId) with
  | none => (.error (mkError "Cannot create showtime for a non-existing movie."), db)
  | some movie =>
    if !(matchesExactDuration data.startTime data.endTime movie.duration) then
      (.error (mkError "Showtime length does not match the movie duration."), db)
    else
      match checkOverlappingShowtime db data.theater data.startTime data.endTime none with
      | some _ =>
        (.error (mkError "Showtime overlaps with an existing showtime in the same theater."), db)
      | none =>
        let showtime : Showtime :=
          ⟨nextId (db.showtimes.map (fun s => s.id)), data.movieId, data.theater,
            data.startTime, data.endTime, data.price⟩
        (.ok showtime, { db with showtimes := db.showtimes ++ [showtime] })

/-- The `newData` object of `updateShowtime`: any of the columns, and the `duration`
the cascade passes along; a field that is not given is `none` (JavaScript `undefined`). -/
structure ShowtimeUpdate where
  movieId : Option Nat
  theater : Option String
  startTime : Option Int
  endTime : Option Int
  price : Option Int
  duration : Option Int
deriving DecidableEq, Repr

/-- The effect of `showtime.update(newData)` on the row: the given columns are replaced,
the others kept; `duration` is not a column of the table. -/
def Showtime.applyUpdate (s : Showtime) (newData : ShowtimeUpdate) : Showtime :=
  { id := s.id
    movieId := newData.movieId.getD s.movieId
    theater := newData.theater.getD s.theater
    startTime := newData.startTime.getD s.startTime
    endTime := newData.endTime.getD s.endTime
    price := newData.price.getD s.price }

/-- The JavaScript `matchesExactDuration` applied to fields of `newData`: an absent
instant makes the difference `NaN`, which is equal to no duration. -/
def matchesExactDurationOf (startTime endTime : Option Int) (durationInMinutes : Int) : Bool :=
  match startTime, endTime with
  | some s, some e => matchesExactDuration s e durationInMinutes
  | _, _ => false

/-- The JavaScript expression `newData.duration || movie.duration`. -/
def durationToCompare (newDuration : Option Int) (movieDuration : Int) : Int :=
  match newDuration with
  | none => movieDuration
  | some d => if d = 0 then movieDuration else d

/-- The error Sequelize raises for a `where` clause with an `undefined` value. -/
def undefinedWhereError : JsError :=
  mkError "WHERE parameter \"theater\" has invalid \"undefined\" value"

/-- The JavaScript `updateShowtime`; `skipOverlapCheck` is the field of `options`. -/
def updateShowtime (now : Int) (db : Store) (id : Nat) (newData : ShowtimeUpdate)
    (skipOverlapCheck : Bool) : Except JsError Showtime × Store :=
  match getShowtimeById db id with
  | .error e => (.error e, db)
  | .ok showtime =>
    if isDateInThePast now showtime.endTime then
      (.error (mkError "Cannot update a showtime that has already ended."), db)
    else if (findTicketsByShowtimeId db id).length > 0 then
      (.error (mkError "Cannot update a showtime that already has tickets sold."), db)
    else
      match findMovieById db newData.movieId with
      | none => (.error (mkError "Cannot update showtime to a non-existing movie."), db)
      | some movie =>
        if !(matchesExactDurationOf newData.startTime newData.endTime
            (durationToCompare newData.duration movie.duration)) then
          (.error (mkError "Updated showtime length does not match the movie duration."), db)
        else
          let overlapError : Option JsError :=
            if skipOverlapCheck then none
            else
              match newData.theater, newData.startTime, newData.endTime with
              | some theater, some startTime, some endTime =>
                match checkOverlappingShowtime db theater startTime endTime (some id) with
                | some _ => some (mkError
                    "Updated showtime overlaps with an existing showtime in the same theater.")
                | none => none
              | _, _, _ => some undefinedWhereError
          match overlapError with
          | some e => (.error e, db)
          | none =>
            let updated := showtime.applyUpdate newData
            (.ok updated,
              { db with showtimes :=
                  db.showtimes.map (fun s => if s.id == showtime.id then s.applyUpdate newData else s) })

/-- The statement `Showtime.destroy({ where: { id } })`: the number of rows deleted and the
store afterwards; the tickets of a deleted showtime go with it (`onDelete: CASCADE`). -/
def showtimeDestroy (db : Store) (id : Nat) : Nat × Store :=
  ((db.showtimes.filter (fun s => s.id == id)).length,
    { db with
      showtimes := db.showtimes.filter (fun s => !(s.id == id))
      tickets := db.tickets.filter (fun t => !(t.showtimeId == id)) })

/-- The last two statements of `deleteShowtime`: the delete statement, and the error
`Showtime not found` when it deleted no row. -/
def destroyShowtimeRow (db : Store) (id : Nat) : Except JsError Unit × Store :=
  let deletedCount := (showtimeDestroy db id).1
  if deletedCount = 0 then (.error (mkError "Showtime not found"), (showtimeDestroy db id).2)
  else (.ok (), (showtimeDestroy db id).2)

/-- The JavaScript `deleteShowtime`, with the writes `concurrent` that other callers commit
between its lookups and its delete statement. -/
def deleteShowtimeAmid (concurrent : Store → Store) (now : Int) (db : Store) (id : Nat) :
    Except JsError Unit × Store :=
  match getShowtimeById db id with
  | .error e => (.error e, db)
  | .ok showtime =>
    if isDateInThePast now showtime.endTime then
      (.error (mkError "Cannot delete a showtime that has already ended."), db)
    else if (findTicketsByShowtimeId db id).length > 0 then
      (.error (mkError "Cannot delete showtime that has existing ticket bookings."), db)
    else destroyShowtimeRow (concurrent db) id

/-- The JavaScript `deleteShowtime`, no other caller writing meanwhile. -/
def deleteShowtime (now : Int) (db : Store) (id : Nat) : Except JsError Unit × Store :=
  deleteShowtimeAmid (fun s => s) now db id

/-! ## Movie service (`src/services/movieService.js`) -/

/-- The JavaScript `findMovieByTitle`: `Movie.findOne` on the title. -/
def findMovieByTitle (db : Store) (title : String) : Option Movie :=
  db.movies.find? (fun m => m.title == title)

/-- The message `findShowtimeConflicts` returns when a probe finds a conflict. -/
def conflictMessage : String := "Movie duration update failed due to scheduling conflicts."

/-- The JavaScript `findShowtimeConflicts`: probes each showtime at its interval under the
new duration, itself excluded, and returns the message at the first conflict. -/
def findShowtimeConflicts (db : Store) (showtimes : List Showtime) (newDuration : Int) :
    Option String :=
  match showtimes with
  | [] => none
  | showtime :: rest =>
    let newEndTime := calculateEndTime showtime.startTime newDuration
    match checkOverlappingShowtime db showtime.theater showtime.startTime newEndTime
        (some showtime.id) with
    | some _ => some conflictMessage
    | none => findShowtimeConflicts db rest newDuration

/-- The `data` object of `updateMovie`: any of the columns of the movie. -/
structure MovieUpdate where
  title : Option String
  genre : Option String
  duration : Option Int
  rating : Option Int
  releaseYear : Option Int
deriving DecidableEq, Repr

/-- The effect of `movie.update(data)` on the row: the given columns are replaced. -/
def Movie.applyUpdate (m : Movie) (data : MovieUpdate) : Movie :=
  { id := m.id
    title := data.title.getD m.title
    genre := data.genre.getD m.genre
    duration := data.duration.getD m.duration
    rating := data.rating.getD m.rating
    releaseYear := data.releaseYear.getD m.releaseYear }

/-- The `newData` object the cascade passes to `updateShowtime` for one showtime. -/
def cascadeData (movie : Movie) (showtime : Showtime) (newDuration : Int) : ShowtimeUpdate :=
  { movieId := some movie.id
    theater := none
    startTime := some showtime.startTime
    endTime := some (calculateEndTime showtime.startTime newDuration)
    price := none
    duration := some newDuration }

/-- The `for` loop of `updateMovie` over the showtimes read before the loop: one
`updateShowtime` call each, with `skipOverlapCheck: true`; the loop ends at the first
call that throws.  Returns the thrown error, if any, and the store as the loop leaves it. -/
def cascadeLoop (now : Int) (movie : Movie) (newDuration : Int) :
    List Showtime → Store → Option JsError × Store
  | [], db => (none, db)
  | showtime :: rest, db =>
    match updateShowtime now db showtime.id (cascadeData movie showtime newDuration) true with
    | (.error e, db1) => (some e, db1)
    | (.ok _, db1) => cascadeLoop now movie newDuration rest db1

/-- The JavaScript condition `data.title && data.title !== movie.title`. -/
def isRename (data : MovieUpdate) (movie : Movie) : Bool :=
  match data.title with
  | none => false
  | some t => t != "" && t != movie.title

/-- The JavaScript condition `data.duration && data.duration > movie.duration`:
the new duration when the condition holds. -/
def raisedDuration (data : MovieUpdate) (movie : Movie) : Option Int :=
  match data.duration with
  | none => none
  | some d => if d != 0 && decide (d > movie.duration) then some d else none

/-- The last statement of `updateMovie`, `movie.update(data)`, and the returned row. -/
def movieUpdateRow (db : Store) (movie : Movie) (data : MovieUpdate) : Except JsError Movie × Store :=
  (.ok (movie.applyUpdate data),
    { db with movies := db.movies.map (fun m => if m.id == movie.id then m.applyUpdate data else m) })

/-- The JavaScript `updateMovie`. -/
def updateMovie (now : Int) (db : Store) (movieTitle : String) (data : MovieUpdate) :
    Except JsError Movie × Store :=
  match findMovieByTitle db movieTitle with
  | none => (.error (mkError "Movie not found"), db)
  | some movie =>
    if isRename data movie then
      (.error (mkError "Renaming the movie is not allowed."), db)
    else
      match raisedDuration data movie with
      | some newDuration =>
        let showtimes := findShowtimesByMovieId db movie.id
        let futureShowtimes := showtimes.filter (fun st => decide (st.endTime ≥ now))
        if futureShowtimes.length > 0 then
          match findShowtimeConflicts db showtimes newDuration with
          | some conflictError => (.error (mkError conflictError), db)
          | none =>
            match cascadeLoop now movie newDuration showtimes db with
            | (some e, db1) => (.error e, db1)
            | (none, db1) => movieUpdateRow db1 movie data
        else movieUpdateRow db movie data
      | none => movieUpdateRow db movie data

/-- The argument object of `createMovie`: every column of the row but the key. -/
structure MovieData where
  title : String
  genre : String
  duration : Int
  rating : Int
  releaseYear : Int
deriving DecidableEq, Repr

/-- The JavaScript `createMovie`. -/
def createMovie (db : Store) (data : MovieData) : Except JsError Movie × Store :=
  match db.movies.find? (fun m => m.title == data.title) with
  | some _ => (.error (mkError "Movie already exists with this title."), db)
  | none =>
    let movie : Movie :=
      ⟨nextId (db.movies.map (fun m => m.id)), data.title, data.genre, data.duration,
        data.rating, data.releaseYear⟩
    (.ok movie, { db with movies := db.movies ++ [movie] })

/-- The statement `movie.destroy()`: the movie row goes, its showtimes go with it and
their tickets with them (`onDelete: CASCADE` in both migrations). -/
def movieDestroy (db : Store) (movie : Movie) : Store :=
  { movies := db.movies.filter (fun m => !(m.id == movie.id))
    showtimes := db.showtimes.filter (fun s => !(s.movieId == movie.id))
    tickets := db.tickets.filter (fun t =>
      !((db.showtimes.filter (fun s => s.movieId == movie.id)).any (fun s => s.id == t.showtimeId))) }

/-- The first `for` loop of `deleteMovie`: whether some showtime of the list has a ticket. -/
def anyTicketsSold (db : Store) (showtimes : List Showtime) : Bool :=
  showtimes.any (fun st => decide ((findTicketsByShowtimeId db st.id).length > 0))

/-- The second `for` loop of `deleteMovie`: one `deleteShowtime` call each; the loop ends
at the first call that throws.  Returns the thrown error, if any, and the store as the
loop leaves it, together with the ids the loop passed to `deleteShowtime`, in the order
of the calls. -/
def deleteLoopRun (now : Int) : List Showtime → Store → (Option JsError × Store) × List Nat
  | [], db => ((none, db), [])
  | st :: rest, db =>
    match deleteShowtime now db st.id with
    | (.error e, db1) => ((some e, db1), [st.id])
    | (.ok _, db1) =>
      ((deleteLoopRun now rest db1).1, st.id :: (deleteLoopRun now rest db1).2)

/-- The thrown error, if any, and the store as the second loop of `deleteMovie` leaves it. -/
def deleteLoop (now : Int) (todo : List Showtime) (db : Store) : Option JsError × Store :=
  (deleteLoopRun now todo db).1

/-- A run of `deleteMovie`: what the call returns or throws, the store afterwards, and
the ids it passed to `deleteShowtime`, in the order of the calls. -/
structure DeleteMovieRun where
  result : Except JsError Unit
  store : Store
  deleteShowtimeCalls : List Nat
deriving DecidableEq, Repr

/-- The JavaScript `deleteMovie`, with the record of its `deleteShowtime` calls. -/
def deleteMovieRun (now : Int) (db : Store) (movieTitle : String) : DeleteMovieRun :=
  match findMovieByTitle db movieTitle with
  | none => ⟨.error (mkError "Movie not found"), db, []⟩
  | some movie =>
    let existingShowtimes := findShowtimesByMovieId db movie.id
    let futureShowtimes := existingShowtimes.filter (fun st => decide (st.endTime ≥ now))
    if anyTicketsSold db futureShowtimes then
      ⟨.error (mkError ("Cannot delete movie, this movie has upcoming showtimes for which " ++
        "tickets have already been sold.")), db, []⟩
    else
      match deleteLoopRun now futureShowtimes db with
      | ((some e, db1), calls) => ⟨.error e, db1, calls⟩
      | ((none, db1), calls) => ⟨.ok (), movieDestroy db1 movie, calls⟩

/-- The JavaScript `deleteMovie`: the outcome of the run and the store afterwards. -/
def deleteMovie (now : Int) (db : Store) (movieTitle : String) : Except JsError Unit × Store :=
  ((deleteMovieRun now db movieTitle).result, (deleteMovieRun now db movieTitle).store)

/-! ## Store invariants -/

/-- The overlap test of two stored showtimes: `a.start < b.end` and `a.end > b.start`. -/
def Showtime.overlaps (a b : Showtime) : Prop :=
  a.startTime < b.endTime ∧ a.endTime > b.startTime

instance (a b : Showtime) : Decidable (a.overlaps b) := by
  unfold Showtime.overlaps; infer_instance

/-- No two distinct showtimes of the store in the same theater overlap. -/
def NoOverlap (db : Store) : Prop :=
  ∀ a ∈ db.showtimes, ∀ b ∈ db.showtimes, a.id ≠ b.id → a.theater = b.theater → ¬ a.overlaps b

instance (db : Store) : Decidable (NoOverlap db) := by
  unfold NoOverlap; infer_instance

/-- Every showtime of the store ends after it starts. -/
def PositiveLength (db : Store) : Prop :=
  ∀ s ∈ db.showtimes, s.startTime < s.endTime

instance (db : Store) : Decidable (PositiveLength db) := by
  unfold PositiveLength; infer_instance

/-- The primary key of the `Showtimes` table: no two rows share an id. -/
def ShowtimeKeys (db : Store) : Prop := (db.showtimes.map (fun s => s.id)).Nodup

instance (db : Store) : Decidable (ShowtimeKeys db) := by
  unfold ShowtimeKeys; infer_instance

/-- The seat of a ticket: the pair the unique index is declared on. -/
def Ticket.seat (t : Ticket) : Nat × Int := (t.showtimeId, t.seatNumber)

/-- No two tickets of the store share the same `(showtimeId, seatNumber)`. -/
def SeatsUnique (db : Store) : Prop := (db.tickets.map Ticket.seat).Nodup

instance (db : Store) : Decidable (SeatsUnique db) := by
  unfold SeatsUnique; infer_instance

/-- The ticket a successful booking inserts. -/
def mintedTicket (env : Env) (db : Store) (req : BookingRequest) : Ticket :=
  ⟨nextId (db.tickets.map (fun t => t.id)), req.showtimeId, req.seatNumber, req.userId, env.uuid⟩

/-- A `newData` object that gives every column of the showtime. -/
def ShowtimeUpdate.complete (newData : ShowtimeUpdate) : Prop :=
  newData.movieId.isSome ∧ newData.theater.isSome ∧ newData.startTime.isSome ∧
    newData.endTime.isSome ∧ newData.price.isSome

instance (newData : ShowtimeUpdate) : Decidable newData.complete := by
  unfold ShowtimeUpdate.complete; infer_instance

/-- The row the cascade writes for a showtime: the same row ending `newDuration` minutes
after its start. -/
def Showtime.extended (s : Showtime) (newDuration : Int) : Showtime :=
  { s with endTime := calculateEndTime s.startTime newDuration }

/-- The shape of the showtimes table during the mutation pass over the showtimes
`probed` of the store `db0`: row by row, either the row of `db0` or its extension, and
only probed rows are extended. -/
def CascadeShape (db0 : Store) (probed : List Showtime) (newDuration : Int) (db : Store) : Prop :=
  ∃ f : Showtime → Showtime, db.showtimes = db0.showtimes.map f ∧
    ∀ s0 ∈ db0.showtimes, f s0 = s0 ∨ (s0 ∈ probed ∧ f s0 = s0.extended newDuration)

/-! ## Concurrent bookings

`bookTicket` is an `async` function: between two awaited statements other calls may run.
The model below interleaves any number of calls statement by statement.  The store
executes each statement atomically.  A read sees the committed rows.  The unique index
`unique_showtime_seat` covers committed and uncommitted rows: an insert that meets an
uncommitted row of another open transaction for the same seat waits for that transaction
to end, and an insert that meets a committed row fails with the unique-constraint error. -/

/-- Where a `bookTicket` call stands between two awaited statements. -/
inductive Phase where
  | start
  | opened
  | loaded
  | probed
  | inserted (ticket : Ticket)
  | failing (err : JsError)
  | finished (result : Except JsError Ticket)
deriving DecidableEq, Repr

/-- What one caller brings to `bookTicket`: the clock reading, the token `uuidv4()`
returns, and the argument object. -/
structure BookingCall where
  now : Int
  uuid : String
  req : BookingRequest
deriving DecidableEq, Repr

/-- The state of the interleaved calls: the committed store and the phase of every call. -/
structure World where
  store : Store
  phase : Nat → Phase

/-- The rows inserted by the first `n` calls and not yet committed. -/
def pendingTickets (n : Nat) (w : World) : List Ticket :=
  (List.range n).filterMap (fun j =>
    match w.phase j with
    | .inserted t => some t
    | _ => none)

/-- Some call other than `i` holds an uncommitted row for the seat. -/
def seatLockedByOther (n : Nat) (w : World) (i : Nat) (showtimeId : Nat) (seatNumber : Int) :
    Bool :=
  (List.range n).any (fun j => j != i &&
    match w.phase j with
    | .inserted t => t.showtimeId == showtimeId && t.seatNumber == seatNumber
    | _ => false)

/-- One statement of call `i`, the `i`-th of `n` calls: the committed store and the phase
of the call afterwards.  The statements are those of `bookTicket` in source order:
`sequelize.transaction()`, `getShowtimeById` with the ended check, `isSeatAlreadyBooked`
with the booked check, `createTicket`, `transaction.commit()` with the return, and in the
`catch` block `transaction.rollback()` with the rethrow. -/
def stepCall (n : Nat) (w : World) (i : Nat) (c : BookingCall) : Store × Phase :=
  match w.phase i with
  | .start => (w.store, .opened)
  | .opened =>
    match getShowtimeById w.store c.req.showtimeId with
    | .error e => (w.store, .failing e)
    | .ok showtime =>
      if isDateInThePast c.now showtime.endTime then
        (w.store, .failing (mkError "Showtime has already ended. Cannot book ticket."))
      else (w.store, .loaded)
  | .loaded =>
    if isSeatAlreadyBooked w.store c.req.showtimeId c.req.seatNumber then
      (w.store, .failing (mkError "Seat is already booked for this showtime."))
    else (w.store, .probed)
  | .probed =>
    if seatLockedByOther n w i c.req.showtimeId c.req.seatNumber then (w.store, .probed)
    else
      match ticketCreate none { w.store with tickets := w.store.tickets ++ pendingTickets n w }
          c.req.showtimeId c.req.seatNumber c.req.userId c.uuid with
      | (.error e, _) => (w.store, .failing e)
      | (.ok ticket, _) => (w.store, .inserted ticket)
  | .inserted ticket =>
    ({ w.store with tickets := w.store.tickets ++ [ticket] }, .finished (.ok ticket))
  | .failing err =>
    if err.name = "SequelizeUniqueConstraintError" then
      (w.store, .finished (.error (mkError "Seat is already booked for this showtime.")))
    else (w.store, .finished (.error err))
  | .finished result => (w.store, .finished result)

/-- The scheduler lets call `i` run its next statement. -/
def step (calls : List BookingCall) (w : World) (i : Nat) : World :=
  match calls[i]? with
  | none => w
  | some c =>
    let r := stepCall calls.length w i c
    ⟨r.1, Function.update w.phase i r.2⟩

/-- An interleaving: the calls take their statements in the order of the schedule. -/
def run (calls : List BookingCall) (w : World) (schedule : List Nat) : World :=
  schedule.foldl (step calls) w

/-- All calls have just been made on the store `db`. -/
def initialWorld (db : Store) : World := ⟨db, fun _ => Phase.start⟩

/-- The call has returned or thrown. -/
def Phase.isFinished : Phase → Bool
  | .finished _ => true
  | _ => false

/-- Every one of the calls has returned or thrown. -/
def AllFinished (calls : List BookingCall) (w : World) : Prop :=
  ∀ i < calls.length, (w.phase i).isFinished = true

instance (calls : List BookingCall) (w : World) : Decidable (AllFinished calls w) := by
  unfold AllFinished; infer_instance

/-- The call holds the seat: its row is inserted, committed or not. -/
def Phase.holds : Phase → Bool
  | .inserted _ => true
  | .finished (.ok _) => true
  | _ => false

/-- The call has returned a ticket. -/
def Phase.isOk : Phase → Bool
  | .finished (.ok _) => true
  | _ => false

/-- The call has met an error. -/
def Phase.bad : Phase → Bool
  | .failing _ => true
  | .finished (.error _) => true
  | _ => false

/-- The number of statements the call has still to run, at most. -/
def Phase.remaining : Phase → Nat
  | .start => 5
  | .opened => 4
  | .loaded => 3
  | .probed => 2
  | .inserted _ => 1
  | .failing _ => 1
  | .finished _ => 0

/-- The phases calls for one free seat of a running showtime can be in. -/
def Phase.Good (showtimeId : Nat) (seatNumber : Int) : Phase → Prop
  | .inserted t => t.showtimeId = showtimeId ∧ t.seatNumber = seatNumber
  | .failing e => e = mkError "Seat is already booked for this showtime." ∨ e = uniqueConstraintError
  | .finished (.error e) => e = mkError "Seat is already booked for this showtime."
  | _ => True

/-- The invariant of the interleaved calls for one seat of the store `db`. -/
structure SeatRace (n : Nat) (db : Store) (showtimeId : Nat) (seatNumber : Int) (w : World) :
    Prop where
  showtimes : w.store.showtimes = db.showtimes
  good : ∀ i < n, (w.phase i).Good showtimeId seatNumber
  holder : ∀ i < n, ∀ j < n, (w.phase i).holds = true → (w.phase j).holds = true → i = j
  booked : isSeatAlreadyBooked w.store showtimeId seatNumber = true ↔
    ∃ i < n, (w.phase i).isOk = true
  failed : (∃ i < n, (w.phase i).bad = true) → ∃ i < n, (w.phase i).isOk = true

/-- The number of statements the first `n` calls have still to run, at most. -/
def remainingTotal (n : Nat) (w : World) : Nat :=
  ∑ j in Finset.range n, (w.phase j).remaining

/-- The showtime has an owning movie and lasts exactly that movie's duration. -/
def ownerDurationMatches (db : Store) (s : Showtime) : Bool :=
  match findMovieById db (some s.movieId) with
  | some movie => matchesExactDuration s.startTime s.endTime movie.duration
  | none => false

/-- Every showtime of the store lasts exactly the duration of its owning movie. -/
def DurationMatch (db : Store) : Prop :=
  ∀ s ∈ db.showtimes, ownerDurationMatches db s = true

instance (db : Store) : Decidable (DurationMatch db) := by
  unfold DurationMatch; infer_instance

/-- The keys of the `Showtimes` table come from an auto-increment column that starts
at 1: no row has the id 0. -/
def PositiveKeys (db : Store) : Prop := ∀ s ∈ db.showtimes, s.id ≠ 0

instance (db : Store) : Decidable (PositiveKeys db) := by
  unfold PositiveKeys; infer_instance

/-- The primary key of the `Movies` table: no two rows share an id. -/
def MovieKeys (db : Store) : Prop := (db.movies.map (fun m => m.id)).Nodup

instance (db : Store) : Decidable (MovieKeys db) := by
  unfold MovieKeys; infer_instance

/-- The message of the error `deleteMovie` throws when a future showtime has a ticket. -/
def pendingSalesMessage : String :=
  "Cannot delete movie, this movie has upcoming showtimes for which " ++
    "tickets have already been sold."

/-- A call of the movie service that writes: its arguments and the clock reading. -/
inductive MovieCall where
  | create (data : MovieData)
  | update (now : Int) (movieTitle : String) (data : MovieUpdate)
  | delete (now : Int) (movieTitle : String)
deriving Repr

/-- The store after one call of the movie service, whether it succeeds or fails. -/
def runMovieCall (db : Store) : MovieCall → Store
  | .create data => (createMovie db data).2
  | .update now movieTitle data => (updateMovie now db movieTitle data).2
  | .delete now movieTitle => (deleteMovie now db movieTitle).2

/-- The store after a sequence of calls of the movie service, one after the other. -/
def runMovieCalls (db : Store) (calls : List MovieCall) : Store :=
  calls.foldl runMovieCall db

/-- The call is not an update whose data gives the empty string as the title. -/
def MovieCall.NoEmptyTitle : MovieCall → Prop
  | .update _ _ data => data.title ≠ some ""
  | _ => True

/-- The movie titles of the store are pairwise distinct. -/
def TitlesDistinct (db : Store) : Prop := (db.movies.map (fun m => m.title)).Nodup

instance (db : Store) : Decidable (TitlesDistinct db) := by
  unfold TitlesDistinct; infer_instance

/-! ## Controllers (`src/controllers`) and the error handler (`src/utils/errorHandler.js`) -/

/-- Whether the characters of the text begin with the characters of the pattern. -/
def startsWithChars : List Char → List Char → Bool
  | _, [] => true
  | [], _ :: _ => false
  | c :: cs, p :: ps => c == p && startsWithChars cs ps

/-- Whether the pattern occurs in the text, as a list of characters. -/
def includesChars : List Char → List Char → Bool
  | [], p => p.isEmpty
  | c :: cs, p => startsWithChars (c :: cs) p || includesChars cs p

/-- The JavaScript `String.prototype.includes`. -/
def includes (s searchString : String) : Bool := includesChars s.data searchString.data

/-- The JSON body written by `handleError`. -/
structure ErrorBody where
  success : Bool
  message : String
  details : Option String
deriving DecidableEq, Repr

/-- An HTTP response: the status code and, for a response written by `handleError`, its
body; the payload of a success response is not modelled. -/
structure Response where
  status : Nat
  body : Option ErrorBody
deriving DecidableEq, Repr

/-- The JavaScript `handleError`: `res.status(status).json({ success: false, message, details })`. -/
def handleError (status : Nat) (message : String) (details : Option String) : Response :=
  ⟨status, some ⟨false, message, details⟩⟩

/-- The `catch` block of the controller `updateMovie` (`movieController.js`). -/
def movieController.updateMovieCatch (err : JsError) : Response :=
  if err.message == "Movie not found" then handleError 404 err.message none
  else if includes err.message "failed due to scheduling conflicts" ||
      includes err.message "Renaming the movie" then
    handleError 400 err.message none
  else handleError 500 "Server error" (some err.message)

/-- The controller `updateMovie` (`movieController.js`).  The outcome of `validateMovie`
on the request body is given as `validationError`. -/
def movieController.updateMovie (validationError : Option String) (now : Int) (db : Store)
    (movieTitle : String) (body : MovieUpdate) : Response × Store :=
  match validationError with
  | some message => (handleError 400 message none, db)
  | none =>
    match PopcornPalace.updateMovie now db movieTitle body with
    | (.ok _, db1) => (⟨200, none⟩, db1)
    | (.error err, db1) => (movieController.updateMovieCatch err, db1)

/-- The `catch` block of the controller `updateShowtime` (`showtimeController.js`). -/
def showtimeController.updateShowtimeCatch (err : JsError) : Response :=
  if err.message == "Showtime not found" then handleError 404 err.message none
  else if includes err.message "overlaps" || includes err.message "duration" ||
      includes err.message "tickets sold" || includes err.message "non-existing movie" ||
      includes err.message "already ended" then
    handleError 400 err.message none
  else handleError 500 "Server error" (some err.message)

/-! ## Validators (`src/utils/validators.js`) -/

/-- The state of the validators module: the constant `now`, bound once when the module
is loaded. -/
structure Validators where
  now : Int
deriving DecidableEq, Repr

/-- Loading the validators module while the clock reads `clock`: `const now = new Date()`. -/
def loadValidators (clock : Int) : Validators := ⟨clock⟩

/-- A request body for a showtime with every field present and of its type; the price is
a whole number. -/
structure ShowtimeBody where
  movieId : Int
  theater : String
  startTime : Int
  endTime : Int
  price : Int
deriving DecidableEq, Repr

/-- The regular expression `lettersOnly`: words of letters separated by single spaces. -/
def lettersOnly : List Char → Bool
  | [] => false
  | [c] => c.isAlpha
  | c :: d :: cs => c.isAlpha && (if d == ' ' then lettersOnly cs else lettersOnly (d :: cs))

/-- The white space and line terminators of the language, which `trim()` removes. -/
def isJsWhiteSpace (c : Char) : Bool :=
  (9 ≤ c.toNat && c.toNat ≤ 13) || c.toNat == 32 || c.toNat == 160 || c.toNat == 5760 ||
    (8192 ≤ c.toNat && c.toNat ≤ 8202) || c.toNat == 8232 || c.toNat == 8233 ||
    c.toNat == 8239 || c.toNat == 8287 || c.toNat == 12288 || c.toNat == 65279

/-- The characters of a string without the white space at its two ends: `trim()`. -/
def trimChars (cs : List Char) : List Char :=
  ((cs.dropWhile isJsWhiteSpace).reverse.dropWhile isJsWhiteSpace).reverse

/-- The JavaScript `validateShowtime`: the message of the first rule of `showtimeSchema`
that the body breaks, in the order of the schema, or `none`.  The start time is compared
with the constant `now` of the module; the function reads no clock. -/
def validateShowtime (validators : Validators) (data : ShowtimeBody) : Option String :=
  if (trimChars data.theater.data).isEmpty then some "\"theater\" is not allowed to be empty"
  else if !lettersOnly (trimChars data.theater.data) then
    some "Theater name must contain only letters and spaces (no numbers or special characters)."
  else if data.startTime < validators.now then some "Start time cannot be in the past."
  else if ¬ data.endTime > data.startTime then some "End time must be after start time."
  else if data.price ≤ 0 then some "\"price\" must be a positive number"
  else if data.price < 1 then some "Price must be at least 1."
  else if data.price > 1000 then some "Price must not exceed 1000."
  else none

/-! # Theorems -/

/-! ## The loop of `deleteMovie` -/

theorem deleteLoop_nil (now : Int) (db : Store) : deleteLoop now [] db = (none, db) := rfl

theorem deleteLoop_cons (now : Int) (st : Showtime) (rest : List Showtime) (db : Store) :
    deleteLoop now (st :: rest) db =
      match deleteShowtime now db st.id with
      | (.error e, db1) => (some e, db1)
      | (.ok _, db1) => deleteLoop now rest db1 := by
  unfold deleteLoop
  rw [deleteLoopRun]
  split <;> rfl

theorem deleteMovie_eq (now : Int) (db : Store) (movieTitle : String) :
    deleteMovie now db movieTitle =
      match findMovieByTitle db movieTitle with
      | none => (.error (mkError "Movie not found"), db)
      | some movie =>
        let existingShowtimes := findShowtimesByMovieId db movie.id
        let futureShowtimes := existingShowtimes.filter (fun st => decide (st.endTime ≥ now))
        if anyTicketsSold db futureShowtimes then
          (.error (mkError ("Cannot delete movie, this movie has upcoming showtimes for " ++
            "which tickets have already been sold.")), db)
        else
          match deleteLoop now futureShowtimes db with
          | (some e, db1) => (.error e, db1)
          | (none, db1) => (.ok (), movieDestroy db1 movie) := by
  unfold deleteMovie deleteMovieRun deleteLoop
  cases findMovieByTitle db movieTitle with
  | none => rfl
  | some movie =>
    simp only
    split
    · rfl
    · rcases deleteLoopRun now ((findShowtimesByMovieId db movie.id).filter
        (fun st => decide (st.endTime ≥ now))) db with ⟨⟨r, db1⟩, calls⟩
      cases r <;> rfl


/-! ## Booking: the outcome of `bookTicket`, case by case -/

theorem seat_any_eq_isSeatAlreadyBooked (db : Store) (sid : Nat) (seat : Int) :
    db.tickets.any (fun t => t.showtimeId == sid && t.seatNumber == seat) =
      isSeatAlreadyBooked db sid seat := by
  unfold isSeatAlreadyBooked
  rw [Bool.eq_iff_iff]
  simp [List.any_eq_true, List.find?_isSome]

theorem getShowtimeById_ok_mem {db : Store} {id : Nat} {st : Showtime}
    (h : getShowtimeById db id = .ok st) : st ∈ db.showtimes ∧ st.id = id := by
  unfold getShowtimeById at h
  split at h
  · cases h
  · next s hs =>
    cases h
    exact ⟨List.mem_of_find?_eq_some hs, by simpa using List.find?_some hs⟩

theorem getShowtimeById_error {db : Store} {id : Nat} {e : JsError}
    (h : getShowtimeById db id = .error e) :
    e = mkError "Showtime not found" ∧ ∀ s ∈ db.showtimes, s.id ≠ id := by
  unfold getShowtimeById at h
  split at h
  · next hs =>
    cases h
    refine ⟨rfl, ?_⟩
    intro s hm
    have := List.find?_eq_none.mp hs s hm
    simpa using this
  · cases h

theorem showtime_any_of_ok {db : Store} {id : Nat} {st : Showtime}
    (h : getShowtimeById db id = .ok st) : db.showtimes.any (fun s => s.id == id) = true := by
  obtain ⟨hm, hid⟩ := getShowtimeById_ok_mem h
  exact List.any_eq_true.mpr ⟨st, hm, by simp [hid]⟩

theorem bookTicket_not_found {env : Env} {db : Store} {req : BookingRequest} {e : JsError}
    (h : getShowtimeById db req.showtimeId = .error e) :
    bookTicket env db req =
      ⟨.error (mkError "Showtime not found"), db, [TxEvent.opened, TxEvent.rollback]⟩ := by
  obtain ⟨rfl, -⟩ := getShowtimeById_error h
  simp [bookTicket, bookTicketTry, sequelizeTransaction, h, Transaction.rollback, mkError]

theorem bookTicket_ended {env : Env} {db : Store} {req : BookingRequest} {st : Showtime}
    (h : getShowtimeById db req.showtimeId = .ok st)
    (hp : isDateInThePast env.now st.endTime = true) :
    bookTicket env db req =
      ⟨.error (mkError "Showtime has already ended. Cannot book ticket."), db,
        [TxEvent.opened, TxEvent.rollback]⟩ := by
  simp [bookTicket, bookTicketTry, sequelizeTransaction, h, hp, Transaction.rollback, mkError]

theorem bookTicket_taken {env : Env} {db : Store} {req : BookingRequest} {st : Showtime}
    (h : getShowtimeById db req.showtimeId = .ok st)
    (hp : isDateInThePast env.now st.endTime = false)
    (hb : isSeatAlreadyBooked db req.showtimeId req.seatNumber = true) :
    bookTicket env db req =
      ⟨.error (mkError "Seat is already booked for this showtime."), db,
        [TxEvent.opened, TxEvent.rollback]⟩ := by
  simp [bookTicket, bookTicketTry, sequelizeTransaction, h, hp, hb, Transaction.rollback, mkError]

theorem bookTicket_fault {env : Env} {db : Store} {req : BookingRequest} {st : Showtime}
    {e : JsError}
    (h : getShowtimeById db req.showtimeId = .ok st)
    (hp : isDateInThePast env.now st.endTime = false)
    (hb : isSeatAlreadyBooked db req.showtimeId req.seatNumber = false)
    (hf : env.insertFault = some e) :
    bookTicket env db req =
      ⟨.error (if e.name = "SequelizeUniqueConstraintError" then
          mkError "Seat is already booked for this showtime." else e), db,
        [TxEvent.opened, TxEvent.rollback]⟩ := by
  by_cases hn : e.name = "SequelizeUniqueConstraintError" <;>
  simp [bookTicket, bookTicketTry, sequelizeTransaction, h, hp, hb, hf, createTicket,
    ticketCreate, Transaction.rollback, hn]

theorem bookTicket_success {env : Env} {db : Store} {req : BookingRequest} {st : Showtime}
    (h : getShowtimeById db req.showtimeId = .ok st)
    (hp : isDateInThePast env.now st.endTime = false)
    (hb : isSeatAlreadyBooked db req.showtimeId req.seatNumber = false)
    (hf : env.insertFault = none) :
    bookTicket env db req =
      ⟨.ok (mintedTicket env db req),
        { db with tickets := db.tickets ++ [mintedTicket env db req] },
        [TxEvent.opened, TxEvent.commit]⟩ := by
  have hany := seat_any_eq_isSeatAlreadyBooked db req.showtimeId req.seatNumber
  rw [hb] at hany
  have hfk := showtime_any_of_ok h
  simp [bookTicket, bookTicketTry, sequelizeTransaction, h, hp, hb, hf, createTicket,
    ticketCreate, Transaction.commit, hany, hfk, mintedTicket]

/-- The five ways a `bookTicket` call can go, each with its full outcome. -/
theorem bookTicket_cases (env : Env) (db : Store) (req : BookingRequest) :
    (∃ e, getShowtimeById db req.showtimeId = .error e ∧
      bookTicket env db req =
        ⟨.error (mkError "Showtime not found"), db, [TxEvent.opened, TxEvent.rollback]⟩) ∨
    (∃ st, getShowtimeById db req.showtimeId = .ok st ∧
      isDateInThePast env.now st.endTime = true ∧
      bookTicket env db req =
        ⟨.error (mkError "Showtime has already ended. Cannot book ticket."), db,
          [TxEvent.opened, TxEvent.rollback]⟩) ∨
    (∃ st, getShowtimeById db req.showtimeId = .ok st ∧
      isDateInThePast env.now st.endTime = false ∧
      isSeatAlreadyBooked db req.showtimeId req.seatNumber = true ∧
      bookTicket env db req =
        ⟨.error (mkError "Seat is already booked for this showtime."), db,
          [TxEvent.opened, TxEvent.rollback]⟩) ∨
    (∃ st e, getShowtimeById db req.showtimeId = .ok st ∧
      isDateInThePast env.now st.endTime = false ∧
      isSeatAlreadyBooked db req.showtimeId req.seatNumber = false ∧
      env.insertFault = some e ∧
      bookTicket env db req =
        ⟨.error (if e.name = "SequelizeUniqueConstraintError" then
            mkError "Seat is already booked for this showtime." else e), db,
          [TxEvent.opened, TxEvent.rollback]⟩) ∨
    (∃ st, getShowtimeById db req.showtimeId = .ok st ∧
      isDateInThePast env.now st.endTime = false ∧
      isSeatAlreadyBooked db req.showtimeId req.seatNumber = false ∧
      env.insertFault = none ∧
      bookTicket env db req =
        ⟨.ok (mintedTicket env db req),
          { db with tickets := db.tickets ++ [mintedTicket env db req] },
          [TxEvent.opened, TxEvent.commit]⟩) := by
  cases h : getShowtimeById db req.showtimeId with
  | error e => exact Or.inl ⟨e, rfl, bookTicket_not_found h⟩
  | ok st =>
    cases hp : isDateInThePast env.now st.endTime with
    | true => exact Or.inr (Or.inl ⟨st, rfl, hp, bookTicket_ended h hp⟩)
    | false =>
      cases hb : isSeatAlreadyBooked db req.showtimeId req.seatNumber with
      | true => exact Or.inr (Or.inr (Or.inl ⟨st, rfl, hp, rfl, bookTicket_taken h hp hb⟩))
      | false =>
        cases hf : env.insertFault with
        | some e =>
          exact Or.inr (Or.inr (Or.inr (Or.inl ⟨st, e, rfl, hp, rfl, rfl,
            bookTicket_fault h hp hb hf⟩)))
        | none =>
          exact Or.inr (Or.inr (Or.inr (Or.inr ⟨st, rfl, hp, rfl, rfl,
            bookTicket_success h hp hb hf⟩)))

theorem isSeatAlreadyBooked_false_iff (db : Store) (sid : Nat) (seat : Int) :
    isSeatAlreadyBooked db sid seat = false ↔ (sid, seat) ∉ db.tickets.map Ticket.seat := by
  unfold isSeatAlreadyBooked
  rw [← Bool.not_eq_true, List.find?_isSome]
  simp [Ticket.seat, Prod.ext_iff]

theorem bookTicket_store (env : Env) (db : Store) (req : BookingRequest) :
    (bookTicket env db req).store = db ∨
    (isSeatAlreadyBooked db req.showtimeId req.seatNumber = false ∧
      (bookTicket env db req).store =
        { db with tickets := db.tickets ++ [mintedTicket env db req] }) := by
  rcases bookTicket_cases env db req with ⟨_, _, h⟩ | ⟨_, _, _, h⟩ | ⟨_, _, _, _, h⟩ |
    ⟨_, _, _, _, _, _, h⟩ | ⟨_, _, _, hb, _, h⟩
  · exact Or.inl (by rw [h])
  · exact Or.inl (by rw [h])
  · exact Or.inl (by rw [h])
  · exact Or.inl (by rw [h])
  · exact Or.inr ⟨hb, by rw [h]⟩

theorem bookTicket_preserves_seatsUnique (env : Env) (db : Store) (req : BookingRequest)
    (h : SeatsUnique db) : SeatsUnique (bookTicket env db req).store := by
  rcases bookTicket_store env db req with hs | ⟨hb, hs⟩
  · rw [hs]; exact h
  · rw [hs]
    unfold SeatsUnique at *
    rw [isSeatAlreadyBooked_false_iff] at hb
    simp only [List.map_append, List.map_cons, List.map_nil]
    refine List.Nodup.append h (List.nodup_singleton _) ?_
    simp only [List.disjoint_singleton]
    simpa [mintedTicket, Ticket.seat] using hb

/-- C1. Seat uniqueness is an invariant of booking: from a store in which no two tickets
share a `(showtimeId, seatNumber)`, every sequence of `bookTicket` calls, each with any
arguments, any clock reading, any minted token and any storage fault, succeeding or
failing, leaves a store in which no two tickets share a `(showtimeId, seatNumber)`. -/
theorem seat_uniqueness_invariant (calls : List (Env × BookingRequest)) (db : Store)
    (h : SeatsUnique db) : SeatsUnique (bookAll db calls) := by
  induction calls generalizing db with
  | nil => exact h
  | cons c rest ih =>
    obtain ⟨env, req⟩ := c
    exact ih _ (bookTicket_preserves_seatsUnique env db req h)

/-- Witness for C1: two bookings of the same seat and one of another seat, on a store
that already holds a ticket. -/
theorem seat_uniqueness_invariant_witness :
    SeatsUnique ⟨[], [⟨1, 1, "A", 0, 6000000, 10⟩], [⟨1, 1, 5, "u0", "b0"⟩]⟩ ∧
    SeatsUnique (bookAll ⟨[], [⟨1, 1, "A", 0, 6000000, 10⟩], [⟨1, 1, 5, "u0", "b0"⟩]⟩
      [(⟨100, "b1", none⟩, ⟨1, 10, "U1"⟩), (⟨100, "b2", none⟩, ⟨1, 10, "U2"⟩),
        (⟨100, "b3", none⟩, ⟨1, 5, "U3"⟩)]) :=
  ⟨by decide, seat_uniqueness_invariant _ _ (by decide)⟩

/-- C3. Every failing `bookTicket` call (the showtime lookup fails, the showtime has ended,
the seat is taken, the insert fails) has called `rollback` once after opening the
transaction and has not called `commit`, and leaves the store exactly as it was; every
successful call has called `commit` once and never `rollback`. -/
theorem rollback_on_every_failure (env : Env) (db : Store) (req : BookingRequest) :
    (∀ e, (bookTicket env db req).result = .error e →
      (bookTicket env db req).log = [TxEvent.opened, TxEvent.rollback] ∧
      (bookTicket env db req).store = db) ∧
    (∀ t, (bookTicket env db req).result = .ok t →
      (bookTicket env db req).log = [TxEvent.opened, TxEvent.commit]) := by
  rcases bookTicket_cases env db req with ⟨_, _, h⟩ | ⟨_, _, _, h⟩ | ⟨_, _, _, _, h⟩ |
    ⟨_, _, _, _, _, _, h⟩ | ⟨_, _, _, _, _, h⟩ <;>
  · rw [h]
    constructor
    · intro e he
      first
        | exact ⟨rfl, rfl⟩
        | cases he
    · intro t ht
      first
        | rfl
        | cases ht

/-- Witness for C3: a booking of a taken seat fails and rolls back; the store is unchanged. -/
theorem rollback_on_every_failure_witness :
    (bookTicket ⟨100, "b1", none⟩ ⟨[], [⟨1, 1, "A", 0, 6000000, 10⟩], [⟨1, 1, 5, "u0", "b0"⟩]⟩
        ⟨1, 5, "U1"⟩).log = [TxEvent.opened, TxEvent.rollback] ∧
    (bookTicket ⟨100, "b1", none⟩ ⟨[], [⟨1, 1, "A", 0, 6000000, 10⟩], [⟨1, 1, 5, "u0", "b0"⟩]⟩
        ⟨1, 5, "U1"⟩).store = ⟨[], [⟨1, 1, "A", 0, 6000000, 10⟩], [⟨1, 1, 5, "u0", "b0"⟩]⟩ :=
  (rollback_on_every_failure ⟨100, "b1", none⟩
    ⟨[], [⟨1, 1, "A", 0, 6000000, 10⟩], [⟨1, 1, 5, "u0", "b0"⟩]⟩ ⟨1, 5, "U1"⟩).1
    (mkError "Seat is already booked for this showtime.") (by decide)

/-- C4. When the insert inside `bookTicket` is reached and fails, a unique-constraint error
becomes the error `Seat is already booked for this showtime.`, and any other error is
thrown on as it is, name and message unchanged. -/
theorem insert_failure_translation (env : Env) (db : Store) (req : BookingRequest)
    (st : Showtime) (e : JsError) (tx1 : Transaction)
    (hs : getShowtimeById db req.showtimeId = .ok st)
    (hp : isDateInThePast env.now st.endTime = false)
    (hb : isSeatAlreadyBooked db req.showtimeId req.seatNumber = false)
    (hins : createTicket env (sequelizeTransaction db) req = (.error e, tx1)) :
    (e.name = "SequelizeUniqueConstraintError" →
      (bookTicket env db req).result =
        .error (mkError "Seat is already booked for this showtime.")) ∧
    (e.name ≠ "SequelizeUniqueConstraintError" →
      (bookTicket env db req).result = .error e) := by
  have hany := seat_any_eq_isSeatAlreadyBooked db req.showtimeId req.seatNumber
  rw [hb] at hany
  have hfk := showtime_any_of_ok hs
  cases hf : env.insertFault with
  | none =>
    simp [createTicket, ticketCreate, sequelizeTransaction, hf, hany, hfk] at hins
  | some e1 =>
    have he : e1 = e := by
      simp [createTicket, ticketCreate, sequelizeTransaction, hf] at hins
      exact hins.1
    subst he
    rw [bookTicket_fault hs hp hb hf]
    constructor
    · intro hn; simp [hn]
    · intro hn; simp [hn]

/-- Witness for C4: after a clean probe the insert is rejected once by the unique index and
once with the storage error `DB fail`. -/
theorem insert_failure_translation_witness :
    (bookTicket ⟨100, "b1", some ⟨"SequelizeUniqueConstraintError", "duplicate"⟩⟩
        ⟨[], [⟨1, 1, "A", 0, 6000000, 10⟩], []⟩ ⟨1, 5, "U1"⟩).result =
      .error (mkError "Seat is already booked for this showtime.") ∧
    (bookTicket ⟨100, "b1", some ⟨"Error", "DB fail"⟩⟩
        ⟨[], [⟨1, 1, "A", 0, 6000000, 10⟩], []⟩ ⟨1, 5, "U1"⟩).result =
      .error ⟨"Error", "DB fail"⟩ :=
  ⟨(insert_failure_translation ⟨100, "b1", some ⟨"SequelizeUniqueConstraintError", "duplicate"⟩⟩
      ⟨[], [⟨1, 1, "A", 0, 6000000, 10⟩], []⟩ ⟨1, 5, "U1"⟩ ⟨1, 1, "A", 0, 6000000, 10⟩
      ⟨"SequelizeUniqueConstraintError", "duplicate"⟩
      ⟨⟨[], [⟨1, 1, "A", 0, 6000000, 10⟩], []⟩, ⟨[], [⟨1, 1, "A", 0, 6000000, 10⟩], []⟩,
        [TxEvent.opened]⟩
      rfl rfl rfl rfl).1 rfl,
    (insert_failure_translation ⟨100, "b1", some ⟨"Error", "DB fail"⟩⟩
      ⟨[], [⟨1, 1, "A", 0, 6000000, 10⟩], []⟩ ⟨1, 5, "U1"⟩ ⟨1, 1, "A", 0, 6000000, 10⟩
      ⟨"Error", "DB fail"⟩
      ⟨⟨[], [⟨1, 1, "A", 0, 6000000, 10⟩], []⟩, ⟨[], [⟨1, 1, "A", 0, 6000000, 10⟩], []⟩,
        [TxEvent.opened]⟩
      rfl rfl rfl rfl).2 (by decide)⟩
theorem isSeatAlreadyBooked_true_iff (db : Store) (sid : Nat) (seat : Int) :
    isSeatAlreadyBooked db sid seat = true ↔
      ∃ t ∈ db.tickets, t.showtimeId = sid ∧ t.seatNumber = seat := by
  unfold isSeatAlreadyBooked
  rw [List.find?_isSome]
  simp

theorem isDateInThePast_eq_false_iff (now date : Int) :
    isDateInThePast now date = false ↔ ¬ date < now := by
  simp [isDateInThePast]

/-- C5. When the showtime exists, its end is not before now and no ticket exists for the
seat, `bookTicket` (the storage layer raising no error of its own) succeeds: it returns a
ticket with the given showtime id, seat number and user id and the minted booking id,
appends exactly that ticket to the tickets, and leaves every other ticket, every showtime
and every movie unchanged.  A later call for the same seat, by any user, while the
showtime has still not ended, fails with `Seat is already booked for this showtime.` -/
theorem booking_succeeds_once (env : Env) (db : Store) (req : BookingRequest) (st : Showtime)
    (hs : getShowtimeById db req.showtimeId = .ok st)
    (hnow : ¬ st.endTime < env.now)
    (hfree : ∀ t ∈ db.tickets, ¬ (t.showtimeId = req.showtimeId ∧ t.seatNumber = req.seatNumber))
    (hf : env.insertFault = none) :
    ∃ ticket : Ticket,
      (bookTicket env db req).result = .ok ticket ∧
      ticket.showtimeId = req.showtimeId ∧ ticket.seatNumber = req.seatNumber ∧
      ticket.userId = req.userId ∧ ticket.bookingId = env.uuid ∧
      (bookTicket env db req).store.tickets = db.tickets ++ [ticket] ∧
      (bookTicket env db req).store.showtimes = db.showtimes ∧
      (bookTicket env db req).store.movies = db.movies ∧
      ∀ (env2 : Env) (userId2 : String), ¬ st.endTime < env2.now →
        (bookTicket env2 (bookTicket env db req).store
            ⟨req.showtimeId, req.seatNumber, userId2⟩).result =
          .error (mkError "Seat is already booked for this showtime.") := by
  have hp := (isDateInThePast_eq_false_iff env.now st.endTime).mpr hnow
  have hb : isSeatAlreadyBooked db req.showtimeId req.seatNumber = false := by
    rw [← Bool.not_eq_true, isSeatAlreadyBooked_true_iff]
    rintro ⟨t, ht, h1, h2⟩
    exact hfree t ht ⟨h1, h2⟩
  have hrun := bookTicket_success hs hp hb hf
  refine ⟨mintedTicket env db req, by rw [hrun], rfl, rfl, rfl, rfl, by rw [hrun], by rw [hrun],
    by rw [hrun], ?_⟩
  intro env2 userId2 hnow2
  rw [hrun]
  have hs2 : getShowtimeById { db with tickets := db.tickets ++ [mintedTicket env db req] }
      (BookingRequest.mk req.showtimeId req.seatNumber userId2).showtimeId = .ok st := hs
  have hp2 := (isDateInThePast_eq_false_iff env2.now st.endTime).mpr hnow2
  have hb2 : isSeatAlreadyBooked { db with tickets := db.tickets ++ [mintedTicket env db req] }
      (BookingRequest.mk req.showtimeId req.seatNumber userId2).showtimeId
      (BookingRequest.mk req.showtimeId req.seatNumber userId2).seatNumber = true := by
    rw [isSeatAlreadyBooked_true_iff]
    exact ⟨mintedTicket env db req, by simp, rfl, rfl⟩
  rw [bookTicket_taken hs2 hp2 hb2]

/-- Witness for C5: the scenario of the specification, seat 10 of showtime 1 booked by
`U1` and then asked for by `U2`. -/
theorem booking_succeeds_once_witness :
    ∃ ticket : Ticket,
      (bookTicket ⟨100, "b1", none⟩ ⟨[], [⟨1, 1, "A", 0, 6000000, 10⟩], []⟩
        ⟨1, 10, "U1"⟩).result = .ok ticket ∧
      ticket.bookingId = "b1" ∧
      (bookTicket ⟨200, "b2", none⟩
          (bookTicket ⟨100, "b1", none⟩ ⟨[], [⟨1, 1, "A", 0, 6000000, 10⟩], []⟩
            ⟨1, 10, "U1"⟩).store ⟨1, 10, "U2"⟩).result =
        .error (mkError "Seat is already booked for this showtime.") := by
  obtain ⟨ticket, h1, _, _, _, h5, _, _, _, h9⟩ :=
    booking_succeeds_once ⟨100, "b1", none⟩ ⟨[], [⟨1, 1, "A", 0, 6000000, 10⟩], []⟩
      ⟨1, 10, "U1"⟩ ⟨1, 1, "A", 0, 6000000, 10⟩ rfl (by decide) (by decide) rfl
  exact ⟨ticket, h1, h5, h9 ⟨200, "b2", none⟩ "U2" (by decide)⟩

/-- C6. The checks of `bookTicket` in their order: no showtime with the id gives
`Showtime not found`; otherwise an end before now gives the already-ended error, whether
or not the seat is taken; otherwise an existing ticket for the seat gives the
seat-already-booked error; and a call succeeds only if none of the three applies. -/
theorem booking_check_order (env : Env) (db : Store) (req : BookingRequest) :
    ((∀ s ∈ db.showtimes, s.id ≠ req.showtimeId) →
      (bookTicket env db req).result = .error (mkError "Showtime not found")) ∧
    (∀ st, getShowtimeById db req.showtimeId = .ok st → st.endTime < env.now →
      (bookTicket env db req).result =
        .error (mkError "Showtime has already ended. Cannot book ticket.")) ∧
    (∀ st, getShowtimeById db req.showtimeId = .ok st → ¬ st.endTime < env.now →
      (∃ t ∈ db.tickets, t.showtimeId = req.showtimeId ∧ t.seatNumber = req.seatNumber) →
      (bookTicket env db req).result =
        .error (mkError "Seat is already booked for this showtime.")) ∧
    (∀ ticket, (bookTicket env db req).result = .ok ticket →
      ∃ st, getShowtimeById db req.showtimeId = .ok st ∧ ¬ st.endTime < env.now ∧
        ¬ ∃ t ∈ db.tickets, t.showtimeId = req.showtimeId ∧ t.seatNumber = req.seatNumber) := by
  refine ⟨?_, ?_, ?_, ?_⟩
  · intro hnone
    cases h : getShowtimeById db req.showtimeId with
    | error e => rw [bookTicket_not_found h]
    | ok st =>
      obtain ⟨hm, hid⟩ := getShowtimeById_ok_mem h
      exact absurd hid (hnone st hm)
  · intro st hs hlt
    have hp : isDateInThePast env.now st.endTime = true := by simp [isDateInThePast, hlt]
    rw [bookTicket_ended hs hp]
  · intro st hs hnow hex
    have hp := (isDateInThePast_eq_false_iff env.now st.endTime).mpr hnow
    rw [bookTicket_taken hs hp ((isSeatAlreadyBooked_true_iff _ _ _).mpr hex)]
  · intro ticket hok
    rcases bookTicket_cases env db req with ⟨_, _, h⟩ | ⟨_, _, _, h⟩ | ⟨_, _, _, _, h⟩ |
      ⟨_, _, _, _, _, _, h⟩ | ⟨st, hs, hp, hb, _, h⟩
    · rw [h] at hok; cases hok
    · rw [h] at hok; cases hok
    · rw [h] at hok; cases hok
    · rw [h] at hok; cases hok
    · refine ⟨st, hs, (isDateInThePast_eq_false_iff _ _).mp hp, ?_⟩
      rw [← isSeatAlreadyBooked_true_iff, hb]
      simp

/-- Witness for C6: an ended showtime whose seat is also taken reports the ended error. -/
theorem booking_check_order_witness :
    (bookTicket ⟨7000000, "b1", none⟩
        ⟨[], [⟨1, 1, "A", 0, 6000000, 10⟩], [⟨1, 1, 5, "u0", "b0"⟩]⟩ ⟨1, 5, "U1"⟩).result =
      .error (mkError "Showtime has already ended. Cannot book ticket.") :=
  (booking_check_order ⟨7000000, "b1", none⟩
    ⟨[], [⟨1, 1, "A", 0, 6000000, 10⟩], [⟨1, 1, 5, "u0", "b0"⟩]⟩ ⟨1, 5, "U1"⟩).2.1
    ⟨1, 1, "A", 0, 6000000, 10⟩ rfl (by decide)

/-! ## Showtime lifecycle: inversion lemmas -/

theorem checkOverlappingShowtime_none_iff (db : Store) (theater : String) (startTime endTime : Int)
    (excludeId : Option Nat) :
    checkOverlappingShowtime db theater startTime endTime excludeId = none ↔
      ∀ s ∈ db.showtimes, overlapClause theater startTime endTime excludeId s = false := by
  unfold checkOverlappingShowtime
  rw [List.find?_eq_none]
  simp

theorem overlapClause_false_of_ne {theater : String} {startTime endTime : Int} {id : Nat}
    {s : Showtime} (h : overlapClause theater startTime endTime (some id) s = false)
    (hid : s.id ≠ id) (hth : s.theater = theater) :
    ¬ (s.startTime < endTime ∧ s.endTime > startTime) := by
  intro ⟨h1, h2⟩
  have : overlapClause theater startTime endTime (some id) s = true := by
    unfold overlapClause
    by_cases ht : truthyId (some id) = true <;> simp [hth, h1, h2, ht, hid]
  rw [h] at this
  cases this

theorem overlapClause_false_none {theater : String} {startTime endTime : Int}
    {s : Showtime} (h : overlapClause theater startTime endTime none s = false)
    (hth : s.theater = theater) :
    ¬ (s.startTime < endTime ∧ s.endTime > startTime) := by
  intro ⟨h1, h2⟩
  have : overlapClause theater startTime endTime none s = true := by
    simp [overlapClause, truthyId, hth, h1, h2]
  rw [h] at this
  cases this

theorem createShowtime_ok {db : Store} {data : ShowtimeData} {s : Showtime} {db1 : Store}
    (h : createShowtime db data = (.ok s, db1)) :
    (∃ movie, findMovieById db (some data.movieId) = some movie ∧
      matchesExactDuration data.startTime data.endTime movie.duration = true) ∧
    checkOverlappingShowtime db data.theater data.startTime data.endTime none = none ∧
    s = ⟨nextId (db.showtimes.map (fun s => s.id)), data.movieId, data.theater,
      data.startTime, data.endTime, data.price⟩ ∧
    db1 = { db with showtimes := db.showtimes ++ [s] } := by
  unfold createShowtime at h
  split at h
  · simp at h
  · next movie hm =>
    split at h
    · simp at h
    · next hd =>
      split at h
      · simp at h
      · next ho =>
        simp only [Prod.mk.injEq, Except.ok.injEq] at h
        obtain ⟨h1, h2⟩ := h
        subst h1
        exact ⟨⟨movie, hm, by simpa using hd⟩, ho, rfl, h2.symm⟩

theorem createShowtime_error {db : Store} {data : ShowtimeData} {e : JsError} {db1 : Store}
    (h : createShowtime db data = (.error e, db1)) : db1 = db := by
  unfold createShowtime at h
  split at h
  · simp at h; exact h.2.symm
  · split at h
    · simp at h; exact h.2.symm
    · split at h
      · simp at h; exact h.2.symm
      · simp at h

theorem updateShowtime_ok {now : Int} {db : Store} {id : Nat} {nd : ShowtimeUpdate} {skip : Bool}
    {s : Showtime} {db1 : Store}
    (h : updateShowtime now db id nd skip = (.ok s, db1)) :
    ∃ showtime movie, getShowtimeById db id = .ok showtime ∧
      isDateInThePast now showtime.endTime = false ∧
      findTicketsByShowtimeId db id = [] ∧
      findMovieById db nd.movieId = some movie ∧
      matchesExactDurationOf nd.startTime nd.endTime
        (durationToCompare nd.duration movie.duration) = true ∧
      (skip = false → ∃ th st en, nd.theater = some th ∧ nd.startTime = some st ∧
        nd.endTime = some en ∧ checkOverlappingShowtime db th st en (some id) = none) ∧
      s = showtime.applyUpdate nd ∧
      db1 = { db with showtimes :=
        db.showtimes.map (fun s => if s.id == showtime.id then s.applyUpdate nd else s) } := by
  unfold updateShowtime at h
  split at h
  · simp at h
  · next showtime hs =>
    split at h
    · simp at h
    · next hp =>
      split at h
      · simp at h
      · next ht =>
        split at h
        · simp at h
        · next movie hm =>
          split at h
          · simp at h
          · next hd =>
            simp only at h
            split at h
            · simp at h
            · next ho =>
              simp only [Prod.mk.injEq, Except.ok.injEq] at h
              refine ⟨showtime, movie, hs, by simpa using hp, ?_, hm, by simpa using hd, ?_,
                h.1.symm, h.2.symm⟩
              · simpa using ht
              · intro hsk
                subst hsk
                simp only [Bool.false_eq_true, if_false] at ho
                split at ho
                · next th st en hth hst hen =>
                  split at ho
                  · simp at ho
                  · next hc => exact ⟨th, st, en, hth, hst, hen, hc⟩
                · simp at ho

theorem updateShowtime_error {now : Int} {db : Store} {id : Nat} {nd : ShowtimeUpdate}
    {skip : Bool} {e : JsError} {db1 : Store}
    (h : updateShowtime now db id nd skip = (.error e, db1)) : db1 = db := by
  unfold updateShowtime at h
  split at h
  · simp at h; exact h.2.symm
  · split at h
    · simp at h; exact h.2.symm
    · split at h
      · simp at h; exact h.2.symm
      · split at h
        · simp at h; exact h.2.symm
        · split at h
          · simp at h; exact h.2.symm
          · simp only at h
            split at h
            · simp at h; exact h.2.symm
            · simp at h

theorem deleteShowtime_ok {now : Int} {db : Store} {id : Nat} {db1 : Store}
    (h : deleteShowtime now db id = (.ok (), db1)) :
    ∃ showtime, getShowtimeById db id = .ok showtime ∧
      isDateInThePast now showtime.endTime = false ∧
      findTicketsByShowtimeId db id = [] ∧
      db1 = { db with
        showtimes := db.showtimes.filter (fun s => !(s.id == id))
        tickets := db.tickets.filter (fun t => !(t.showtimeId == id)) } := by
  unfold deleteShowtime deleteShowtimeAmid at h
  split at h
  · simp at h
  · next showtime hs =>
    split at h
    · simp at h
    · next hp =>
      split at h
      · simp at h
      · next ht =>
        unfold destroyShowtimeRow showtimeDestroy at h
        simp only at h
        split at h
        · simp at h
        · simp only [Prod.mk.injEq, true_and] at h
          exact ⟨showtime, hs, by simpa using hp, by simpa using ht, h.symm⟩

theorem noOverlap_create {db : Store} {data : ShowtimeData} {s : Showtime} {db1 : Store}
    (hinv : NoOverlap db) (h : createShowtime db data = (.ok s, db1)) : NoOverlap db1 := by
  obtain ⟨-, hprobe, hs, hdb⟩ := createShowtime_ok h
  rw [checkOverlappingShowtime_none_iff] at hprobe
  have hst : s.theater = data.theater ∧ s.startTime = data.startTime ∧
      s.endTime = data.endTime := by subst hs; exact ⟨rfl, rfl, rfl⟩
  obtain ⟨h1, h2, h3⟩ := hst
  subst hdb
  intro a ha b hb hne hth
  simp only [List.mem_append, List.mem_singleton] at ha hb
  rcases ha with ha | ha <;> rcases hb with hb | hb
  · exact hinv a ha b hb hne hth
  · subst hb
    have := overlapClause_false_none (hprobe a ha) (by rw [hth, h1])
    unfold Showtime.overlaps
    rw [h2, h3]
    exact this
  · subst ha
    have := overlapClause_false_none (hprobe b hb) (by rw [← hth, h1])
    unfold Showtime.overlaps
    rw [h2, h3]
    intro ⟨x, y⟩
    exact this ⟨y, x⟩
  · subst ha; subst hb; exact absurd rfl hne

theorem noOverlap_update {now : Int} {db : Store} {id : Nat} {nd : ShowtimeUpdate}
    {s : Showtime} {db1 : Store}
    (hinv : NoOverlap db) (h : updateShowtime now db id nd false = (.ok s, db1)) :
    NoOverlap db1 := by
  obtain ⟨showtime, movie, hs, -, -, -, -, hprobe, -, hdb⟩ := updateShowtime_ok h
  obtain ⟨th, st, en, hth, hst, hen, hprobe⟩ := hprobe rfl
  rw [checkOverlappingShowtime_none_iff] at hprobe
  obtain ⟨-, hid⟩ := getShowtimeById_ok_mem hs
  subst hdb
  have key : ∀ a ∈ db.showtimes, a.id = id →
      (a.applyUpdate nd).id = id ∧ (a.applyUpdate nd).theater = th ∧
      (a.applyUpdate nd).startTime = st ∧ (a.applyUpdate nd).endTime = en := by
    intro a _ haid
    simp [Showtime.applyUpdate, hth, hst, hen, haid]
  intro a ha b hb hne hthe
  simp only [List.mem_map] at ha hb
  obtain ⟨a0, ha0, rfl⟩ := ha
  obtain ⟨b0, hb0, rfl⟩ := hb
  rw [hid] at hne hthe ⊢
  by_cases hai : a0.id = id <;> by_cases hbi : b0.id = id
  · simp only [hai, hbi, beq_self_eq_true, if_true] at hne
    exact absurd ((key a0 ha0 hai).1.trans (key b0 hb0 hbi).1.symm) hne
  · simp only [hai, beq_self_eq_true, if_true, beq_iff_eq, hbi, if_false] at hne hthe ⊢
    obtain ⟨-, k2, k3, k4⟩ := key a0 ha0 hai
    have := overlapClause_false_of_ne (hprobe b0 hb0) hbi (by rw [← hthe, k2])
    unfold Showtime.overlaps
    rw [k3, k4]
    intro ⟨x, y⟩
    exact this ⟨y, x⟩
  · simp only [hbi, beq_self_eq_true, if_true, beq_iff_eq, hai, if_false] at hne hthe ⊢
    obtain ⟨-, k2, k3, k4⟩ := key b0 hb0 hbi
    have := overlapClause_false_of_ne (hprobe a0 ha0) hai (by rw [hthe, k2])
    unfold Showtime.overlaps
    rw [k3, k4]
    exact this
  · simp only [beq_iff_eq, hai, hbi, if_false] at hne hthe ⊢
    exact hinv a0 ha0 b0 hb0 hne hthe

theorem noOverlap_delete {now : Int} {db : Store} {id : Nat} {db1 : Store}
    (hinv : NoOverlap db) (h : deleteShowtime now db id = (.ok (), db1)) : NoOverlap db1 := by
  obtain ⟨-, -, -, -, hdb⟩ := deleteShowtime_ok h
  subst hdb
  intro a ha b hb
  exact hinv a (List.mem_of_mem_filter ha) b (List.mem_of_mem_filter hb)

/-- C7. Non-overlap is an invariant of the showtime lifecycle: from a store in which no two
distinct showtimes of one theater overlap, every successful `createShowtime`, every
successful `updateShowtime` called with `skipOverlapCheck = false` and complete showtime
data, and every successful `deleteShowtime` leaves a store in which no two distinct
showtimes of one theater overlap. -/
theorem non_overlap_invariant (now : Int) (db : Store) (hinv : NoOverlap db) :
    (∀ data s db1, createShowtime db data = (.ok s, db1) → NoOverlap db1) ∧
    (∀ id newData s db1, newData.complete →
      updateShowtime now db id newData false = (.ok s, db1) → NoOverlap db1) ∧
    (∀ id db1, deleteShowtime now db id = (.ok (), db1) → NoOverlap db1) :=
  ⟨fun _ _ _ h => noOverlap_create hinv h,
    fun _ _ _ _ _ h => noOverlap_update hinv h,
    fun _ _ h => noOverlap_delete hinv h⟩

/-- Witness for C7: a showtime created next to another, then moved, then deleted. -/
theorem non_overlap_invariant_witness :
    NoOverlap (createShowtime ⟨[⟨1, "Inception", "SciFi", 100, 8, 2010⟩],
        [⟨1, 1, "A", 0, 6000000, 10⟩], []⟩ ⟨1, "A", 6000000, 12000000, 10⟩).2 ∧
    NoOverlap (updateShowtime 100 ⟨[⟨1, "Inception", "SciFi", 100, 8, 2010⟩],
        [⟨1, 1, "A", 0, 6000000, 10⟩, ⟨2, 1, "A", 6000000, 12000000, 10⟩], []⟩ 2
        ⟨some 1, some "A", some 7000000, some 13000000, some 12, none⟩ false).2 ∧
    NoOverlap (deleteShowtime 100 ⟨[⟨1, "Inception", "SciFi", 100, 8, 2010⟩],
        [⟨1, 1, "A", 0, 6000000, 10⟩, ⟨2, 1, "A", 6000000, 12000000, 10⟩], []⟩ 2).2 :=
  ⟨(non_overlap_invariant 100 ⟨[⟨1, "Inception", "SciFi", 100, 8, 2010⟩],
      [⟨1, 1, "A", 0, 6000000, 10⟩], []⟩ (by decide)).1
      ⟨1, "A", 6000000, 12000000, 10⟩ _ _ rfl,
    (non_overlap_invariant 100 ⟨[⟨1, "Inception", "SciFi", 100, 8, 2010⟩],
      [⟨1, 1, "A", 0, 6000000, 10⟩, ⟨2, 1, "A", 6000000, 12000000, 10⟩], []⟩ (by decide)).2.1 2
      ⟨some 1, some "A", some 7000000, some 13000000, some 12, none⟩ _ _ (by decide) rfl,
    (non_overlap_invariant 100 ⟨[⟨1, "Inception", "SciFi", 100, 8, 2010⟩],
      [⟨1, 1, "A", 0, 6000000, 10⟩, ⟨2, 1, "A", 6000000, 12000000, 10⟩], []⟩ (by decide)).2.2 2
      _ rfl⟩

/-! ## The duration cascade -/

theorem findShowtimeConflicts_none {db : Store} {newDuration : Int} :
    ∀ {showtimes : List Showtime}, findShowtimeConflicts db showtimes newDuration = none →
      ∀ s ∈ showtimes, checkOverlappingShowtime db s.theater s.startTime
        (calculateEndTime s.startTime newDuration) (some s.id) = none
  | [], _ => by simp
  | st :: rest, h => by
    unfold findShowtimeConflicts at h
    simp only at h
    split at h
    · cases h
    · next hc =>
      intro s hs
      rcases List.mem_cons.mp hs with rfl | hs
      · exact hc
      · exact findShowtimeConflicts_none h s hs

theorem findShowtimeConflicts_some {db : Store} {newDuration : Int} :
    ∀ {showtimes : List Showtime} {s : Showtime}, s ∈ showtimes →
      checkOverlappingShowtime db s.theater s.startTime
        (calculateEndTime s.startTime newDuration) (some s.id) ≠ none →
      findShowtimeConflicts db showtimes newDuration = some conflictMessage
  | [], _, hs, _ => by simp at hs
  | st :: rest, s, hs, hc => by
    unfold findShowtimeConflicts
    simp only
    split
    · rfl
    · next hn =>
      rcases List.mem_cons.mp hs with rfl | hs
      · exact absurd hn hc
      · exact findShowtimeConflicts_some hs hc

theorem cascadeShape_refl (db0 : Store) (probed : List Showtime) (newDuration : Int) :
    CascadeShape db0 probed newDuration db0 :=
  ⟨id, by simp, fun _ _ => Or.inl rfl⟩

theorem cascadeShape_noOverlap {db0 db : Store} {probed : List Showtime} {newDuration : Int}
    (hpos : PositiveLength db0) (hinv : NoOverlap db0)
    (hprobed : ∀ s ∈ probed, checkOverlappingShowtime db0 s.theater s.startTime
      (calculateEndTime s.startTime newDuration) (some s.id) = none)
    (hshape : CascadeShape db0 probed newDuration db) : NoOverlap db := by
  obtain ⟨f, hf, hcases⟩ := hshape
  intro a ha b hb hne hth
  rw [hf] at ha hb
  obtain ⟨a0, ha0, rfl⟩ := List.mem_map.mp ha
  obtain ⟨b0, hb0, rfl⟩ := List.mem_map.mp hb
  have pa := hpos a0 ha0
  have pb := hpos b0 hb0
  unfold Showtime.overlaps
  rcases hcases a0 ha0 with ea | ⟨hpa, ea⟩ <;> rcases hcases b0 hb0 with eb | ⟨hpb, eb⟩ <;>
    rw [ea, eb] at hne hth ⊢
  · exact hinv a0 ha0 b0 hb0 hne hth
  · have hc := (checkOverlappingShowtime_none_iff _ _ _ _ _).mp (hprobed b0 hpb) a0 ha0
    have := overlapClause_false_of_ne hc hne hth
    simp only [Showtime.extended] at hne hth ⊢
    intro ⟨x, y⟩
    exact this ⟨x, y⟩
  · have hc := (checkOverlappingShowtime_none_iff _ _ _ _ _).mp (hprobed a0 hpa) b0 hb0
    have := overlapClause_false_of_ne hc (Ne.symm hne) hth.symm
    simp only [Showtime.extended] at hne hth ⊢
    intro ⟨x, y⟩
    exact this ⟨y, x⟩
  · have hca := (checkOverlappingShowtime_none_iff _ _ _ _ _).mp (hprobed a0 hpa) b0 hb0
    have hcb := (checkOverlappingShowtime_none_iff _ _ _ _ _).mp (hprobed b0 hpb) a0 ha0
    simp only [Showtime.extended] at hne hth ⊢
    have h1 := overlapClause_false_of_ne hca (Ne.symm hne) hth.symm
    have h2 := overlapClause_false_of_ne hcb hne hth
    intro ⟨x, y⟩
    have h3 : ¬ b0.endTime > a0.startTime := fun h => h1 ⟨y, h⟩
    have h4 : ¬ a0.endTime > b0.startTime := fun h => h2 ⟨x, h⟩
    omega

theorem showtime_eq_of_id_eq {db : Store} (hkeys : ShowtimeKeys db) {a b : Showtime}
    (ha : a ∈ db.showtimes) (hb : b ∈ db.showtimes) (h : a.id = b.id) : a = b :=
  List.inj_on_of_nodup_map hkeys ha hb h

theorem mem_findShowtimesByMovieId {db : Store} {movieId : Nat} {s : Showtime} :
    s ∈ findShowtimesByMovieId db movieId ↔ s ∈ db.showtimes ∧ s.movieId = movieId := by
  simp [findShowtimesByMovieId, List.mem_filter]

theorem cascadeShape_step (now : Int) {db0 db : Store} {movie : Movie} {newDuration : Int}
    {st : Showtime} (hkeys : ShowtimeKeys db0)
    (hst : st ∈ findShowtimesByMovieId db0 movie.id)
    (hshape : CascadeShape db0 (findShowtimesByMovieId db0 movie.id) newDuration db) :
    CascadeShape db0 (findShowtimesByMovieId db0 movie.id) newDuration
      (updateShowtime now db st.id (cascadeData movie st newDuration) true).2 := by
  rcases hres : updateShowtime now db st.id (cascadeData movie st newDuration) true with ⟨r, db1⟩
  cases r with
  | error e =>
    rw [updateShowtime_error hres]
    exact hshape
  | ok s =>
    obtain ⟨showtime, -, hs, -, -, -, -, -, -, hdb⟩ := updateShowtime_ok hres
    obtain ⟨-, hid⟩ := getShowtimeById_ok_mem hs
    obtain ⟨f, hf, hcases⟩ := hshape
    obtain ⟨hst0, hmovie⟩ := mem_findShowtimesByMovieId.mp hst
    refine ⟨fun s0 => if (f s0).id == st.id then (f s0).applyUpdate
      (cascadeData movie st newDuration) else f s0, ?_, ?_⟩
    · subst hdb
      simp only [hf, List.map_map, hid]
      rfl
    · intro s0 hs0
      have hfid : (f s0).id = s0.id := by
        rcases hcases s0 hs0 with e | ⟨-, e⟩ <;> rw [e]
        rfl
      by_cases hi : s0.id = st.id
      · have heq : s0 = st := showtime_eq_of_id_eq hkeys hs0 hst0 hi
        subst heq
        refine Or.inr ⟨hst, ?_⟩
        simp only [hfid, beq_self_eq_true, if_true]
        rcases hcases s0 hs0 with e | ⟨-, e⟩ <;> rw [e] <;>
          simp [Showtime.applyUpdate, cascadeData, Showtime.extended, hmovie]
      · simp only [hfid, beq_iff_eq, hi, if_false]
        exact hcases s0 hs0

theorem cascadeShape_loop (now : Int) {db0 : Store} (movie : Movie) (newDuration : Int)
    (hkeys : ShowtimeKeys db0) :
    ∀ (todo : List Showtime) (db : Store),
      (∀ s ∈ todo, s ∈ findShowtimesByMovieId db0 movie.id) →
      CascadeShape db0 (findShowtimesByMovieId db0 movie.id) newDuration db →
      CascadeShape db0 (findShowtimesByMovieId db0 movie.id) newDuration
        (cascadeLoop now movie newDuration todo db).2
  | [], db, _, hshape => hshape
  | st :: rest, db, hsub, hshape => by
    have hstep := cascadeShape_step now hkeys (hsub st (List.mem_cons_self _ _)) hshape
    unfold cascadeLoop
    rcases hres : updateShowtime now db st.id (cascadeData movie st newDuration) true with ⟨r, db1⟩
    rw [hres] at hstep
    cases r with
    | error e => exact hstep
    | ok s =>
      exact cascadeShape_loop now movie newDuration hkeys rest db1
        (fun s hs => hsub s (List.mem_cons_of_mem _ hs)) hstep

theorem updateMovie_showtimes (now : Int) (db : Store) (movieTitle : String)
    (data : MovieUpdate) :
    (updateMovie now db movieTitle data).2.showtimes = db.showtimes ∨
    ∃ movie newDuration, findMovieByTitle db movieTitle = some movie ∧
      isRename data movie = false ∧
      raisedDuration data movie = some newDuration ∧
      findShowtimeConflicts db (findShowtimesByMovieId db movie.id) newDuration = none ∧
      (updateMovie now db movieTitle data).2.showtimes =
        (cascadeLoop now movie newDuration (findShowtimesByMovieId db movie.id) db).2.showtimes := by
  unfold updateMovie
  split
  · exact Or.inl rfl
  · next movie hm =>
    split
    · exact Or.inl rfl
    · next hr =>
      split
      · next newDuration hd =>
        simp only
        split
        · split
          · exact Or.inl rfl
          · next hc =>
            refine Or.inr ⟨movie, newDuration, hm, by simpa using hr, hd, hc, ?_⟩
            split <;> simp_all [movieUpdateRow]
        · exact Or.inl rfl
      · exact Or.inl rfl

/-- C8. The pre-check makes the mutation pass safe.  In a store with unique showtime ids
in which every showtime ends after it starts and no two distinct showtimes of one theater
overlap, if every probe of `findShowtimeConflicts` over the showtimes of the movie is
clean, then after the mutation pass of `updateMovie` over those showtimes, and after every
prefix of it, no two distinct showtimes of one theater overlap (two extended showtimes of
the same movie included), and the store `updateMovie` leaves has the same property. -/
theorem cascade_mutation_pass_safe (now : Int) (db : Store) (movie : Movie) (newDuration : Int)
    (hkeys : ShowtimeKeys db) (hpos : PositiveLength db) (hinv : NoOverlap db)
    (hclean : findShowtimeConflicts db (findShowtimesByMovieId db movie.id) newDuration = none) :
    (∀ k, NoOverlap (cascadeLoop now movie newDuration
      ((findShowtimesByMovieId db movie.id).take k) db).2) ∧
    (∀ movieTitle data, findMovieByTitle db movieTitle = some movie →
      raisedDuration data movie = some newDuration →
      NoOverlap (updateMovie now db movieTitle data).2) := by
  have hprobed := findShowtimeConflicts_none hclean
  have hloop : ∀ todo : List Showtime, (∀ s ∈ todo, s ∈ findShowtimesByMovieId db movie.id) →
      NoOverlap (cascadeLoop now movie newDuration todo db).2 := fun todo hsub =>
    cascadeShape_noOverlap hpos hinv hprobed
      (cascadeShape_loop now movie newDuration hkeys todo db hsub (cascadeShape_refl _ _ _))
  refine ⟨fun k => hloop _ (fun s hs => List.mem_of_mem_take hs), ?_⟩
  intro movieTitle data hm hd
  have hfull := hloop (findShowtimesByMovieId db movie.id) (fun _ h => h)
  rcases updateMovie_showtimes now db movieTitle data with h | ⟨m, d, hm1, -, hd1, -, h⟩
  · intro a ha b hb
    rw [h] at ha hb
    exact hinv a ha b hb
  · rw [hm] at hm1
    cases hm1
    rw [hd] at hd1
    cases hd1
    intro a ha b hb
    rw [h] at ha hb
    exact hfull a ha b hb

/-- Witness for C8: two showtimes of one movie in theater `A`, both extended from 100 to
110 minutes, next to a showtime of another movie. -/
theorem cascade_mutation_pass_safe_witness :
    NoOverlap (cascadeLoop 100 ⟨1, "Inception", "SciFi", 100, 8, 2010⟩ 110
      ((findShowtimesByMovieId ⟨[⟨1, "Inception", "SciFi", 100, 8, 2010⟩,
          ⟨2, "Heat", "Crime", 100, 8, 1995⟩],
        [⟨1, 1, "A", 0, 6000000, 10⟩, ⟨2, 1, "A", 7000000, 13000000, 10⟩,
          ⟨3, 2, "A", 14000000, 20000000, 10⟩], []⟩ 1).take 2)
      ⟨[⟨1, "Inception", "SciFi", 100, 8, 2010⟩, ⟨2, "Heat", "Crime", 100, 8, 1995⟩],
        [⟨1, 1, "A", 0, 6000000, 10⟩, ⟨2, 1, "A", 7000000, 13000000, 10⟩,
          ⟨3, 2, "A", 14000000, 20000000, 10⟩], []⟩).2 :=
  (cascade_mutation_pass_safe 100
    ⟨[⟨1, "Inception", "SciFi", 100, 8, 2010⟩, ⟨2, "Heat", "Crime", 100, 8, 1995⟩],
      [⟨1, 1, "A", 0, 6000000, 10⟩, ⟨2, 1, "A", 7000000, 13000000, 10⟩,
        ⟨3, 2, "A", 14000000, 20000000, 10⟩], []⟩
    ⟨1, "Inception", "SciFi", 100, 8, 2010⟩ 110
    (by decide) (by decide) (by decide) (by decide)).1 2

/-- C9. When `updateMovie` raises the duration of an existing movie (the update is not a
rename) and the probe of some future showtime of the movie, at its interval under the new
duration and itself excluded, finds a conflicting showtime, `updateMovie` fails with
`Movie duration update failed due to scheduling conflicts.` and the store is unchanged:
no showtime is updated and the movie keeps its fields. -/
theorem cascade_conflict_aborts (now : Int) (db : Store) (movieTitle : String)
    (data : MovieUpdate) (movie : Movie) (newDuration : Int) (st : Showtime)
    (hm : findMovieByTitle db movieTitle = some movie)
    (hr : isRename data movie = false)
    (hd : raisedDuration data movie = some newDuration)
    (hst : st ∈ findShowtimesByMovieId db movie.id)
    (hfuture : st.endTime ≥ now)
    (hconf : checkOverlappingShowtime db st.theater st.startTime
      (calculateEndTime st.startTime newDuration) (some st.id) ≠ none) :
    updateMovie now db movieTitle data =
      (.error (mkError "Movie duration update failed due to scheduling conflicts."), db) := by
  have hlen : ((findShowtimesByMovieId db movie.id).filter
      (fun st => decide (st.endTime ≥ now))).length > 0 := by
    apply List.length_pos_of_mem (a := st)
    simp [List.mem_filter, hst, hfuture]
  have hc := findShowtimeConflicts_some hst hconf
  unfold updateMovie
  simp only [hm, hr, hd, hlen, hc, if_true, Bool.false_eq_true, if_false]
  rfl

/-- Witness for C9: the second showtime starts 110 minutes after the first, so extending
the movie from 100 to 120 minutes makes the first run into the second. -/
theorem cascade_conflict_aborts_witness :
    updateMovie 100
      ⟨[⟨1, "Inception", "SciFi", 100, 8, 2010⟩],
        [⟨1, 1, "A", 0, 6000000, 10⟩, ⟨2, 1, "A", 6600000, 12600000, 10⟩], []⟩
      "Inception" ⟨none, none, some 120, none, none⟩ =
    (.error (mkError "Movie duration update failed due to scheduling conflicts."),
      ⟨[⟨1, "Inception", "SciFi", 100, 8, 2010⟩],
        [⟨1, 1, "A", 0, 6000000, 10⟩, ⟨2, 1, "A", 6600000, 12600000, 10⟩], []⟩) :=
  cascade_conflict_aborts 100
    ⟨[⟨1, "Inception", "SciFi", 100, 8, 2010⟩],
      [⟨1, 1, "A", 0, 6000000, 10⟩, ⟨2, 1, "A", 6600000, 12600000, 10⟩], []⟩
    "Inception" ⟨none, none, some 120, none, none⟩ ⟨1, "Inception", "SciFi", 100, 8, 2010⟩ 120
    ⟨1, 1, "A", 0, 6000000, 10⟩ rfl rfl rfl (by decide) (by decide) (by decide)

/-- The messages of the errors `updateShowtime` throws when the overlap check is skipped. -/
theorem updateShowtime_skip_error_message {now : Int} {db : Store} {id : Nat}
    {nd : ShowtimeUpdate} {e : JsError} {db1 : Store}
    (h : updateShowtime now db id nd true = (.error e, db1)) :
    e.message = "Showtime not found" ∨
    e.message = "Cannot update a showtime that has already ended." ∨
    e.message = "Cannot update a showtime that already has tickets sold." ∨
    e.message = "Cannot update showtime to a non-existing movie." ∨
    e.message = "Updated showtime length does not match the movie duration." := by
  unfold updateShowtime at h
  split at h
  · next e1 he =>
    simp only [Prod.mk.injEq, Except.error.injEq] at h
    rw [← h.1, (getShowtimeById_error he).1]
    exact Or.inl rfl
  · split at h
    · simp only [Prod.mk.injEq, Except.error.injEq] at h
      rw [← h.1]; exact Or.inr (Or.inl rfl)
    · split at h
      · simp only [Prod.mk.injEq, Except.error.injEq] at h
        rw [← h.1]; exact Or.inr (Or.inr (Or.inl rfl))
      · split at h
        · simp only [Prod.mk.injEq, Except.error.injEq] at h
          rw [← h.1]; exact Or.inr (Or.inr (Or.inr (Or.inl rfl)))
        · split at h
          · simp only [Prod.mk.injEq, Except.error.injEq] at h
            rw [← h.1]; exact Or.inr (Or.inr (Or.inr (Or.inr rfl)))
          · simp at h

theorem updateShowtime_frame (now : Int) (db : Store) (id : Nat) (nd : ShowtimeUpdate)
    (skip : Bool) :
    (updateShowtime now db id nd skip).2.movies = db.movies ∧
    (updateShowtime now db id nd skip).2.tickets = db.tickets := by
  rcases hres : updateShowtime now db id nd skip with ⟨r, db1⟩
  cases r with
  | error e => rw [updateShowtime_error hres]; exact ⟨rfl, rfl⟩
  | ok s =>
    obtain ⟨_, _, _, _, _, _, _, _, _, hdb⟩ := updateShowtime_ok hres
    subst hdb
    exact ⟨rfl, rfl⟩

theorem cascadeLoop_frame (now : Int) (movie : Movie) (newDuration : Int) :
    ∀ (todo : List Showtime) (db : Store),
      (cascadeLoop now movie newDuration todo db).2.movies = db.movies ∧
      (cascadeLoop now movie newDuration todo db).2.tickets = db.tickets
  | [], _ => ⟨rfl, rfl⟩
  | st :: rest, db => by
    have hf := updateShowtime_frame now db st.id (cascadeData movie st newDuration) true
    unfold cascadeLoop
    rcases hres : updateShowtime now db st.id (cascadeData movie st newDuration) true with ⟨r, db1⟩
    rw [hres] at hf
    cases r with
    | error e => exact hf
    | ok s =>
      have ih := cascadeLoop_frame now movie newDuration rest db1
      exact ⟨ih.1.trans hf.1, ih.2.trans hf.2⟩

theorem cascadeLoop_error_message {now : Int} {movie : Movie} {newDuration : Int} {e : JsError} :
    ∀ {todo : List Showtime} {db db1 : Store},
      cascadeLoop now movie newDuration todo db = (some e, db1) →
      e.message = "Showtime not found" ∨
      e.message = "Cannot update a showtime that has already ended." ∨
      e.message = "Cannot update a showtime that already has tickets sold." ∨
      e.message = "Cannot update showtime to a non-existing movie." ∨
      e.message = "Updated showtime length does not match the movie duration."
  | [], _, _, h => by simp [cascadeLoop] at h
  | st :: rest, db, db1, h => by
    unfold cascadeLoop at h
    rcases hres : updateShowtime now db st.id (cascadeData movie st newDuration) true with ⟨r, db2⟩
    rw [hres] at h
    cases r with
    | error e1 =>
      simp only [Prod.mk.injEq, Option.some.injEq] at h
      obtain ⟨rfl, rfl⟩ := h
      exact updateShowtime_skip_error_message hres
    | ok s => exact cascadeLoop_error_message h

theorem raisedDuration_some {data : MovieUpdate} {movie : Movie} {d : Int}
    (h : raisedDuration data movie = some d) :
    data.duration = some d ∧ d ≠ 0 ∧ d > movie.duration := by
  unfold raisedDuration at h
  split at h
  · cases h
  · next d1 hd =>
    split at h
    · next hc =>
      cases h
      simp only [bne_iff_ne, ne_eq, Bool.and_eq_true, decide_eq_true_eq] at hc
      exact ⟨hd, hc.1, hc.2⟩
    · cases h

theorem findShowtimeConflicts_message {db : Store} {newDuration : Int} {msg : String} :
    ∀ {showtimes : List Showtime}, findShowtimeConflicts db showtimes newDuration = some msg →
      msg = conflictMessage
  | [], h => by simp [findShowtimeConflicts] at h
  | st :: rest, h => by
    unfold findShowtimeConflicts at h
    simp only at h
    split at h
    · cases h; rfl
    · exact findShowtimeConflicts_message h

/-- The ways `updateMovie` can fail: before any write, with one of its own three errors,
or inside the mutation pass, with the error of the `updateShowtime` call that threw. -/
theorem updateMovie_error_cases {now : Int} {db : Store} {movieTitle : String}
    {data : MovieUpdate} {e : JsError} {db1 : Store}
    (h : updateMovie now db movieTitle data = (.error e, db1)) :
    (db1 = db ∧ (e = mkError "Movie not found" ∨
      e = mkError "Renaming the movie is not allowed." ∨ e = mkError conflictMessage)) ∨
    ∃ movie newDuration, findMovieByTitle db movieTitle = some movie ∧
      raisedDuration data movie = some newDuration ∧
      findShowtimeConflicts db (findShowtimesByMovieId db movie.id) newDuration = none ∧
      cascadeLoop now movie newDuration (findShowtimesByMovieId db movie.id) db =
        (some e, db1) := by
  unfold updateMovie at h
  split at h
  · simp only [Prod.mk.injEq, Except.error.injEq] at h
    exact Or.inl ⟨h.2.symm, Or.inl h.1.symm⟩
  · next movie hm =>
    split at h
    · simp only [Prod.mk.injEq, Except.error.injEq] at h
      exact Or.inl ⟨h.2.symm, Or.inr (Or.inl h.1.symm)⟩
    · split at h
      · next newDuration hd =>
        simp only at h
        split at h
        · split at h
          · next msg hc =>
            simp only [Prod.mk.injEq, Except.error.injEq] at h
            have hmsg : msg = conflictMessage := findShowtimeConflicts_message hc
            subst hmsg
            exact Or.inl ⟨h.2.symm, Or.inr (Or.inr h.1.symm)⟩
          · next hc =>
            split at h
            · next e1 db2 hloop =>
              simp only [Prod.mk.injEq, Except.error.injEq] at h
              obtain ⟨rfl, rfl⟩ := h
              exact Or.inr ⟨movie, newDuration, hm, hd, hc, hloop⟩
            · simp [movieUpdateRow] at h
        · simp [movieUpdateRow] at h
      · simp [movieUpdateRow] at h
/-- Counterexample to C10: a movie with two future showtimes, the second with a sold
ticket, is extended from 100 to 110 minutes.  The call fails with the tickets-sold error
of the second `updateShowtime`, and the first showtime has already been moved to end at
`6600000`: the store after the failed call differs from the store before it. -/
theorem updateMovie_failure_is_not_all_or_nothing :
    updateMovie 100
      ⟨[⟨1, "Inception", "SciFi", 100, 8, 2010⟩],
        [⟨1, 1, "A", 0, 6000000, 10⟩, ⟨2, 1, "A", 7000000, 13000000, 10⟩],
        [⟨1, 2, 5, "u0", "b0"⟩]⟩
      "Inception" ⟨none, none, some 110, none, none⟩ =
    (.error (mkError "Cannot update a showtime that already has tickets sold."),
      ⟨[⟨1, "Inception", "SciFi", 100, 8, 2010⟩],
        [⟨1, 1, "A", 0, 6600000, 10⟩, ⟨2, 1, "A", 7000000, 13000000, 10⟩],
        [⟨1, 2, 5, "u0", "b0"⟩]⟩) ∧
    (updateMovie 100
      ⟨[⟨1, "Inception", "SciFi", 100, 8, 2010⟩],
        [⟨1, 1, "A", 0, 6000000, 10⟩, ⟨2, 1, "A", 7000000, 13000000, 10⟩],
        [⟨1, 2, 5, "u0", "b0"⟩]⟩
      "Inception" ⟨none, none, some 110, none, none⟩).2 ≠
    ⟨[⟨1, "Inception", "SciFi", 100, 8, 2010⟩],
      [⟨1, 1, "A", 0, 6000000, 10⟩, ⟨2, 1, "A", 7000000, 13000000, 10⟩],
      [⟨1, 2, 5, "u0", "b0"⟩]⟩ := by
  constructor
  · rfl
  · decide

/-- C10, amended. A failed `updateMovie` never changes a movie or a ticket.  When it fails
with one of its own errors (movie not found, rename, scheduling conflict) the store after
the call equals the store before it.  When it fails with the error of a showtime update
inside the mutation pass, the showtimes updated before the failing one stay updated: with
unique showtime ids, every showtime of the store is either as before or a showtime of the
movie with only its end moved to its start plus the new duration. -/
theorem updateMovie_failure_effect (now : Int) (db : Store) (movieTitle : String)
    (data : MovieUpdate) (e : JsError) (db1 : Store)
    (h : updateMovie now db movieTitle data = (.error e, db1)) :
    db1.movies = db.movies ∧ db1.tickets = db.tickets ∧
    (e.message = "Movie not found" ∨ e.message = "Renaming the movie is not allowed." ∨
      e.message = "Movie duration update failed due to scheduling conflicts." → db1 = db) ∧
    (ShowtimeKeys db → ∃ f : Showtime → Showtime, db1.showtimes = db.showtimes.map f ∧
      ∀ s0 ∈ db.showtimes, f s0 = s0 ∨
        ∃ movie newDuration, findMovieByTitle db movieTitle = some movie ∧
          data.duration = some newDuration ∧ s0.movieId = movie.id ∧
          f s0 = s0.extended newDuration) := by
  rcases updateMovie_error_cases h with ⟨hdb, -⟩ | ⟨movie, d, hm, hd, -, hloop⟩
  · subst hdb
    exact ⟨rfl, rfl, fun _ => rfl, fun _ => ⟨id, by simp, fun _ _ => Or.inl rfl⟩⟩
  · have hframe := cascadeLoop_frame now movie d (findShowtimesByMovieId db movie.id) db
    rw [hloop] at hframe
    refine ⟨hframe.1, hframe.2, ?_, ?_⟩
    · intro hmsg
      have := cascadeLoop_error_message hloop
      rcases hmsg with hmsg | hmsg | hmsg <;> rw [hmsg] at this <;> simp at this
    · intro hkeys
      have hshape := cascadeShape_loop now movie d hkeys
        (findShowtimesByMovieId db movie.id) db (fun _ hs => hs) (cascadeShape_refl _ _ _)
      rw [hloop] at hshape
      obtain ⟨f, hf, hcases⟩ := hshape
      refine ⟨f, hf, fun s0 hs0 => ?_⟩
      rcases hcases s0 hs0 with h0 | ⟨hmem, h0⟩
      · exact Or.inl h0
      · exact Or.inr ⟨movie, d, hm, (raisedDuration_some hd).1,
          (mem_findShowtimesByMovieId.mp hmem).2, h0⟩

/-- Witness for C10, amended: the failed call of the counterexample leaves the movie and
the ticket as they were. -/
theorem updateMovie_failure_effect_witness :
    (updateMovie 100
      ⟨[⟨1, "Inception", "SciFi", 100, 8, 2010⟩],
        [⟨1, 1, "A", 0, 6000000, 10⟩, ⟨2, 1, "A", 7000000, 13000000, 10⟩],
        [⟨1, 2, 5, "u0", "b0"⟩]⟩
      "Inception" ⟨none, none, some 110, none, none⟩).2.movies =
      [⟨1, "Inception", "SciFi", 100, 8, 2010⟩] ∧
    (updateMovie 100
      ⟨[⟨1, "Inception", "SciFi", 100, 8, 2010⟩],
        [⟨1, 1, "A", 0, 6000000, 10⟩, ⟨2, 1, "A", 7000000, 13000000, 10⟩],
        [⟨1, 2, 5, "u0", "b0"⟩]⟩
      "Inception" ⟨none, none, some 110, none, none⟩).2.tickets = [⟨1, 2, 5, "u0", "b0"⟩] :=
  have h := updateMovie_failure_effect 100
    ⟨[⟨1, "Inception", "SciFi", 100, 8, 2010⟩],
      [⟨1, 1, "A", 0, 6000000, 10⟩, ⟨2, 1, "A", 7000000, 13000000, 10⟩],
      [⟨1, 2, 5, "u0", "b0"⟩]⟩
    "Inception" ⟨none, none, some 110, none, none⟩
    (mkError "Cannot update a showtime that already has tickets sold.") _ rfl
  ⟨h.1, h.2.1⟩

/-! ## Concurrent bookings: the seat race -/

theorem getShowtimeById_congr {db1 db2 : Store} (h : db1.showtimes = db2.showtimes) (id : Nat) :
    getShowtimeById db1 id = getShowtimeById db2 id := by
  unfold getShowtimeById
  rw [h]

theorem seatRace_initial {n : Nat} {db : Store} {sid : Nat} {seat : Int}
    (hfree : isSeatAlreadyBooked db sid seat = false) :
    SeatRace n db sid seat (initialWorld db) where
  showtimes := rfl
  good := fun _ _ => trivial
  holder := fun _ _ _ _ h => by simp [initialWorld, Phase.holds] at h
  booked := by
    simp only [initialWorld, hfree, Bool.false_eq_true, false_iff, not_exists]
    intro i
    simp [Phase.isOk]
  failed := by
    rintro ⟨i, _, h⟩
    simp [initialWorld, Phase.bad] at h

/-- A step that keeps the store and whether the call holds the seat or has returned a
ticket, and that meets an error only when some call has returned a ticket. -/
theorem SeatRace.update_flags {n : Nat} {db : Store} {sid : Nat} {seat : Int} {w : World}
    (h : SeatRace n db sid seat w) (i : Nat) (p : Phase)
    (hg : p.Good sid seat) (hh : p.holds = (w.phase i).holds)
    (ho : p.isOk = (w.phase i).isOk)
    (hb : p.bad = true → ∃ j < n, (w.phase j).isOk = true) :
    SeatRace n db sid seat ⟨w.store, Function.update w.phase i p⟩ := by
  have hholds : ∀ j, (Function.update w.phase i p j).holds = (w.phase j).holds := by
    intro j
    by_cases hj : j = i
    · subst hj; simp [hh]
    · simp [Function.update_noteq hj]
  have hok : ∀ j, (Function.update w.phase i p j).isOk = (w.phase j).isOk := by
    intro j
    by_cases hj : j = i
    · subst hj; simp [ho]
    · simp [Function.update_noteq hj]
  refine ⟨h.showtimes, ?_, ?_, ?_, ?_⟩
  · intro j hj
    by_cases hji : j = i
    · subst hji; simpa using hg
    · simpa [Function.update_noteq hji] using h.good j hj
  · intro j hj k hk
    simp only [hholds]
    exact h.holder j hj k hk
  · simp only [hok]
    exact h.booked
  · simp only [hok]
    rintro ⟨j, hj, hbad⟩
    by_cases hji : j = i
    · subst hji
      simp only [Function.update_same] at hbad
      exact hb hbad
    · simp only [Function.update_noteq hji] at hbad
      exact h.failed ⟨j, hj, hbad⟩

theorem seatLockedByOther_false {n : Nat} {w : World} {i : Nat} {sid : Nat} {seat : Int}
    (h : seatLockedByOther n w i sid seat = false) {j : Nat} (hj : j < n) (hji : j ≠ i)
    {t : Ticket} (ht : w.phase j = .inserted t) :
    ¬ (t.showtimeId = sid ∧ t.seatNumber = seat) := by
  intro ⟨h1, h2⟩
  have : seatLockedByOther n w i sid seat = true := by
    unfold seatLockedByOther
    rw [List.any_eq_true]
    exact ⟨j, List.mem_range.mpr hj, by simp [hji, ht, h1, h2]⟩
  rw [h] at this
  cases this

theorem seatLockedByOther_true {n : Nat} {w : World} {i : Nat} {sid : Nat} {seat : Int}
    (h : seatLockedByOther n w i sid seat = true) :
    ∃ j < n, j ≠ i ∧ ∃ t, w.phase j = .inserted t := by
  unfold seatLockedByOther at h
  rw [List.any_eq_true] at h
  obtain ⟨j, hj, hc⟩ := h
  simp only [Bool.and_eq_true, bne_iff_ne, ne_eq] at hc
  refine ⟨j, List.mem_range.mp hj, hc.1, ?_⟩
  cases hp : w.phase j with
  | inserted t => exact ⟨t, rfl⟩
  | _ => rw [hp] at hc; simp at hc

theorem mem_pendingTickets {n : Nat} {w : World} {t : Ticket} :
    t ∈ pendingTickets n w ↔ ∃ j < n, w.phase j = .inserted t := by
  unfold pendingTickets
  simp only [List.mem_filterMap, List.mem_range]
  constructor
  · rintro ⟨j, hj, h⟩
    refine ⟨j, hj, ?_⟩
    cases hp : w.phase j with
    | inserted t1 => rw [hp] at h; simp at h; rw [h]
    | _ => rw [hp] at h; simp at h
  · rintro ⟨j, hj, h⟩
    exact ⟨j, hj, by rw [h]⟩
theorem call_of_getElem? {calls : List BookingCall} {i : Nat} {c : BookingCall}
    (h : calls[i]? = some c) : i < calls.length ∧ c ∈ calls := by
  obtain ⟨hi, hc⟩ := List.getElem?_eq_some.mp h
  exact ⟨hi, hc ▸ List.getElem_mem hi⟩

theorem seatRace_step {calls : List BookingCall} {db : Store} {sid : Nat} {seat : Int}
    {st : Showtime} {w : World}
    (hcalls : ∀ c ∈ calls, c.req.showtimeId = sid ∧ c.req.seatNumber = seat ∧
      ¬ st.endTime < c.now)
    (hst : getShowtimeById db sid = .ok st)
    (h : SeatRace calls.length db sid seat w) (i : Nat) :
    SeatRace calls.length db sid seat (step calls w i) := by
  unfold step
  cases hc : calls[i]? with
  | none => exact h
  | some c =>
    obtain ⟨hi, hmem⟩ := call_of_getElem? hc
    obtain ⟨hsid, hseat, hnow⟩ := hcalls c hmem
    have hshow : getShowtimeById w.store c.req.showtimeId = .ok st := by
      rw [hsid, getShowtimeById_congr h.showtimes, hst]
    simp only
    unfold stepCall
    cases hp : w.phase i with
    | start =>
      exact h.update_flags i _ trivial (by rw [hp]; rfl) (by rw [hp]; rfl) (by simp [Phase.bad])
    | opened =>
      simp only [hshow, (isDateInThePast_eq_false_iff _ _).mpr hnow, Bool.false_eq_true, if_false]
      exact h.update_flags i _ trivial (by rw [hp]; rfl) (by rw [hp]; rfl) (by simp [Phase.bad])
    | loaded =>
      simp only
      split
      · next hb =>
        rw [hsid, hseat] at hb
        exact h.update_flags i _ (Or.inl rfl) (by rw [hp]; rfl) (by rw [hp]; rfl)
          (fun _ => h.booked.mp hb)
      · exact h.update_flags i _ trivial (by rw [hp]; rfl) (by rw [hp]; rfl) (by simp [Phase.bad])
    | probed =>
      simp only
      split
      · exact h.update_flags i _ trivial (by rw [hp]) (by rw [hp]) (by simp [Phase.bad])
      · next hlock =>
        rw [hsid, hseat] at hlock ⊢
        have hlock : seatLockedByOther calls.length w i sid seat = false := by simpa using hlock
        have hpend : ∀ t ∈ pendingTickets calls.length w,
            ¬ (t.showtimeId = sid ∧ t.seatNumber = seat) := by
          intro t ht
          obtain ⟨j, hj, hjp⟩ := mem_pendingTickets.mp ht
          have hji : j ≠ i := by
            rintro rfl
            rw [hp] at hjp
            cases hjp
          exact seatLockedByOther_false hlock hj hji hjp
        have hfk : (w.store.showtimes.any (fun s => s.id == sid)) = true := by
          rw [h.showtimes]
          exact showtime_any_of_ok hst
        cases hbk : isSeatAlreadyBooked w.store sid seat with
        | true =>
          have hany : (w.store.tickets ++ pendingTickets calls.length w).any
              (fun t => t.showtimeId == sid && t.seatNumber == seat) = true := by
            rw [List.any_append, seat_any_eq_isSeatAlreadyBooked, hbk]
            rfl
          simp only [ticketCreate, hany, if_true]
          exact h.update_flags i _ (Or.inr rfl) (by rw [hp]; rfl) (by rw [hp]; rfl)
            (fun _ => h.booked.mp hbk)
        | false =>
          have hany : (w.store.tickets ++ pendingTickets calls.length w).any
              (fun t => t.showtimeId == sid && t.seatNumber == seat) = false := by
            rw [List.any_append, seat_any_eq_isSeatAlreadyBooked, hbk, Bool.false_or,
              ← Bool.not_eq_true, List.any_eq_true]
            rintro ⟨t, ht, hts⟩
            simp only [Bool.and_eq_true, beq_iff_eq] at hts
            exact hpend t ht hts
          simp only [ticketCreate, hany, hfk, Bool.false_eq_true, if_false, Bool.not_true]
          have hnoOk : ∀ j < calls.length, (w.phase j).isOk = false := by
            intro j hj
            rw [← Bool.not_eq_true]
            intro hok
            have := h.booked.mpr ⟨j, hj, hok⟩
            rw [hbk] at this
            cases this
          have hnoHold : ∀ j < calls.length, j ≠ i → (w.phase j).holds = false := by
            intro j hj hji
            cases hjp : w.phase j with
            | inserted t =>
              have hg := h.good j hj
              rw [hjp] at hg
              exact absurd hg (seatLockedByOther_false hlock hj hji hjp)
            | finished r =>
              cases r with
              | ok t => have := hnoOk j hj; rw [hjp] at this; simp [Phase.isOk] at this
              | error e => rfl
            | _ => rfl
          refine ⟨h.showtimes, ?_, ?_, ?_, ?_⟩
          · intro j hj
            by_cases hji : j = i
            · subst hji
              simp only [Function.update_same]
              exact ⟨rfl, rfl⟩
            · simpa [Function.update_noteq hji] using h.good j hj
          · intro j hj k hk hjh hkh
            by_cases hji : j = i <;> by_cases hki : k = i
            · rw [hji, hki]
            · simp only [Function.update_noteq hki] at hkh
              rw [hnoHold k hk hki] at hkh
              cases hkh
            · simp only [Function.update_noteq hji] at hjh
              rw [hnoHold j hj hji] at hjh
              cases hjh
            · simp only [Function.update_noteq hji] at hjh
              rw [hnoHold j hj hji] at hjh
              cases hjh
          · simp only [hbk, Bool.false_eq_true, false_iff, not_exists, not_and]
            intro j hj
            by_cases hji : j = i
            · subst hji; simp [Phase.isOk]
            · simp [Function.update_noteq hji, hnoOk j hj]
          · rintro ⟨j, hj, hbad⟩
            by_cases hji : j = i
            · subst hji; simp [Phase.bad] at hbad
            · simp only [Function.update_noteq hji] at hbad
              obtain ⟨k, hk, hok⟩ := h.failed ⟨j, hj, hbad⟩
              rw [hnoOk k hk] at hok
              cases hok
    | inserted t =>
      simp only
      have hg := h.good i hi
      rw [hp] at hg
      have hholds : ∀ j, (Function.update w.phase i (.finished (.ok t)) j).holds =
          (w.phase j).holds := by
        intro j
        by_cases hj : j = i
        · subst hj; simp [hp, Phase.holds]
        · simp [Function.update_noteq hj]
      have hnew : ∃ j < calls.length,
          (Function.update w.phase i (.finished (.ok t)) j).isOk = true :=
        ⟨i, hi, by simp [Phase.isOk]⟩
      refine ⟨h.showtimes, ?_, ?_, ?_, fun _ => hnew⟩
      · intro j hj
        by_cases hji : j = i
        · subst hji; simp [Phase.Good]
        · simpa [Function.update_noteq hji] using h.good j hj
      · intro j hj k hk
        simp only [hholds]
        exact h.holder j hj k hk
      · constructor
        · exact fun _ => hnew
        · intro _
          rw [isSeatAlreadyBooked_true_iff]
          exact ⟨t, by simp, hg.1, hg.2⟩
    | failing e =>
      have hg := h.good i hi
      rw [hp] at hg
      have hex : ∃ j < calls.length, (w.phase j).isOk = true :=
        h.failed ⟨i, hi, by rw [hp]; rfl⟩
      simp only
      split
      · exact h.update_flags i _ rfl (by rw [hp]; rfl) (by rw [hp]; rfl) (fun _ => hex)
      · next hne =>
        rcases hg with rfl | rfl
        · exact h.update_flags i _ rfl (by rw [hp]; rfl) (by rw [hp]; rfl) (fun _ => hex)
        · exact absurd rfl hne
    | finished r =>
      have hg := h.good i hi
      rw [hp] at hg
      exact h.update_flags i _ hg (by rw [hp]) (by rw [hp])
        (fun _ => by
          cases r with
          | ok t => exact ⟨i, hi, by rw [hp]; rfl⟩
          | error e => exact h.failed ⟨i, hi, by rw [hp]; rfl⟩)

theorem step_phase_of_ne (calls : List BookingCall) (w : World) {i j : Nat} (h : j ≠ i) :
    (step calls w i).phase j = w.phase j := by
  unfold step
  cases calls[i]? with
  | none => rfl
  | some c => simp [Function.update_noteq h]

theorem stepCall_remaining_le (n : Nat) (w : World) (i : Nat) (c : BookingCall) :
    (stepCall n w i c).2.remaining ≤ (w.phase i).remaining := by
  unfold stepCall
  cases hp : w.phase i with
  | start => simp [Phase.remaining]
  | opened =>
    simp only
    split
    · simp [Phase.remaining]
    · split <;> simp [Phase.remaining]
  | loaded => simp only; split <;> simp [Phase.remaining]
  | probed =>
    simp only
    split
    · simp [Phase.remaining]
    · split <;> simp [Phase.remaining]
  | inserted t => simp [Phase.remaining]
  | failing e => simp only; split <;> simp [Phase.remaining]
  | finished r => simp [Phase.remaining]

theorem stepCall_remaining_lt (n : Nat) (w : World) (i : Nat) (c : BookingCall)
    (hfin : (w.phase i).isFinished = false)
    (hfree : seatLockedByOther n w i c.req.showtimeId c.req.seatNumber = false) :
    (stepCall n w i c).2.remaining < (w.phase i).remaining := by
  unfold stepCall
  cases hp : w.phase i with
  | start => simp [Phase.remaining]
  | opened =>
    simp only
    split
    · simp [Phase.remaining]
    · split <;> simp [Phase.remaining]
  | loaded => simp only; split <;> simp [Phase.remaining]
  | probed =>
    simp only [hfree, Bool.false_eq_true, if_false]
    split <;> simp [Phase.remaining]
  | inserted t => simp [Phase.remaining]
  | failing e => simp only; split <;> simp [Phase.remaining]
  | finished r => rw [hp] at hfin; simp [Phase.isFinished] at hfin

theorem step_remaining_le (calls : List BookingCall) (w : World) (i j : Nat) :
    ((step calls w i).phase j).remaining ≤ (w.phase j).remaining := by
  by_cases hji : j = i
  · subst hji
    unfold step
    cases calls[j]? with
    | none => exact le_refl _
    | some c => simpa using stepCall_remaining_le calls.length w j c
  · rw [step_phase_of_ne calls w hji]

theorem remainingTotal_step_lt {calls : List BookingCall} {w : World} {i : Nat} {c : BookingCall}
    (hc : calls[i]? = some c)
    (hlt : (stepCall calls.length w i c).2.remaining < (w.phase i).remaining) :
    remainingTotal calls.length (step calls w i) < remainingTotal calls.length w := by
  have hi := (call_of_getElem? hc).1
  unfold remainingTotal
  apply Finset.sum_lt_sum
  · intro j _
    exact step_remaining_le calls w i j
  · refine ⟨i, Finset.mem_range.mpr hi, ?_⟩
    unfold step
    simpa [hc] using hlt

/-- Progress: while some call has not finished, some call can run a statement that brings
the calls closer to the end; a call that waits at its insert waits for a call that can
commit. -/
theorem exists_progress {calls : List BookingCall} {w : World}
    (h : ¬ AllFinished calls w) :
    ∃ i, remainingTotal calls.length (step calls w i) < remainingTotal calls.length w := by
  unfold AllFinished at h
  push_neg at h
  obtain ⟨i, hi, hfin⟩ := h
  have hfin : (w.phase i).isFinished = false := by simpa using hfin
  obtain ⟨c, hc⟩ : ∃ c, calls[i]? = some c := ⟨calls[i], List.getElem?_eq_getElem hi⟩
  cases hlock : seatLockedByOther calls.length w i c.req.showtimeId c.req.seatNumber with
  | false => exact ⟨i, remainingTotal_step_lt hc (stepCall_remaining_lt _ w i c hfin hlock)⟩
  | true =>
    obtain ⟨j, hj, -, t, ht⟩ := seatLockedByOther_true hlock
    obtain ⟨cj, hcj⟩ : ∃ c, calls[j]? = some c := ⟨calls[j], List.getElem?_eq_getElem hj⟩
    refine ⟨j, remainingTotal_step_lt hcj ?_⟩
    unfold stepCall
    simp [ht, Phase.remaining]

theorem exists_finishing_schedule (calls : List BookingCall) :
    ∀ (m : Nat) (w : World), remainingTotal calls.length w ≤ m →
      ∃ schedule, AllFinished calls (run calls w schedule)
  | 0, w, hm => by
    by_cases hall : AllFinished calls w
    · exact ⟨[], hall⟩
    · obtain ⟨i, hi⟩ := exists_progress hall
      omega
  | m + 1, w, hm => by
    by_cases hall : AllFinished calls w
    · exact ⟨[], hall⟩
    · obtain ⟨i, hi⟩ := exists_progress hall
      obtain ⟨s, hs⟩ := exists_finishing_schedule calls m (step calls w i) (by omega)
      exact ⟨i :: s, hs⟩

theorem seatRace_run {calls : List BookingCall} {db : Store} {sid : Nat} {seat : Int}
    {st : Showtime}
    (hcalls : ∀ c ∈ calls, c.req.showtimeId = sid ∧ c.req.seatNumber = seat ∧
      ¬ st.endTime < c.now)
    (hst : getShowtimeById db sid = .ok st) :
    ∀ (schedule : List Nat) (w : World), SeatRace calls.length db sid seat w →
      SeatRace calls.length db sid seat (run calls w schedule)
  | [], _, h => h
  | i :: rest, w, h => seatRace_run hcalls hst rest (step calls w i) (seatRace_step hcalls hst h i)

theorem seatRace_final {calls : List BookingCall} {db : Store} {sid : Nat} {seat : Int}
    {w : World} (hne : calls ≠ []) (h : SeatRace calls.length db sid seat w)
    (hall : AllFinished calls w) :
    ∃ i < calls.length, (∃ ticket, w.phase i = .finished (.ok ticket)) ∧
      ∀ j < calls.length, j ≠ i →
        w.phase j = .finished (.error (mkError "Seat is already booked for this showtime.")) := by
  have hpos : 0 < calls.length := List.length_pos.mpr hne
  have hex : ∃ i < calls.length, (w.phase i).isOk = true := by
    have h0 := hall 0 hpos
    cases hp : w.phase 0 with
    | finished r =>
      cases r with
      | ok t => exact ⟨0, hpos, by rw [hp]; rfl⟩
      | error e => exact h.failed ⟨0, hpos, by rw [hp]; rfl⟩
    | _ => rw [hp] at h0; simp [Phase.isFinished] at h0
  obtain ⟨i, hi, hok⟩ := hex
  refine ⟨i, hi, ?_, ?_⟩
  · cases hp : w.phase i with
    | finished r =>
      cases r with
      | ok t => exact ⟨t, rfl⟩
      | error e => rw [hp] at hok; simp [Phase.isOk] at hok
    | _ => rw [hp] at hok; simp [Phase.isOk] at hok
  · intro j hj hji
    have hjf := hall j hj
    have hg := h.good j hj
    cases hp : w.phase j with
    | finished r =>
      cases r with
      | ok t =>
        have hih : (w.phase i).holds = true := by
          cases hpi : w.phase i with
          | finished r =>
            cases r with
            | ok t => rfl
            | error e => rw [hpi] at hok; simp [Phase.isOk] at hok
          | _ => rw [hpi] at hok; simp [Phase.isOk] at hok
        exact absurd (h.holder j hj i hi (by rw [hp]; rfl) hih) hji
      | error e =>
        rw [hp] at hg
        rw [show e = mkError "Seat is already booked for this showtime." from hg]
    | _ => rw [hp] at hjf; simp [Phase.isFinished] at hjf

/-- C2. Any number of concurrent `bookTicket` calls, at least one, for one seat of an
existing showtime that has not ended (at the clock reading of any of the calls) and whose
seat is free: every interleaving of their statements can be run to the end, and whenever
all calls have finished exactly one has returned a ticket and every other call has thrown
`Seat is already booked for this showtime.` -/
theorem exactly_one_concurrent_booking_wins (calls : List BookingCall) (db : Store)
    (sid : Nat) (seat : Int) (st : Showtime)
    (hne : calls ≠ [])
    (hcalls : ∀ c ∈ calls, c.req.showtimeId = sid ∧ c.req.seatNumber = seat ∧
      ¬ st.endTime < c.now)
    (hst : getShowtimeById db sid = .ok st)
    (hfree : isSeatAlreadyBooked db sid seat = false) :
    (∀ started : List Nat, ∃ rest : List Nat,
      AllFinished calls (run calls (initialWorld db) (started ++ rest))) ∧
    (∀ schedule : List Nat, AllFinished calls (run calls (initialWorld db) schedule) →
      ∃ i < calls.length,
        (∃ ticket, (run calls (initialWorld db) schedule).phase i = .finished (.ok ticket)) ∧
        ∀ j < calls.length, j ≠ i →
          (run calls (initialWorld db) schedule).phase j =
            .finished (.error (mkError "Seat is already booked for this showtime."))) := by
  constructor
  · intro started
    obtain ⟨rest, hrest⟩ := exists_finishing_schedule calls _
      (run calls (initialWorld db) started) (le_refl _)
    exact ⟨rest, by simpa [run, List.foldl_append] using hrest⟩
  · intro schedule hall
    exact seatRace_final hne
      (seatRace_run hcalls hst schedule _ (seatRace_initial hfree)) hall

/-- Witness for C2: three users race for seat 10 of showtime 1 under an interleaved
schedule; the second call wins and the other two are told the seat is booked. -/
theorem exactly_one_concurrent_booking_wins_witness :
    ∃ i < 3,
      (∃ ticket, (run [⟨100, "b1", ⟨1, 10, "U1"⟩⟩, ⟨100, "b2", ⟨1, 10, "U2"⟩⟩,
          ⟨100, "b3", ⟨1, 10, "U3"⟩⟩]
        (initialWorld ⟨[], [⟨1, 1, "A", 0, 6000000, 10⟩], []⟩)
        [0, 1, 2, 2, 1, 0, 0, 1, 2, 1, 2, 0, 1, 0, 2, 2, 0]).phase i = .finished (.ok ticket)) ∧
      ∀ j < 3, j ≠ i →
        (run [⟨100, "b1", ⟨1, 10, "U1"⟩⟩, ⟨100, "b2", ⟨1, 10, "U2"⟩⟩,
          ⟨100, "b3", ⟨1, 10, "U3"⟩⟩]
        (initialWorld ⟨[], [⟨1, 1, "A", 0, 6000000, 10⟩], []⟩)
        [0, 1, 2, 2, 1, 0, 0, 1, 2, 1, 2, 0, 1, 0, 2, 2, 0]).phase j =
          .finished (.error (mkError "Seat is already booked for this showtime.")) :=
  (exactly_one_concurrent_booking_wins
    [⟨100, "b1", ⟨1, 10, "U1"⟩⟩, ⟨100, "b2", ⟨1, 10, "U2"⟩⟩, ⟨100, "b3", ⟨1, 10, "U3"⟩⟩]
    ⟨[], [⟨1, 1, "A", 0, 6000000, 10⟩], []⟩ 1 10 ⟨1, 1, "A", 0, 6000000, 10⟩
    (by decide) (by decide) rfl rfl).2
    [0, 1, 2, 2, 1, 0, 0, 1, 2, 1, 2, 0, 1, 0, 2, 2, 0] (by decide)

/-! ## The cascade and past showtimes -/

/-- C11, the code at the failing input.  Movie 1 lasts 100 minutes and has a past showtime
(id 1, ended at `6000000`) and a future one (id 2); the clock reads `6500000`; no ticket is
sold and the probe of the future showtime at 110 minutes is clean.  `updateMovie` with
duration 110 does not succeed: its loop runs over all showtimes of the movie, and the
`updateShowtime` call for the past one throws; the future showtime and the movie are
left as they were. -/
theorem updateMovie_throws_on_past_showtime :
    ((findShowtimesByMovieId ⟨[⟨1, "Inception", "SciFi", 100, 8, 2010⟩],
        [⟨1, 1, "A", 0, 6000000, 10⟩, ⟨2, 1, "A", 7000000, 13000000, 10⟩], []⟩ 1).filter
      (fun st => decide (st.endTime ≥ 6500000)) = [⟨2, 1, "A", 7000000, 13000000, 10⟩]) ∧
    checkOverlappingShowtime ⟨[⟨1, "Inception", "SciFi", 100, 8, 2010⟩],
        [⟨1, 1, "A", 0, 6000000, 10⟩, ⟨2, 1, "A", 7000000, 13000000, 10⟩], []⟩
      "A" 7000000 (calculateEndTime 7000000 110) (some 2) = none ∧
    updateMovie 6500000
      ⟨[⟨1, "Inception", "SciFi", 100, 8, 2010⟩],
        [⟨1, 1, "A", 0, 6000000, 10⟩, ⟨2, 1, "A", 7000000, 13000000, 10⟩], []⟩
      "Inception" ⟨none, none, some 110, none, none⟩ =
    (.error (mkError "Cannot update a showtime that has already ended."),
      ⟨[⟨1, "Inception", "SciFi", 100, 8, 2010⟩],
        [⟨1, 1, "A", 0, 6000000, 10⟩, ⟨2, 1, "A", 7000000, 13000000, 10⟩], []⟩) := by
  refine ⟨by decide, by decide, by rfl⟩

/-! ## Showtime lifecycle: guards and outcomes -/

theorem findTickets_length_pos_iff (db : Store) (id : Nat) :
    (findTicketsByShowtimeId db id).length > 0 ↔ ∃ t ∈ db.tickets, t.showtimeId = id := by
  unfold findTicketsByShowtimeId
  rw [gt_iff_lt, List.length_pos_iff_exists_mem]
  simp [List.mem_filter]

theorem isDateInThePast_eq_true_iff (now date : Int) :
    isDateInThePast now date = true ↔ date < now := by
  simp [isDateInThePast]

theorem updateShowtime_ended {now : Int} {db : Store} {id : Nat} {st : Showtime}
    (hs : getShowtimeById db id = .ok st) (hp : st.endTime < now)
    (nd : ShowtimeUpdate) (skip : Bool) :
    updateShowtime now db id nd skip =
      (.error (mkError "Cannot update a showtime that has already ended."), db) := by
  unfold updateShowtime
  simp [hs, (isDateInThePast_eq_true_iff _ _).mpr hp]

theorem updateShowtime_sold {now : Int} {db : Store} {id : Nat} {st : Showtime}
    (hs : getShowtimeById db id = .ok st) (hp : ¬ st.endTime < now)
    (ht : ∃ t ∈ db.tickets, t.showtimeId = id) (nd : ShowtimeUpdate) (skip : Bool) :
    updateShowtime now db id nd skip =
      (.error (mkError "Cannot update a showtime that already has tickets sold."), db) := by
  have hlen := (findTickets_length_pos_iff db id).mpr ht
  unfold updateShowtime
  simp only [hs, (isDateInThePast_eq_false_iff _ _).mpr hp, Bool.false_eq_true, if_false, hlen,
    if_true]

theorem deleteShowtime_ended {now : Int} {db : Store} {id : Nat} {st : Showtime}
    (hs : getShowtimeById db id = .ok st) (hp : st.endTime < now) :
    deleteShowtime now db id =
      (.error (mkError "Cannot delete a showtime that has already ended."), db) := by
  unfold deleteShowtime deleteShowtimeAmid
  simp [hs, (isDateInThePast_eq_true_iff _ _).mpr hp]

theorem deleteShowtime_sold {now : Int} {db : Store} {id : Nat} {st : Showtime}
    (hs : getShowtimeById db id = .ok st) (hp : ¬ st.endTime < now)
    (ht : ∃ t ∈ db.tickets, t.showtimeId = id) :
    deleteShowtime now db id =
      (.error (mkError "Cannot delete showtime that has existing ticket bookings."), db) := by
  have hlen := (findTickets_length_pos_iff db id).mpr ht
  unfold deleteShowtime deleteShowtimeAmid
  simp only [hs, (isDateInThePast_eq_false_iff _ _).mpr hp, Bool.false_eq_true, if_false, hlen,
    if_true]

/-- C12. Seat protection cannot be bypassed.  For a stored showtime that has ended,
`updateShowtime`, with any `newData` and with `skipOverlapCheck` set or not, and
`deleteShowtime` fail with the already-ended error; for one that has not ended and has a
ticket they fail with the tickets-sold error; in every case the store, and so the showtime
and its tickets, is exactly as before. -/
theorem seat_protection_not_bypassed (now : Int) (db : Store) (id : Nat) (st : Showtime)
    (hs : getShowtimeById db id = .ok st) :
    (st.endTime < now →
      (∀ newData skipOverlapCheck, updateShowtime now db id newData skipOverlapCheck =
        (.error (mkError "Cannot update a showtime that has already ended."), db)) ∧
      deleteShowtime now db id =
        (.error (mkError "Cannot delete a showtime that has already ended."), db)) ∧
    (¬ st.endTime < now → (∃ t ∈ db.tickets, t.showtimeId = id) →
      (∀ newData skipOverlapCheck, updateShowtime now db id newData skipOverlapCheck =
        (.error (mkError "Cannot update a showtime that already has tickets sold."), db)) ∧
      deleteShowtime now db id =
        (.error (mkError "Cannot delete showtime that has existing ticket bookings."), db)) :=
  ⟨fun hp => ⟨fun nd skip => updateShowtime_ended hs hp nd skip, deleteShowtime_ended hs hp⟩,
    fun hp ht => ⟨fun nd skip => updateShowtime_sold hs hp ht nd skip,
      deleteShowtime_sold hs hp ht⟩⟩

/-- Witness for C12: a showtime with a sold ticket is neither moved by the cascade's kind
of call, which skips the overlap check, nor deleted. -/
theorem seat_protection_not_bypassed_witness :
    updateShowtime 100
      ⟨[⟨1, "Inception", "SciFi", 100, 8, 2010⟩], [⟨1, 1, "A", 0, 6000000, 10⟩],
        [⟨1, 1, 5, "u0", "b0"⟩]⟩ 1
      ⟨some 1, none, some 0, some 6600000, none, some 110⟩ true =
      (.error (mkError "Cannot update a showtime that already has tickets sold."),
        ⟨[⟨1, "Inception", "SciFi", 100, 8, 2010⟩], [⟨1, 1, "A", 0, 6000000, 10⟩],
          [⟨1, 1, 5, "u0", "b0"⟩]⟩) ∧
    deleteShowtime 100
      ⟨[⟨1, "Inception", "SciFi", 100, 8, 2010⟩], [⟨1, 1, "A", 0, 6000000, 10⟩],
        [⟨1, 1, 5, "u0", "b0"⟩]⟩ 1 =
      (.error (mkError "Cannot delete showtime that has existing ticket bookings."),
        ⟨[⟨1, "Inception", "SciFi", 100, 8, 2010⟩], [⟨1, 1, "A", 0, 6000000, 10⟩],
          [⟨1, 1, 5, "u0", "b0"⟩]⟩) :=
  have h := (seat_protection_not_bypassed 100
    ⟨[⟨1, "Inception", "SciFi", 100, 8, 2010⟩], [⟨1, 1, "A", 0, 6000000, 10⟩],
      [⟨1, 1, 5, "u0", "b0"⟩]⟩ 1 ⟨1, 1, "A", 0, 6000000, 10⟩ rfl).2 (by decide)
    ⟨⟨1, 1, 5, "u0", "b0"⟩, by decide, rfl⟩
  ⟨h.1 _ _, h.2⟩

theorem matchesExactDuration_iff (startTime endTime d : Int) :
    matchesExactDuration startTime endTime d = true ↔
      differenceInMinutes startTime endTime = (d : ℚ) := by
  unfold matchesExactDuration
  exact @decide_eq_true_iff _ (decideMinutes startTime endTime d)

theorem matchesExactDuration_iff_ms (startTime endTime d : Int) :
    matchesExactDuration startTime endTime d = true ↔ endTime - startTime = d * 60000 := by
  rw [matchesExactDuration_iff]
  unfold differenceInMinutes
  rw [div_eq_iff (by norm_num : (60000 : ℚ) ≠ 0)]
  exact_mod_cast Iff.rfl

theorem findMovieById_none_iff (db : Store) (k : Nat) :
    findMovieById db (some k) = none ↔ ∀ m ∈ db.movies, m.id ≠ k := by
  unfold findMovieById
  simp [List.find?_eq_none]

theorem overlapClause_none_iff (theater : String) (startTime endTime : Int) (s : Showtime) :
    overlapClause theater startTime endTime none s = true ↔
      s.theater = theater ∧ s.startTime < endTime ∧ s.endTime > startTime := by
  simp [overlapClause, truthyId, and_assoc]

theorem checkOverlappingShowtime_some_of_mem {db : Store} {theater : String}
    {startTime endTime : Int} {excludeId : Option Nat} {s : Showtime}
    (hs : s ∈ db.showtimes) (hc : overlapClause theater startTime endTime excludeId s = true) :
    ∃ found, checkOverlappingShowtime db theater startTime endTime excludeId = some found := by
  cases h : checkOverlappingShowtime db theater startTime endTime excludeId with
  | some found => exact ⟨found, rfl⟩
  | none =>
    have := (checkOverlappingShowtime_none_iff _ _ _ _ _).mp h s hs
    rw [hc] at this
    cases this

theorem createShowtime_no_movie {db : Store} {data : ShowtimeData}
    (h : findMovieById db (some data.movieId) = none) :
    createShowtime db data =
      (.error (mkError "Cannot create showtime for a non-existing movie."), db) := by
  unfold createShowtime
  simp [h]

theorem createShowtime_mismatch {db : Store} {data : ShowtimeData} {movie : Movie}
    (h : findMovieById db (some data.movieId) = some movie)
    (hd : matchesExactDuration data.startTime data.endTime movie.duration = false) :
    createShowtime db data =
      (.error (mkError "Showtime length does not match the movie duration."), db) := by
  unfold createShowtime
  simp [h, hd]

theorem createShowtime_overlap {db : Store} {data : ShowtimeData} {movie : Movie}
    {found : Showtime}
    (h : findMovieById db (some data.movieId) = some movie)
    (hd : matchesExactDuration data.startTime data.endTime movie.duration = true)
    (ho : checkOverlappingShowtime db data.theater data.startTime data.endTime none =
      some found) :
    createShowtime db data =
      (.error (mkError "Showtime overlaps with an existing showtime in the same theater."),
        db) := by
  unfold createShowtime
  simp [h, hd, ho]

theorem createShowtime_success {db : Store} {data : ShowtimeData} {movie : Movie}
    (h : findMovieById db (some data.movieId) = some movie)
    (hd : matchesExactDuration data.startTime data.endTime movie.duration = true)
    (ho : checkOverlappingShowtime db data.theater data.startTime data.endTime none = none) :
    createShowtime db data =
      (.ok ⟨nextId (db.showtimes.map (fun s => s.id)), data.movieId, data.theater,
          data.startTime, data.endTime, data.price⟩,
        { db with showtimes := db.showtimes ++
          [⟨nextId (db.showtimes.map (fun s => s.id)), data.movieId, data.theater,
            data.startTime, data.endTime, data.price⟩] }) := by
  unfold createShowtime
  simp [h, hd, ho]

/-- C13. The checks of `createShowtime` in their order: a `movieId` that names no movie
gives the non-existing-movie error; otherwise a minute difference of end and start other
than the movie's duration gives the duration error; otherwise a stored showtime of the
theater with `start < data.end` and `end > data.start` gives the overlap error; and
every failing call leaves the store unchanged, no showtime persisted. -/
theorem createShowtime_failure_order (db : Store) (data : ShowtimeData) :
    ((∀ m ∈ db.movies, m.id ≠ data.movieId) →
      createShowtime db data =
        (.error (mkError "Cannot create showtime for a non-existing movie."), db)) ∧
    (∀ movie, findMovieById db (some data.movieId) = some movie →
      differenceInMinutes data.startTime data.endTime ≠ (movie.duration : ℚ) →
      createShowtime db data =
        (.error (mkError "Showtime length does not match the movie duration."), db)) ∧
    (∀ movie, findMovieById db (some data.movieId) = some movie →
      differenceInMinutes data.startTime data.endTime = (movie.duration : ℚ) →
      (∃ s ∈ db.showtimes, s.theater = data.theater ∧ s.startTime < data.endTime ∧
        s.endTime > data.startTime) →
      createShowtime db data =
        (.error (mkError "Showtime overlaps with an existing showtime in the same theater."),
          db)) ∧
    (∀ e db1, createShowtime db data = (.error e, db1) → db1 = db) := by
  refine ⟨?_, ?_, ?_, ?_⟩
  · intro h
    exact createShowtime_no_movie ((findMovieById_none_iff _ _).mpr h)
  · intro movie hm hd
    apply createShowtime_mismatch hm
    rw [← Bool.not_eq_true, matchesExactDuration_iff]
    exact hd
  · intro movie hm hd ⟨s, hs, hc⟩
    obtain ⟨found, hf⟩ := checkOverlappingShowtime_some_of_mem hs
      ((overlapClause_none_iff data.theater data.startTime data.endTime s).mpr hc)
    exact createShowtime_overlap hm ((matchesExactDuration_iff _ _ _).mpr hd) hf
  · intro e db1 h
    exact createShowtime_error h

/-- Witness for C13: a 100-minute slot for a 120-minute movie that would also overlap a
stored showtime is refused for its length. -/
theorem createShowtime_failure_order_witness :
    createShowtime ⟨[⟨1, "Inception", "SciFi", 120, 8, 2010⟩],
        [⟨1, 1, "A", 0, 7200000, 10⟩], []⟩ ⟨1, "A", 3600000, 9600000, 10⟩ =
      (.error (mkError "Showtime length does not match the movie duration."),
        ⟨[⟨1, "Inception", "SciFi", 120, 8, 2010⟩], [⟨1, 1, "A", 0, 7200000, 10⟩], []⟩) :=
  (createShowtime_failure_order ⟨[⟨1, "Inception", "SciFi", 120, 8, 2010⟩],
      [⟨1, 1, "A", 0, 7200000, 10⟩], []⟩ ⟨1, "A", 3600000, 9600000, 10⟩).2.1
    ⟨1, "Inception", "SciFi", 120, 8, 2010⟩ rfl
    (by simp only [differenceInMinutes]; norm_num)

theorem le_foldl_max (l : List Nat) :
    ∀ init : Nat, init ≤ l.foldl max init ∧ ∀ x ∈ l, x ≤ l.foldl max init := by
  induction l with
  | nil => intro init; exact ⟨le_refl _, fun _ h => by simp at h⟩
  | cons a l ih =>
    intro init
    obtain ⟨h1, h2⟩ := ih (max init a)
    refine ⟨le_trans (le_max_left _ _) h1, ?_⟩
    intro x hx
    rcases List.mem_cons.mp hx with rfl | hx
    · exact le_trans (le_max_right _ _) h1
    · exact h2 x hx

theorem lt_nextId {ids : List Nat} {x : Nat} (h : x ∈ ids) : x < nextId ids := by
  unfold nextId
  exact Nat.lt_succ_of_le ((le_foldl_max ids 0).2 x h)

theorem createShowtime_appends (db : Store) (data : ShowtimeData) (movie : Movie)
    (hm : findMovieById db (some data.movieId) = some movie)
    (hd : differenceInMinutes data.startTime data.endTime = (movie.duration : ℚ))
    (hfree : ∀ s ∈ db.showtimes, ¬ (s.theater = data.theater ∧ s.startTime < data.endTime ∧
      s.endTime > data.startTime)) :
    ∃ created : Showtime,
      createShowtime db data =
        (.ok created, { db with showtimes := db.showtimes ++ [created] }) ∧
      created.movieId = data.movieId ∧ created.theater = data.theater ∧
      created.startTime = data.startTime ∧ created.endTime = data.endTime ∧
      created.price = data.price ∧ ∀ s ∈ db.showtimes, s.id ≠ created.id := by
  have hprobe : checkOverlappingShowtime db data.theater data.startTime data.endTime none =
      none := by
    rw [checkOverlappingShowtime_none_iff]
    intro s hs
    rw [← Bool.not_eq_true, overlapClause_none_iff]
    exact hfree s hs
  refine ⟨_, createShowtime_success hm ((matchesExactDuration_iff _ _ _).mpr hd) hprobe,
    rfl, rfl, rfl, rfl, rfl, ?_⟩
  intro s hs
  exact Nat.ne_of_lt (lt_nextId (List.mem_map_of_mem (fun s => s.id) hs))

theorem differenceInMinutes_of_ms {startTime endTime d : Int}
    (h : endTime - startTime = d * 60000) :
    differenceInMinutes startTime endTime = (d : ℚ) :=
  (matchesExactDuration_iff _ _ _).mp ((matchesExactDuration_iff_ms _ _ _).mpr h)

/-- C14. When the movie exists, the minute difference of end and start is the movie's
duration and no stored showtime of the theater overlaps, `createShowtime` appends exactly
one showtime with the given fields, leaves every other row of the store as it was, and
returns the new row.  The scenario: for a movie of 120 minutes and a theater `A` with no
showtime yet, `[T, T+120m]` is created, then `[T+60m, T+180m]` is refused with the overlap
error, then `[T+120m, T+240m]` is created. -/
theorem createShowtime_succeeds (db : Store) (movie : Movie) :
    (∀ data : ShowtimeData, findMovieById db (some data.movieId) = some movie →
      differenceInMinutes data.startTime data.endTime = (movie.duration : ℚ) →
      (∀ s ∈ db.showtimes, ¬ (s.theater = data.theater ∧ s.startTime < data.endTime ∧
        s.endTime > data.startTime)) →
      ∃ created : Showtime,
        createShowtime db data =
          (.ok created, { db with showtimes := db.showtimes ++ [created] }) ∧
        created.movieId = data.movieId ∧ created.theater = data.theater ∧
        created.startTime = data.startTime ∧ created.endTime = data.endTime ∧
        created.price = data.price ∧ ∀ s ∈ db.showtimes, s.id ≠ created.id) ∧
    (∀ (T price : Int), findMovieById db (some movie.id) = some movie →
      movie.duration = 120 → (∀ s ∈ db.showtimes, s.theater ≠ "A") →
      ∃ first third : Showtime,
        createShowtime db ⟨movie.id, "A", T, T + 120 * 60000, price⟩ =
          (.ok first, { db with showtimes := db.showtimes ++ [first] }) ∧
        createShowtime { db with showtimes := db.showtimes ++ [first] }
            ⟨movie.id, "A", T + 60 * 60000, T + 180 * 60000, price⟩ =
          (.error (mkError "Showtime overlaps with an existing showtime in the same theater."),
            { db with showtimes := db.showtimes ++ [first] }) ∧
        createShowtime { db with showtimes := db.showtimes ++ [first] }
            ⟨movie.id, "A", T + 120 * 60000, T + 240 * 60000, price⟩ =
          (.ok third, { db with showtimes := db.showtimes ++ [first, third] })) := by
  constructor
  · intro data hm hd hfree
    exact createShowtime_appends db data movie hm hd hfree
  · intro T price hm hdur hfree
    obtain ⟨first, h1, -, hth, hst, hen, -, -⟩ :=
      createShowtime_appends db ⟨movie.id, "A", T, T + 120 * 60000, price⟩ movie hm
        (differenceInMinutes_of_ms (by rw [hdur]; ring))
        (fun s hs h => hfree s hs h.1)
    simp only at hth hst hen
    have hfirst : first ∈ db.showtimes ++ [first] := by simp
    have hm1 : findMovieById { db with showtimes := db.showtimes ++ [first] } (some movie.id) =
        some movie := hm
    refine ⟨first, ?_⟩
    obtain ⟨found, hf⟩ := @checkOverlappingShowtime_some_of_mem
      { db with showtimes := db.showtimes ++ [first] } "A" (T + 60 * 60000) (T + 180 * 60000)
      none first hfirst
      ((overlapClause_none_iff _ _ _ _).mpr ⟨hth, by rw [hst]; omega, by rw [hen]; omega⟩)
    have h2 := @createShowtime_overlap { db with showtimes := db.showtimes ++ [first] }
      ⟨movie.id, "A", T + 60 * 60000, T + 180 * 60000, price⟩ movie found hm1
      ((matchesExactDuration_iff_ms _ _ _).mpr (by rw [hdur]; ring)) hf
    obtain ⟨third, h3, -⟩ :=
      createShowtime_appends { db with showtimes := db.showtimes ++ [first] }
        ⟨movie.id, "A", T + 120 * 60000, T + 240 * 60000, price⟩ movie hm1
        (differenceInMinutes_of_ms (by rw [hdur]; ring))
        (by
          intro s hs
          simp only [List.mem_append, List.mem_singleton] at hs
          rcases hs with hs | rfl
          · exact fun h => hfree s hs h.1
          · rw [hen]
            intro h
            exact lt_irrefl _ h.2.2)
    refine ⟨third, h1, h2, ?_⟩
    rw [h3]
    simp

/-- Witness for C14: the scenario with `T = 0` on a store that holds the movie only. -/
theorem createShowtime_succeeds_witness :
    ∃ first third : Showtime,
      createShowtime ⟨[⟨1, "Inception", "SciFi", 120, 8, 2010⟩], [], []⟩
          ⟨1, "A", 0, 0 + 120 * 60000, 10⟩ =
        (.ok first, ⟨[⟨1, "Inception", "SciFi", 120, 8, 2010⟩], [] ++ [first], []⟩) ∧
      createShowtime ⟨[⟨1, "Inception", "SciFi", 120, 8, 2010⟩], [] ++ [first], []⟩
          ⟨1, "A", 0 + 60 * 60000, 0 + 180 * 60000, 10⟩ =
        (.error (mkError "Showtime overlaps with an existing showtime in the same theater."),
          ⟨[⟨1, "Inception", "SciFi", 120, 8, 2010⟩], [] ++ [first], []⟩) ∧
      createShowtime ⟨[⟨1, "Inception", "SciFi", 120, 8, 2010⟩], [] ++ [first], []⟩
          ⟨1, "A", 0 + 120 * 60000, 0 + 240 * 60000, 10⟩ =
        (.ok third, ⟨[⟨1, "Inception", "SciFi", 120, 8, 2010⟩], [] ++ [first, third], []⟩) :=
  (createShowtime_succeeds ⟨[⟨1, "Inception", "SciFi", 120, 8, 2010⟩], [], []⟩
    ⟨1, "Inception", "SciFi", 120, 8, 2010⟩).2 0 10 rfl rfl (by decide)

theorem getShowtimeById_none_of_forall {db : Store} {id : Nat}
    (h : ∀ s ∈ db.showtimes, s.id ≠ id) :
    getShowtimeById db id = .error (mkError "Showtime not found") := by
  cases hg : getShowtimeById db id with
  | error e => rw [(getShowtimeById_error hg).1]
  | ok st =>
    obtain ⟨hm, hid⟩ := getShowtimeById_ok_mem hg
    exact absurd hid (h st hm)

theorem findTickets_eq_nil_iff (db : Store) (id : Nat) :
    findTicketsByShowtimeId db id = [] ↔ ¬ ∃ t ∈ db.tickets, t.showtimeId = id := by
  rw [← findTickets_length_pos_iff]
  simp [List.length_eq_zero]

/-- Counterexample to C15: `newData.duration` is given as `0` and the new interval is
empty, so the difference of end and start is the given duration; the code still takes the
movie's 100 minutes as the expected duration, because `0 || movie.duration` is the movie's
duration, and throws the duration error. -/
theorem updateShowtime_zero_duration_is_not_given :
    updateShowtime 100
      ⟨[⟨1, "Inception", "SciFi", 100, 8, 2010⟩], [⟨1, 1, "A", 7000000, 13000000, 10⟩], []⟩ 1
      ⟨some 1, some "A", some 7000000, some 7000000, some 10, some 0⟩ false =
    (.error (mkError "Updated showtime length does not match the movie duration."),
      ⟨[⟨1, "Inception", "SciFi", 100, 8, 2010⟩], [⟨1, 1, "A", 7000000, 13000000, 10⟩], []⟩) ∧
    differenceInMinutes 7000000 7000000 = ((0 : Int) : ℚ) := by
  constructor
  · rfl
  · simp [differenceInMinutes]

/-- C15, amended. The checks of `updateShowtime` in their order of precedence: the
not-found error if no showtime has the id; the already-ended error if the current end is
before now; the tickets-sold error if a ticket exists for the showtime; the
non-existing-movie error if `newData.movieId` names no movie; the duration error if the
minute difference of `newData.endTime` and `newData.startTime` is not the expected
duration, which is `newData.duration` when that is given and is not 0 and the target
movie's duration otherwise; and, only when `skipOverlapCheck` is false, the overlap error
if the probe of `newData.theater` for the new interval, the id excluded, finds a showtime.
Every failure leaves the store unchanged.  If none applies (the overlap check being
skipped, or `newData` naming a theater whose probe is clean) the row is updated with
`newData` and returned. -/
theorem updateShowtime_check_order (now : Int) (db : Store) (id : Nat)
    (newData : ShowtimeUpdate) (skipOverlapCheck : Bool) :
    ((∀ s ∈ db.showtimes, s.id ≠ id) →
      updateShowtime now db id newData skipOverlapCheck =
        (.error (mkError "Showtime not found"), db)) ∧
    (∀ current, getShowtimeById db id = .ok current →
      (current.endTime < now →
        updateShowtime now db id newData skipOverlapCheck =
          (.error (mkError "Cannot update a showtime that has already ended."), db)) ∧
      (¬ current.endTime < now → (∃ t ∈ db.tickets, t.showtimeId = id) →
        updateShowtime now db id newData skipOverlapCheck =
          (.error (mkError "Cannot update a showtime that already has tickets sold."), db)) ∧
      (¬ current.endTime < now → (¬ ∃ t ∈ db.tickets, t.showtimeId = id) →
        (findMovieById db newData.movieId = none →
          updateShowtime now db id newData skipOverlapCheck =
            (.error (mkError "Cannot update showtime to a non-existing movie."), db)) ∧
        (∀ movie, findMovieById db newData.movieId = some movie →
          (matchesExactDurationOf newData.startTime newData.endTime
              (durationToCompare newData.duration movie.duration) = false →
            updateShowtime now db id newData skipOverlapCheck =
              (.error (mkError "Updated showtime length does not match the movie duration."),
                db)) ∧
          (matchesExactDurationOf newData.startTime newData.endTime
              (durationToCompare newData.duration movie.duration) = true →
            (∀ theater startTime endTime found, skipOverlapCheck = false →
              newData.theater = some theater → newData.startTime = some startTime →
              newData.endTime = some endTime →
              checkOverlappingShowtime db theater startTime endTime (some id) = some found →
              updateShowtime now db id newData skipOverlapCheck =
                (.error (mkError
                  "Updated showtime overlaps with an existing showtime in the same theater."),
                  db)) ∧
            ((skipOverlapCheck = true ∨ ∃ theater startTime endTime,
                newData.theater = some theater ∧ newData.startTime = some startTime ∧
                newData.endTime = some endTime ∧
                checkOverlappingShowtime db theater startTime endTime (some id) = none) →
              updateShowtime now db id newData skipOverlapCheck =
                (.ok (current.applyUpdate newData),
                  { db with
                    showtimes := db.showtimes.map
                      (fun s => if s.id == id then s.applyUpdate newData else s) })))))) ∧
    (∀ e db1, updateShowtime now db id newData skipOverlapCheck = (.error e, db1) → db1 = db) ∧
    (∀ d movieDuration, d ≠ 0 → durationToCompare (some d) movieDuration = d) ∧
    (∀ movieDuration, durationToCompare none movieDuration = movieDuration ∧
      durationToCompare (some 0) movieDuration = movieDuration) ∧
    (∀ startTime endTime d, matchesExactDurationOf (some startTime) (some endTime) d = true ↔
      differenceInMinutes startTime endTime = (d : ℚ)) := by
  refine ⟨?_, ?_, ?_, ?_, ?_, ?_⟩
  · intro h
    unfold updateShowtime
    simp [getShowtimeById_none_of_forall h]
  · intro current hs
    have hid := (getShowtimeById_ok_mem hs).2
    refine ⟨fun hp => updateShowtime_ended hs hp _ _,
      fun hp ht => updateShowtime_sold hs hp ht _ _, ?_⟩
    intro hp ht
    have hp1 := (isDateInThePast_eq_false_iff now current.endTime).mpr hp
    have ht1 : ¬ (findTicketsByShowtimeId db id).length > 0 := by
      rw [findTickets_length_pos_iff]; exact ht
    refine ⟨?_, ?_⟩
    · intro hm
      unfold updateShowtime
      simp only [hs, hp1, Bool.false_eq_true, if_false, ht1, hm]
    · intro movie hm
      refine ⟨?_, ?_⟩
      · intro hd
        unfold updateShowtime
        simp only [hs, hp1, Bool.false_eq_true, if_false, ht1, hm, hd, Bool.not_false, if_true]
      · intro hd
        refine ⟨?_, ?_⟩
        · intro theater startTime endTime found hskip hth hst hen hfound
          have hd1 := hd
          rw [hst, hen] at hd1
          unfold updateShowtime
          simp only [hs, hp1, Bool.false_eq_true, if_false, ht1, hm, hd1, Bool.not_true, hskip,
            hth, hst, hen, hfound]
        · intro hclean
          unfold updateShowtime
          rcases hclean with hskip | ⟨theater, startTime, endTime, hth, hst, hen, hnone⟩
          · simp only [hs, hp1, Bool.false_eq_true, if_false, ht1, hm, hd, Bool.not_true, hskip,
              if_true, hid]
          · have hd1 := hd
            rw [hst, hen] at hd1
            cases skipOverlapCheck <;>
              simp only [hs, hp1, Bool.false_eq_true, if_false, ht1, hm, hd1, Bool.not_true,
                hth, hst, hen, hnone, if_true, hid]
  · intro e db1 h
    exact updateShowtime_error h
  · intro d movieDuration hd
    simp [durationToCompare, hd]
  · intro movieDuration
    exact ⟨rfl, rfl⟩
  · intro startTime endTime d
    exact matchesExactDuration_iff startTime endTime d

/-- Witness for C15, amended: moving showtime 1 onto showtime 2 of the same theater is
refused with the overlap error, and the store stays as it was. -/
theorem updateShowtime_check_order_witness :
    updateShowtime 100
      ⟨[⟨1, "Inception", "SciFi", 100, 8, 2010⟩],
        [⟨1, 1, "A", 7000000, 13000000, 10⟩, ⟨2, 1, "A", 14000000, 20000000, 10⟩], []⟩ 1
      ⟨some 1, some "A", some 13500000, some 19500000, some 10, none⟩ false =
    (.error (mkError "Updated showtime overlaps with an existing showtime in the same theater."),
      ⟨[⟨1, "Inception", "SciFi", 100, 8, 2010⟩],
        [⟨1, 1, "A", 7000000, 13000000, 10⟩, ⟨2, 1, "A", 14000000, 20000000, 10⟩], []⟩) :=
  (((((updateShowtime_check_order 100
    ⟨[⟨1, "Inception", "SciFi", 100, 8, 2010⟩],
      [⟨1, 1, "A", 7000000, 13000000, 10⟩, ⟨2, 1, "A", 14000000, 20000000, 10⟩], []⟩ 1
    ⟨some 1, some "A", some 13500000, some 19500000, some 10, none⟩ false).2.1
    ⟨1, 1, "A", 7000000, 13000000, 10⟩ rfl).2.2 (by decide) (by decide)).2
    ⟨1, "Inception", "SciFi", 100, 8, 2010⟩ rfl).2 rfl).1
    "A" 13500000 19500000 ⟨2, 1, "A", 14000000, 20000000, 10⟩ rfl rfl rfl rfl rfl

/-- C16. `deleteShowtime` fails with `Showtime not found` when no showtime has the id.
When the showtime exists, has not ended and has no ticket, it removes the rows with that
id and nothing else, every other showtime, every movie and every ticket staying as it
was, and returns nothing.  And when the delete statement deletes no row, the showtime
having gone between the lookups and the statement, it fails with `Showtime not found`. -/
theorem deleteShowtime_outcomes (now : Int) (db : Store) (id : Nat) :
    ((∀ s ∈ db.showtimes, s.id ≠ id) →
      deleteShowtime now db id = (.error (mkError "Showtime not found"), db)) ∧
    (∀ st, getShowtimeById db id = .ok st → ¬ st.endTime < now →
      (¬ ∃ t ∈ db.tickets, t.showtimeId = id) →
      deleteShowtime now db id =
        (.ok (), { db with showtimes := db.showtimes.filter (fun s => !(s.id == id)) }) ∧
      st ∉ db.showtimes.filter (fun s => !(s.id == id)) ∧
      ∀ s ∈ db.showtimes, s.id ≠ id → s ∈ db.showtimes.filter (fun s => !(s.id == id))) ∧
    (∀ (concurrent : Store → Store) st, getShowtimeById db id = .ok st → ¬ st.endTime < now →
      (¬ ∃ t ∈ db.tickets, t.showtimeId = id) →
      (showtimeDestroy (concurrent db) id).1 = 0 →
      (deleteShowtimeAmid concurrent now db id).1 = .error (mkError "Showtime not found")) := by
  refine ⟨?_, ?_, ?_⟩
  · intro h
    unfold deleteShowtime deleteShowtimeAmid
    simp [getShowtimeById_none_of_forall h]
  · intro st hs hp ht
    have hp1 := (isDateInThePast_eq_false_iff now st.endTime).mpr hp
    have ht1 : ¬ (findTicketsByShowtimeId db id).length > 0 := by
      rw [findTickets_length_pos_iff]; exact ht
    obtain ⟨hmem, hid⟩ := getShowtimeById_ok_mem hs
    have hcount : (db.showtimes.filter (fun s => s.id == id)).length ≠ 0 := by
      apply Nat.ne_of_gt
      apply List.length_pos_of_mem (a := st)
      simp [List.mem_filter, hmem, hid]
    have htk : db.tickets.filter (fun t => !(t.showtimeId == id)) = db.tickets := by
      rw [List.filter_eq_self]
      intro t htm
      have : t.showtimeId ≠ id := fun h => ht ⟨t, htm, h⟩
      simpa using this
    refine ⟨?_, ?_, ?_⟩
    · unfold deleteShowtime deleteShowtimeAmid destroyShowtimeRow showtimeDestroy
      simp only [hs, hp1, Bool.false_eq_true, if_false, ht1, hcount, htk]
    · simp [List.mem_filter, hid]
    · intro s hsm hne
      simp [List.mem_filter, hsm, hne]
  · intro concurrent st hs hp ht hzero
    have hp1 := (isDateInThePast_eq_false_iff now st.endTime).mpr hp
    have ht1 : ¬ (findTicketsByShowtimeId db id).length > 0 := by
      rw [findTickets_length_pos_iff]; exact ht
    unfold deleteShowtimeAmid destroyShowtimeRow
    simp only [hs, hp1, Bool.false_eq_true, if_false, ht1, hzero, if_true]

/-- Witness for C16: showtime 2 is deleted next to showtime 1; and the same call, when
another caller deletes showtime 2 after the lookups, fails with `Showtime not found`. -/
theorem deleteShowtime_outcomes_witness :
    deleteShowtime 100
      ⟨[⟨1, "Inception", "SciFi", 100, 8, 2010⟩],
        [⟨1, 1, "A", 0, 6000000, 10⟩, ⟨2, 1, "A", 6000000, 12000000, 10⟩], []⟩ 2 =
      (.ok (), ⟨[⟨1, "Inception", "SciFi", 100, 8, 2010⟩], [⟨1, 1, "A", 0, 6000000, 10⟩], []⟩) ∧
    (deleteShowtimeAmid (fun s => (deleteShowtime 100 s 2).2) 100
      ⟨[⟨1, "Inception", "SciFi", 100, 8, 2010⟩],
        [⟨1, 1, "A", 0, 6000000, 10⟩, ⟨2, 1, "A", 6000000, 12000000, 10⟩], []⟩ 2).1 =
      .error (mkError "Showtime not found") :=
  have h := deleteShowtime_outcomes 100
    ⟨[⟨1, "Inception", "SciFi", 100, 8, 2010⟩],
      [⟨1, 1, "A", 0, 6000000, 10⟩, ⟨2, 1, "A", 6000000, 12000000, 10⟩], []⟩ 2
  ⟨(h.2.1 ⟨2, 1, "A", 6000000, 12000000, 10⟩ rfl (by decide) (by decide)).1,
    h.2.2 (fun s => (deleteShowtime 100 s 2).2) ⟨2, 1, "A", 6000000, 12000000, 10⟩ rfl
      (by decide) (by decide) (by decide)⟩

/-! ## The overlap detector -/

theorem overlapClause_iff {theater : String} {startTime endTime : Int} {excludeId : Option Nat}
    {s : Showtime} (hid : s.id ≠ 0) :
    overlapClause theater startTime endTime excludeId s = true ↔
      s.theater = theater ∧ s.startTime < endTime ∧ s.endTime > startTime ∧
        (excludeId = none ∨ some s.id ≠ excludeId) := by
  cases excludeId with
  | none => simp [overlapClause, truthyId, and_assoc]
  | some k =>
    by_cases hk : k = 0
    · subst hk
      simp [overlapClause, truthyId, and_assoc, hid]
    · simp [overlapClause, truthyId, and_assoc, hk]

theorem checkOverlappingShowtime_some {db : Store} {theater : String} {startTime endTime : Int}
    {excludeId : Option Nat} {found : Showtime}
    (h : checkOverlappingShowtime db theater startTime endTime excludeId = some found) :
    found ∈ db.showtimes ∧ overlapClause theater startTime endTime excludeId found = true :=
  ⟨List.mem_of_find?_eq_some h, List.find?_some h⟩

/-- C17. In a store whose showtime ids come from the auto-increment key (none is 0),
`checkOverlappingShowtime(theater, start, end, excludeId)` returns a showtime if and only
if some stored showtime `s` has `s.theater = theater`, `s.start < end`, `s.end > start`
and, when `excludeId` is given, `s.id ≠ excludeId`; a returned showtime is a stored one
that satisfies all of these; and otherwise the result is none. -/
theorem checkOverlappingShowtime_spec (db : Store) (theater : String) (startTime endTime : Int)
    (excludeId : Option Nat) (hkeys : PositiveKeys db) :
    ((∃ found, checkOverlappingShowtime db theater startTime endTime excludeId = some found) ↔
      ∃ s ∈ db.showtimes, s.theater = theater ∧ s.startTime < endTime ∧
        s.endTime > startTime ∧ (excludeId = none ∨ some s.id ≠ excludeId)) ∧
    (∀ found, checkOverlappingShowtime db theater startTime endTime excludeId = some found →
      found ∈ db.showtimes ∧ found.theater = theater ∧ found.startTime < endTime ∧
        found.endTime > startTime ∧ (excludeId = none ∨ some found.id ≠ excludeId)) ∧
    (checkOverlappingShowtime db theater startTime endTime excludeId = none ↔
      ¬ ∃ s ∈ db.showtimes, s.theater = theater ∧ s.startTime < endTime ∧
        s.endTime > startTime ∧ (excludeId = none ∨ some s.id ≠ excludeId)) := by
  have hsome : ∀ found,
      checkOverlappingShowtime db theater startTime endTime excludeId = some found →
      found ∈ db.showtimes ∧ found.theater = theater ∧ found.startTime < endTime ∧
        found.endTime > startTime ∧ (excludeId = none ∨ some found.id ≠ excludeId) := by
    intro found h
    obtain ⟨hm, hc⟩ := checkOverlappingShowtime_some h
    exact ⟨hm, (overlapClause_iff (hkeys found hm)).mp hc⟩
  have hex : (∃ s ∈ db.showtimes, s.theater = theater ∧ s.startTime < endTime ∧
      s.endTime > startTime ∧ (excludeId = none ∨ some s.id ≠ excludeId)) →
      ∃ found, checkOverlappingShowtime db theater startTime endTime excludeId = some found := by
    rintro ⟨s, hs, hc⟩
    exact checkOverlappingShowtime_some_of_mem hs ((overlapClause_iff (hkeys s hs)).mpr hc)
  refine ⟨⟨?_, hex⟩, hsome, ?_⟩
  · rintro ⟨found, h⟩
    exact ⟨found, hsome found h⟩
  · constructor
    · intro hnone hc
      obtain ⟨found, hf⟩ := hex hc
      rw [hnone] at hf
      cases hf
    · intro hno
      cases h : checkOverlappingShowtime db theater startTime endTime excludeId with
      | none => rfl
      | some found => exact absurd ⟨found, hsome found h⟩ hno

/-- Witness for C17: the probe that excludes showtime 1 finds showtime 2, not showtime 1
and not the showtime of theater `B`. -/
theorem checkOverlappingShowtime_spec_witness :
    checkOverlappingShowtime
      ⟨[], [⟨1, 1, "A", 0, 6000000, 10⟩, ⟨3, 1, "B", 0, 6000000, 10⟩,
        ⟨2, 1, "A", 3000000, 9000000, 10⟩], []⟩ "A" 0 6000000 (some 1) =
      some ⟨2, 1, "A", 3000000, 9000000, 10⟩ ∧
    (⟨2, 1, "A", 3000000, 9000000, 10⟩ : Showtime).theater = "A" :=
  ⟨rfl, ((checkOverlappingShowtime_spec
    ⟨[], [⟨1, 1, "A", 0, 6000000, 10⟩, ⟨3, 1, "B", 0, 6000000, 10⟩,
      ⟨2, 1, "A", 3000000, 9000000, 10⟩], []⟩ "A" 0 6000000 (some 1) (by decide)).2.1
    ⟨2, 1, "A", 3000000, 9000000, 10⟩ rfl).2.1⟩

/-- C18. Boundary touch is not overlap: a stored showtime that ends exactly at the start
of the query interval, or starts exactly at its end, does not satisfy the overlap clause,
so `checkOverlappingShowtime` never returns it, whatever the theater and `excludeId`; a
store that holds only such a showtime gives none. -/
theorem boundary_touch_is_not_overlap (db : Store) (theater : String) (startTime endTime : Int)
    (excludeId : Option Nat) (s : Showtime)
    (htouch : s.endTime = startTime ∨ s.startTime = endTime) :
    overlapClause theater startTime endTime excludeId s = false ∧
    checkOverlappingShowtime db theater startTime endTime excludeId ≠ some s ∧
    checkOverlappingShowtime ⟨db.movies, [s], db.tickets⟩ theater startTime endTime excludeId =
      none := by
  have hc : overlapClause theater startTime endTime excludeId s = false := by
    unfold overlapClause
    rcases htouch with h | h <;> simp [h]
  refine ⟨hc, ?_, ?_⟩
  · intro h
    have := (checkOverlappingShowtime_some h).2
    rw [hc] at this
    cases this
  · rw [checkOverlappingShowtime_none_iff]
    intro x hx
    rw [List.mem_singleton.mp hx]
    exact hc

/-- Witness for C18: a showtime of theater `A` that ends at `6000000` is no conflict for
the interval that starts at `6000000` in theater `A`. -/
theorem boundary_touch_is_not_overlap_witness :
    checkOverlappingShowtime ⟨[], [⟨1, 1, "A", 0, 6000000, 10⟩], []⟩ "A" 6000000 12000000 none =
      none :=
  (boundary_touch_is_not_overlap ⟨[], [⟨1, 1, "A", 0, 6000000, 10⟩], []⟩ "A" 6000000 12000000
    none ⟨1, 1, "A", 0, 6000000, 10⟩ (Or.inl rfl)).2.2

/-- C19. Overlap symmetry: the overlap clause of `checkOverlappingShowtime` holds of `A`
for the theater and interval of `B` exactly when it holds of `B` for the theater and
interval of `A`, both without an excluded id and with each probe excluding the id of the
showtime whose interval it probes; so a store that holds `A` alone reports a conflict for
`B` exactly when a store that holds `B` alone reports one for `A`. -/
theorem overlap_symmetry (a b : Showtime) :
    overlapClause b.theater b.startTime b.endTime none a =
      overlapClause a.theater a.startTime a.endTime none b ∧
    overlapClause b.theater b.startTime b.endTime (some b.id) a =
      overlapClause a.theater a.startTime a.endTime (some a.id) b ∧
    (checkOverlappingShowtime ⟨[], [a], []⟩ b.theater b.startTime b.endTime none).isSome =
      (checkOverlappingShowtime ⟨[], [b], []⟩ a.theater a.startTime a.endTime none).isSome := by
  have h1 : overlapClause b.theater b.startTime b.endTime none a =
      overlapClause a.theater a.startTime a.endTime none b := by
    rw [Bool.eq_iff_iff, overlapClause_none_iff, overlapClause_none_iff]
    constructor
    · rintro ⟨h, x, y⟩; exact ⟨h.symm, y, x⟩
    · rintro ⟨h, x, y⟩; exact ⟨h.symm, y, x⟩
  refine ⟨h1, ?_, ?_⟩
  · have hex : (if truthyId (some b.id) then some a.id != some b.id else true) =
        (if truthyId (some a.id) then some b.id != some a.id else true) := by
      unfold truthyId
      by_cases ha : a.id = 0
      · by_cases hb : b.id = 0
        · simp [ha, hb]
        · simp [ha, hb]
          exact fun h => hb h.symm
      · by_cases hb : b.id = 0
        · simp [ha, hb]
          exact fun h => ha h.symm
        · by_cases hab : a.id = b.id
          · simp [hab]
          · have h2 : (some a.id != some b.id) = true := by simpa using hab
            have h3 : (some b.id != some a.id) = true := by simpa using Ne.symm hab
            simp only [ha, hb, bne_iff_ne, ne_eq, not_false_eq_true, decide_True, if_true]
            rw [h2, h3]
    have hsplit : ∀ (th : String) (st en : Int) (k : Nat) (s : Showtime),
        overlapClause th st en (some k) s =
          (overlapClause th st en none s &&
            (if truthyId (some k) then some s.id != some k else true)) := by
      intro th st en k s
      simp [overlapClause, truthyId]
    rw [hsplit, hsplit, h1, hex]
  · unfold checkOverlappingShowtime
    simp only [List.find?_cons, List.find?_nil]
    rw [h1]
    cases overlapClause a.theater a.startTime a.endTime none b <;> rfl

/-! ## Duration match -/

theorem updateShowtime_cascade_ok {now : Int} {db0 db db1 : Store} {movie : Movie}
    {newDuration : Int} {st s : Showtime} {f : Showtime → Showtime}
    (hkeys : ShowtimeKeys db0) (hst : st ∈ findShowtimesByMovieId db0 movie.id)
    (hf : db.showtimes = db0.showtimes.map f)
    (hcases : ∀ s0 ∈ db0.showtimes, f s0 = s0 ∨ f s0 = s0.extended newDuration)
    (hres : updateShowtime now db st.id (cascadeData movie st newDuration) true = (.ok s, db1)) :
    db1.showtimes = db0.showtimes.map
      (fun s0 => if s0.id == st.id then s0.extended newDuration else f s0) := by
  obtain ⟨showtime, -, hs, -, -, -, -, -, -, hdb⟩ := updateShowtime_ok hres
  obtain ⟨-, hid⟩ := getShowtimeById_ok_mem hs
  obtain ⟨hst0, hmovie⟩ := mem_findShowtimesByMovieId.mp hst
  subst hdb
  simp only [hf, List.map_map, hid]
  apply List.map_congr_left
  intro s0 hs0
  have hfid : (f s0).id = s0.id := by
    rcases hcases s0 hs0 with e | e <;> rw [e]
    rfl
  simp only [Function.comp_apply, hfid]
  by_cases hi : s0.id = st.id
  · have heq : s0 = st := showtime_eq_of_id_eq hkeys hs0 hst0 hi
    subst heq
    simp only [beq_self_eq_true, if_true]
    rcases hcases s0 hs0 with e | e <;> rw [e] <;>
      simp [Showtime.applyUpdate, cascadeData, Showtime.extended, hmovie]
  · simp [hi]

/-- A mutation pass that ends without an error has extended every showtime it was run
over, and has left every other showtime as the pass found it. -/
theorem cascadeLoop_ok_extends (now : Int) {db0 : Store} (movie : Movie) (newDuration : Int)
    (hkeys : ShowtimeKeys db0) :
    ∀ (todo : List Showtime) (db : Store) (f : Showtime → Showtime) (db1 : Store),
      (∀ s ∈ todo, s ∈ findShowtimesByMovieId db0 movie.id) →
      db.showtimes = db0.showtimes.map f →
      (∀ s0 ∈ db0.showtimes, f s0 = s0 ∨ f s0 = s0.extended newDuration) →
      cascadeLoop now movie newDuration todo db = (none, db1) →
      ∃ f1 : Showtime → Showtime, db1.showtimes = db0.showtimes.map f1 ∧
        ∀ s0 ∈ db0.showtimes,
          (s0 ∈ todo → f1 s0 = s0.extended newDuration) ∧ (s0 ∉ todo → f1 s0 = f s0)
  | [], db, f, db1, _, hf, _, hloop => by
    simp only [cascadeLoop, Prod.mk.injEq, true_and] at hloop
    subst hloop
    exact ⟨f, hf, fun s0 _ => ⟨fun h => by simp at h, fun _ => rfl⟩⟩
  | st :: rest, db, f, db1, hsub, hf, hcases, hloop => by
    unfold cascadeLoop at hloop
    rcases hres : updateShowtime now db st.id (cascadeData movie st newDuration) true with ⟨r, db2⟩
    rw [hres] at hloop
    cases r with
    | error e => simp at hloop
    | ok s =>
      simp only at hloop
      have hst := hsub st (List.mem_cons_self _ _)
      have hf2 := updateShowtime_cascade_ok hkeys hst hf hcases hres
      have hcases2 : ∀ s0 ∈ db0.showtimes,
          (fun s0 => if s0.id == st.id then s0.extended newDuration else f s0) s0 = s0 ∨
          (fun s0 => if s0.id == st.id then s0.extended newDuration else f s0) s0 =
            s0.extended newDuration := by
        intro s0 hs0
        by_cases hi : s0.id = st.id
        · simp [hi]
        · simpa [hi] using hcases s0 hs0
      obtain ⟨f1, hf1, h1⟩ := cascadeLoop_ok_extends now movie newDuration hkeys rest db2 _ db1
        (fun s hs => hsub s (List.mem_cons_of_mem _ hs)) hf2 hcases2 hloop
      refine ⟨f1, hf1, fun s0 hs0 => ⟨?_, ?_⟩⟩
      · intro hmem
        by_cases hr : s0 ∈ rest
        · exact (h1 s0 hs0).1 hr
        · rcases List.mem_cons.mp hmem with rfl | hmem
          · rw [(h1 s0 hs0).2 hr]
            simp
          · exact absurd hmem hr
      · intro hnot
        have hr : s0 ∉ rest := fun h => hnot (List.mem_cons_of_mem _ h)
        have hne : s0.id ≠ st.id := by
          intro hi
          exact hnot (by
            rw [showtime_eq_of_id_eq hkeys hs0 (mem_findShowtimesByMovieId.mp hst).1 hi]
            exact List.mem_cons_self _ _)
        rw [(h1 s0 hs0).2 hr]
        simp [hne]

theorem ownerDurationMatches_congr {db db1 : Store} (hm : db1.movies = db.movies)
    (s : Showtime) : ownerDurationMatches db1 s = ownerDurationMatches db s := by
  unfold ownerDurationMatches findMovieById
  rw [hm]

/-- Removing showtimes, and changing nothing about the movies, keeps the duration match. -/
theorem durationMatch_of_subset {db db1 : Store} (hinv : DurationMatch db)
    (hm : db1.movies = db.movies) (hs : ∀ s ∈ db1.showtimes, s ∈ db.showtimes) :
    DurationMatch db1 := by
  intro s hs1
  rw [ownerDurationMatches_congr hm]
  exact hinv s (hs s hs1)

theorem findMovieById_map (db : Store) (g : Movie → Movie) (hg : ∀ m, (g m).id = m.id)
    (k : Nat) :
    (db.movies.map g).find? (fun m => m.id == k) =
      (db.movies.find? (fun m => m.id == k)).map g := by
  rw [List.find?_map]
  congr 2
  funext m
  simp [hg m]

/-- Rewriting movie rows in a way that keeps their ids and their durations keeps the
duration match. -/
theorem durationMatch_of_movies_map {db db1 : Store} (hinv : DurationMatch db)
    (g : Movie → Movie) (hid : ∀ m, (g m).id = m.id)
    (hdur : ∀ m ∈ db.movies, (g m).duration = m.duration)
    (hm : db1.movies = db.movies.map g) (hs : db1.showtimes = db.showtimes) :
    DurationMatch db1 := by
  intro s hs1
  rw [hs] at hs1
  have h := hinv s hs1
  unfold ownerDurationMatches findMovieById at h ⊢
  simp only at h ⊢
  rw [hm, findMovieById_map db g hid]
  cases hf : db.movies.find? (fun m => m.id == s.movieId) with
  | none => rw [hf] at h; simp at h
  | some m =>
    rw [hf] at h
    simp only [Option.map_some'] at h ⊢
    rw [hdur m (List.mem_of_find?_eq_some hf)]
    exact h

theorem durationMatch_createMovie {db : Store} (hinv : DurationMatch db) (data : MovieData) :
    DurationMatch (createMovie db data).2 := by
  unfold createMovie
  split
  · exact hinv
  · intro s hs
    have h := hinv s hs
    unfold ownerDurationMatches findMovieById at h ⊢
    simp only at h ⊢
    rw [List.find?_append]
    cases hf : db.movies.find? (fun m => m.id == s.movieId) with
    | none => rw [hf] at h; simp at h
    | some m => rw [hf] at h; simpa using h

theorem deleteShowtime_frame (now : Int) (db : Store) (id : Nat) :
    (deleteShowtime now db id).2.movies = db.movies ∧
    ∀ s ∈ (deleteShowtime now db id).2.showtimes, s ∈ db.showtimes := by
  unfold deleteShowtime deleteShowtimeAmid
  split
  · exact ⟨rfl, fun _ h => h⟩
  · split
    · exact ⟨rfl, fun _ h => h⟩
    · split
      · exact ⟨rfl, fun _ h => h⟩
      · unfold destroyShowtimeRow showtimeDestroy
        simp only
        split <;> exact ⟨rfl, fun _ h => List.mem_of_mem_filter h⟩

theorem deleteLoop_frame (now : Int) :
    ∀ (todo : List Showtime) (db : Store),
      (deleteLoop now todo db).2.movies = db.movies ∧
      ∀ s ∈ (deleteLoop now todo db).2.showtimes, s ∈ db.showtimes
  | [], _ => ⟨rfl, fun _ h => h⟩
  | st :: rest, db => by
    have hf := deleteShowtime_frame now db st.id
    rw [deleteLoop_cons]
    rcases hres : deleteShowtime now db st.id with ⟨r, db1⟩
    rw [hres] at hf
    cases r with
    | error e => exact hf
    | ok u =>
      have ih := deleteLoop_frame now rest db1
      exact ⟨ih.1.trans hf.1, fun s hs => hf.2 s (ih.2 s hs)⟩

theorem durationMatch_movieDestroy {db : Store} (hinv : DurationMatch db) (movie : Movie) :
    DurationMatch (movieDestroy db movie) := by
  intro s hs
  simp only [movieDestroy, List.mem_filter, Bool.not_eq_true', beq_eq_false_iff_ne,
    ne_eq] at hs
  have h := hinv s hs.1
  unfold ownerDurationMatches findMovieById at h ⊢
  simp only [movieDestroy] at h ⊢
  rw [List.find?_filter]
  have hp : ∀ m : Movie,
      decide ((!(m.id == movie.id)) = true ∧ (m.id == s.movieId) = true) =
        (m.id == s.movieId) := by
    intro m
    by_cases hm : m.id = s.movieId
    · simp [hm, hs.2]
    · simp [hm]
  simp only [hp]
  exact h

theorem durationMatch_deleteMovie {db : Store} (hinv : DurationMatch db) (now : Int)
    (movieTitle : String) : DurationMatch (deleteMovie now db movieTitle).2 := by
  rw [deleteMovie_eq]
  split
  · exact hinv
  · next movie _ =>
    simp only
    split
    · exact hinv
    · have hf := deleteLoop_frame now
        ((findShowtimesByMovieId db movie.id).filter (fun st => decide (st.endTime ≥ now))) db
      split
      · next e db1 hloop =>
        rw [hloop] at hf
        exact durationMatch_of_subset hinv hf.1 hf.2
      · next db1 hloop =>
        rw [hloop] at hf
        exact durationMatch_movieDestroy (durationMatch_of_subset hinv hf.1 hf.2) movie

theorem durationMatch_createShowtime {db : Store} (hinv : DurationMatch db)
    (data : ShowtimeData) : DurationMatch (createShowtime db data).2 := by
  rcases hres : createShowtime db data with ⟨r, db1⟩
  cases r with
  | error e => rw [createShowtime_error hres]; exact hinv
  | ok created =>
    obtain ⟨⟨movie, hm, hd⟩, -, hc, hdb⟩ := createShowtime_ok hres
    subst hdb
    intro s hs
    simp only [List.mem_append, List.mem_singleton] at hs
    rcases hs with hs | rfl
    · rw [ownerDurationMatches_congr rfl]
      exact hinv s hs
    · subst hc
      unfold ownerDurationMatches
      simp only
      rw [show findMovieById { db with showtimes := db.showtimes ++ _ } (some data.movieId) =
        findMovieById db (some data.movieId) from rfl, hm]
      exact hd

theorem durationMatch_deleteShowtime {db : Store} (hinv : DurationMatch db) (now : Int)
    (id : Nat) : DurationMatch (deleteShowtime now db id).2 :=
  durationMatch_of_subset hinv (deleteShowtime_frame now db id).1
    (deleteShowtime_frame now db id).2

theorem durationMatch_bookTicket {db : Store} (hinv : DurationMatch db) (env : Env)
    (req : BookingRequest) : DurationMatch (bookTicket env db req).store := by
  rcases bookTicket_store env db req with h | ⟨-, h⟩
  · rw [h]; exact hinv
  · rw [h]
    exact durationMatch_of_subset hinv rfl (fun _ hs => hs)

theorem matchesExactDurationOf_true {startTime endTime : Option Int} {d : Int}
    (h : matchesExactDurationOf startTime endTime d = true) :
    ∃ st en, startTime = some st ∧ endTime = some en ∧ matchesExactDuration st en d = true := by
  unfold matchesExactDurationOf at h
  split at h
  · next st en => exact ⟨st, en, rfl, rfl, h⟩
  · cases h

theorem findMovieById_some {db : Store} {movieId : Option Nat} {movie : Movie}
    (h : findMovieById db movieId = some movie) : movieId = some movie.id := by
  unfold findMovieById at h
  split at h
  · cases h
  · next k =>
    have := List.find?_some h
    simp only [beq_iff_eq] at this
    rw [this]

theorem durationMatch_updateShowtime {db : Store} (hinv : DurationMatch db) (now : Int)
    (id : Nat) (nd : ShowtimeUpdate) (skip : Bool) (hnd : nd.duration = none) :
    DurationMatch (updateShowtime now db id nd skip).2 := by
  rcases hres : updateShowtime now db id nd skip with ⟨r, db1⟩
  cases r with
  | error e => rw [updateShowtime_error hres]; exact hinv
  | ok updated =>
    obtain ⟨showtime, movie, -, -, -, hm, hd, -, -, hdb⟩ := updateShowtime_ok hres
    subst hdb
    rw [hnd] at hd
    obtain ⟨st, en, hst, hen, hmatch⟩ := matchesExactDurationOf_true hd
    have hmid := findMovieById_some hm
    have key : ∀ (l : List Showtime) (x : Showtime),
        ownerDurationMatches { db with showtimes := l } x = ownerDurationMatches db x :=
      fun _ x => ownerDurationMatches_congr rfl x
    intro s hs
    obtain ⟨s0, hs0, rfl⟩ := List.mem_map.mp hs
    rw [key]
    by_cases hi : s0.id = showtime.id
    · simp only [hi, beq_self_eq_true, if_true]
      unfold ownerDurationMatches
      have h1 : (s0.applyUpdate nd).movieId = movie.id := by
        simp [Showtime.applyUpdate, hmid]
      have h2 : (s0.applyUpdate nd).startTime = st := by simp [Showtime.applyUpdate, hst]
      have h3 : (s0.applyUpdate nd).endTime = en := by simp [Showtime.applyUpdate, hen]
      rw [h1, h2, h3, ← hmid, hm]
      exact hmatch
    · simp only [beq_iff_eq, hi, if_false]
      exact hinv s0 hs0

theorem findMovieByTitle_mem {db : Store} {title : String} {movie : Movie}
    (h : findMovieByTitle db title = some movie) : movie ∈ db.movies :=
  List.mem_of_find?_eq_some h

theorem movie_eq_of_id_eq {db : Store} (hkeys : MovieKeys db) {a b : Movie}
    (ha : a ∈ db.movies) (hb : b ∈ db.movies) (h : a.id = b.id) : a = b :=
  List.inj_on_of_nodup_map hkeys ha hb h

theorem raisedDuration_none_of_same {data : MovieUpdate} {movie : Movie}
    (h : data.duration = none ∨ data.duration = some movie.duration) :
    raisedDuration data movie = none := by
  unfold raisedDuration
  rcases h with h | h <;> rw [h]
  simp

theorem durationMatch_movieUpdateRow_same {db : Store} (hmk : MovieKeys db)
    (hinv : DurationMatch db) {movie : Movie} (hmem : movie ∈ db.movies) {data : MovieUpdate}
    (hsame : data.duration = none ∨ data.duration = some movie.duration) :
    DurationMatch (movieUpdateRow db movie data).2 := by
  apply durationMatch_of_movies_map hinv
    (fun m => if m.id == movie.id then m.applyUpdate data else m)
  · intro m
    by_cases h : m.id = movie.id <;> simp [h, Movie.applyUpdate]
  · intro m hm
    by_cases h : m.id = movie.id
    · have := movie_eq_of_id_eq hmk hm hmem h
      subst this
      rcases hsame with hd | hd <;> simp [Movie.applyUpdate, hd]
    · simp [h]
  · rfl
  · rfl

theorem durationMatch_updateMovie_same {db : Store} (hmk : MovieKeys db)
    (hinv : DurationMatch db) (now : Int) (movieTitle : String) (data : MovieUpdate)
    (hsame : ∀ movie, findMovieByTitle db movieTitle = some movie →
      data.duration = none ∨ data.duration = some movie.duration) :
    DurationMatch (updateMovie now db movieTitle data).2 := by
  unfold updateMovie
  split
  · exact hinv
  · next movie hm =>
    have hrow := durationMatch_movieUpdateRow_same hmk hinv (findMovieByTitle_mem hm)
      (hsame movie hm)
    split
    · exact hinv
    · rw [raisedDuration_none_of_same (hsame movie hm)]
      exact hrow

theorem owner_after_movieUpdateRow (db : Store) (movie : Movie) (data : MovieUpdate)
    (s : Showtime) :
    ownerDurationMatches (movieUpdateRow db movie data).2 s =
      match findMovieById db (some s.movieId) with
      | some m => matchesExactDuration s.startTime s.endTime
          (if m.id == movie.id then (m.applyUpdate data).duration else m.duration)
      | none => false := by
  unfold ownerDurationMatches findMovieById movieUpdateRow
  simp only
  rw [findMovieById_map db (fun m => if m.id == movie.id then m.applyUpdate data else m)
    (by intro m; by_cases h : m.id = movie.id <;> simp [h, Movie.applyUpdate])]
  cases db.movies.find? (fun m => m.id == s.movieId) with
  | none => rfl
  | some m =>
    simp only [Option.map_some']
    by_cases h : m.id = movie.id <;> simp [h]

/-- In a zone whose offset is the same at all times, setting the minutes to the local
minutes plus `d` moves the instant by `d` minutes. -/
theorem setMinutes_getMinutes_add (tz : TimeZone) (c : Int)
    (hutc : ∀ u, tz.offsetAtUTC u = c) (hlocal : ∀ u, tz.offsetAtLocal u = c) (t d : Int) :
    setMinutes tz t (getMinutes tz t + d) = t + d * 60000 := by
  unfold setMinutes getMinutes UTC LocalTime MakeDate MakeTime Day HourFromTime MinFromTime
    SecFromTime msFromTime
  rw [hutc, hlocal]
  omega

theorem calculateEndTime_eq (startTime d : Int) :
    calculateEndTime startTime d = startTime + d * 60000 :=
  setMinutes_getMinutes_add utcZone 0 (fun _ => rfl) (fun _ => rfl) startTime d

theorem matchesExactDuration_calculateEndTime (startTime d : Int) :
    matchesExactDuration startTime (calculateEndTime startTime d) d = true := by
  rw [matchesExactDuration_iff_ms, calculateEndTime_eq]
  ring

/-- After a mutation pass that ran without an error over all showtimes of the movie, and
the update of the movie row, every showtime lasts its movie's duration again. -/
theorem durationMatch_after_cascade {db db1 : Store} (hsk : ShowtimeKeys db)
    (hinv : DurationMatch db) (now : Int) {movie : Movie} {data : MovieUpdate} {d : Int}
    (hd : data.duration = some d)
    (hloop : cascadeLoop now movie d (findShowtimesByMovieId db movie.id) db = (none, db1)) :
    DurationMatch (movieUpdateRow db1 movie data).2 := by
  have hframe := cascadeLoop_frame now movie d (findShowtimesByMovieId db movie.id) db
  rw [hloop] at hframe
  obtain ⟨f1, hf1, h1⟩ := cascadeLoop_ok_extends now movie d hsk
    (findShowtimesByMovieId db movie.id) db id db1 (fun _ h => h) (by simp)
    (fun _ _ => Or.inl rfl) hloop
  intro s hs
  have hs1 : s ∈ db1.showtimes := hs
  rw [hf1] at hs1
  obtain ⟨s0, hs0, rfl⟩ := List.mem_map.mp hs1
  rw [owner_after_movieUpdateRow]
  have hfind : findMovieById db1 = findMovieById db := by
    funext k
    unfold findMovieById
    rw [hframe.1]
  rw [hfind]
  have h0 := hinv s0 hs0
  unfold ownerDurationMatches at h0
  by_cases hmov : s0.movieId = movie.id
  · have hmem : s0 ∈ findShowtimesByMovieId db movie.id :=
      mem_findShowtimesByMovieId.mpr ⟨hs0, hmov⟩
    rw [(h1 s0 hs0).1 hmem]
    simp only [Showtime.extended]
    cases hf : findMovieById db (some s0.movieId) with
    | none => rw [hf] at h0; simp at h0
    | some m =>
      have hmid : m.id = movie.id := by
        have := findMovieById_some hf
        simp only [Option.some.injEq] at this
        rw [← this, hmov]
      simp only [hmid, beq_self_eq_true, if_true, Movie.applyUpdate, hd, Option.getD_some]
      exact matchesExactDuration_calculateEndTime _ _
  · have hnot : s0 ∉ findShowtimesByMovieId db movie.id :=
      fun h => hmov (mem_findShowtimesByMovieId.mp h).2
    rw [(h1 s0 hs0).2 hnot]
    simp only [id_eq]
    cases hf : findMovieById db (some s0.movieId) with
    | none => rw [hf] at h0; simp at h0
    | some m =>
      rw [hf] at h0
      have hmid : m.id ≠ movie.id := by
        have := findMovieById_some hf
        simp only [Option.some.injEq] at this
        rw [← this]
        exact hmov
      simp only [beq_iff_eq, hmid, if_false]
      exact h0

theorem durationMatch_updateMovie_raise {db : Store} (hsk : ShowtimeKeys db)
    (hinv : DurationMatch db) (now : Int) (movieTitle : String) (data : MovieUpdate)
    (movie : Movie) (d : Int) (updated : Movie)
    (hm : findMovieByTitle db movieTitle = some movie)
    (hd : raisedDuration data movie = some d)
    (hall : ∀ s ∈ findShowtimesByMovieId db movie.id, s.endTime ≥ now)
    (hok : (updateMovie now db movieTitle data).1 = .ok updated) :
    DurationMatch (updateMovie now db movieTitle data).2 := by
  have hdd := (raisedDuration_some hd).1
  unfold updateMovie at hok ⊢
  simp only [hm, hd] at hok ⊢
  split at hok
  · cases hok
  · next hr =>
    simp only [hr, Bool.false_eq_true, if_false]
    have hfilter : (findShowtimesByMovieId db movie.id).filter
        (fun st => decide (st.endTime ≥ now)) = findShowtimesByMovieId db movie.id := by
      rw [List.filter_eq_self]
      intro s hs
      simpa using hall s hs
    rw [hfilter] at hok ⊢
    split at hok
    · next hlen =>
      simp only [hlen, if_true]
      split at hok
      · cases hok
      · split at hok
        · cases hok
        · next db1 hloop =>
          exact durationMatch_after_cascade hsk hinv now hdd hloop
    · next hlen =>
      simp only [hlen, if_false]
      have hnil : findShowtimesByMovieId db movie.id = [] := by
        cases hl : findShowtimesByMovieId db movie.id with
        | nil => rfl
        | cons a l => rw [hl] at hlen; simp at hlen
      intro s hs
      rw [owner_after_movieUpdateRow]
      have h0 := hinv s hs
      unfold ownerDurationMatches at h0
      have hmov : s.movieId ≠ movie.id := by
        intro h
        have : s ∈ findShowtimesByMovieId db movie.id := mem_findShowtimesByMovieId.mpr ⟨hs, h⟩
        rw [hnil] at this
        cases this
      cases hf : findMovieById db (some s.movieId) with
      | none => rw [hf] at h0; simp at h0
      | some m =>
        rw [hf] at h0
        have hmid : m.id ≠ movie.id := by
          have := findMovieById_some hf
          simp only [Option.some.injEq] at this
          rw [← this]
          exact hmov
        simp only [beq_iff_eq, hmid, if_false]
        exact h0

/-- Counterexample to C20: a movie of 120 minutes with one showtime of 120 minutes is
updated to 90 minutes.  The new duration is not greater, so no showtime is read or
changed; the call succeeds, and the showtime still lasts 120 minutes while its movie now
lasts 90. -/
theorem lowering_duration_breaks_duration_match :
    DurationMatch ⟨[⟨1, "Inception", "SciFi", 120, 8, 2010⟩],
      [⟨1, 1, "A", 7000000, 14200000, 10⟩], []⟩ ∧
    updateMovie 100
      ⟨[⟨1, "Inception", "SciFi", 120, 8, 2010⟩], [⟨1, 1, "A", 7000000, 14200000, 10⟩], []⟩
      "Inception" ⟨none, none, some 90, none, none⟩ =
    (.ok ⟨1, "Inception", "SciFi", 90, 8, 2010⟩,
      ⟨[⟨1, "Inception", "SciFi", 90, 8, 2010⟩], [⟨1, 1, "A", 7000000, 14200000, 10⟩], []⟩) ∧
    ¬ DurationMatch (updateMovie 100
      ⟨[⟨1, "Inception", "SciFi", 120, 8, 2010⟩], [⟨1, 1, "A", 7000000, 14200000, 10⟩], []⟩
      "Inception" ⟨none, none, some 90, none, none⟩).2 := by
  refine ⟨by decide, by rfl, by decide⟩

/-- C20, amended. In a store with unique movie ids and unique showtime ids in which every
showtime lasts exactly the duration of its owning movie, that stays so after every
`createMovie`, `deleteMovie`, `createShowtime`, `deleteShowtime` and `bookTicket`,
succeeding or failing; after every `updateShowtime` whose `newData` gives no `duration`;
after every `updateMovie` whose data gives no duration or the movie's current one; and
after every successful `updateMovie` that raises the duration of a movie all of whose
showtimes have still to end. -/
theorem duration_match_preserved (now : Int) (db : Store) (hmk : MovieKeys db)
    (hsk : ShowtimeKeys db) (hinv : DurationMatch db) :
    (∀ data, DurationMatch (createMovie db data).2) ∧
    (∀ movieTitle, DurationMatch (deleteMovie now db movieTitle).2) ∧
    (∀ data, DurationMatch (createShowtime db data).2) ∧
    (∀ id, DurationMatch (deleteShowtime now db id).2) ∧
    (∀ env req, DurationMatch (bookTicket env db req).store) ∧
    (∀ id newData skipOverlapCheck, newData.duration = none →
      DurationMatch (updateShowtime now db id newData skipOverlapCheck).2) ∧
    (∀ movieTitle data,
      (∀ movie, findMovieByTitle db movieTitle = some movie →
        data.duration = none ∨ data.duration = some movie.duration) →
      DurationMatch (updateMovie now db movieTitle data).2) ∧
    (∀ movieTitle data movie newDuration updated,
      findMovieByTitle db movieTitle = some movie →
      raisedDuration data movie = some newDuration →
      (∀ s ∈ findShowtimesByMovieId db movie.id, s.endTime ≥ now) →
      (updateMovie now db movieTitle data).1 = .ok updated →
      DurationMatch (updateMovie now db movieTitle data).2) :=
  ⟨fun data => durationMatch_createMovie hinv data,
    fun movieTitle => durationMatch_deleteMovie hinv now movieTitle,
    fun data => durationMatch_createShowtime hinv data,
    fun id => durationMatch_deleteShowtime hinv now id,
    fun env req => durationMatch_bookTicket hinv env req,
    fun id nd skip hnd => durationMatch_updateShowtime hinv now id nd skip hnd,
    fun movieTitle data hsame => durationMatch_updateMovie_same hmk hinv now movieTitle data hsame,
    fun movieTitle data movie d updated hm hd hall hok =>
      durationMatch_updateMovie_raise hsk hinv now movieTitle data movie d updated hm hd hall hok⟩

/-- Witness for C20, amended: a movie of 100 minutes with two showtimes still to end is
raised to 110 minutes; both showtimes and the movie then last 110 minutes. -/
theorem duration_match_preserved_witness :
    DurationMatch (updateMovie 100
      ⟨[⟨1, "Inception", "SciFi", 100, 8, 2010⟩],
        [⟨1, 1, "A", 0, 6000000, 10⟩, ⟨2, 1, "A", 7000000, 13000000, 10⟩], []⟩
      "Inception" ⟨none, none, some 110, none, none⟩).2 ∧
    (updateMovie 100
      ⟨[⟨1, "Inception", "SciFi", 100, 8, 2010⟩],
        [⟨1, 1, "A", 0, 6000000, 10⟩, ⟨2, 1, "A", 7000000, 13000000, 10⟩], []⟩
      "Inception" ⟨none, none, some 110, none, none⟩).2.showtimes =
      [⟨1, 1, "A", 0, 6600000, 10⟩, ⟨2, 1, "A", 7000000, 13600000, 10⟩] :=
  ⟨(duration_match_preserved 100
    ⟨[⟨1, "Inception", "SciFi", 100, 8, 2010⟩],
      [⟨1, 1, "A", 0, 6000000, 10⟩, ⟨2, 1, "A", 7000000, 13000000, 10⟩], []⟩
    (by decide) (by decide) (by decide)).2.2.2.2.2.2.2
    "Inception" ⟨none, none, some 110, none, none⟩ ⟨1, "Inception", "SciFi", 100, 8, 2010⟩ 110
    ⟨1, "Inception", "SciFi", 110, 8, 2010⟩ rfl rfl (by decide) rfl, rfl⟩

/-! ## Movie updates: rename and the trigger of the cascade -/

theorem findMovieByTitle_title {db : Store} {title : String} {movie : Movie}
    (h : findMovieByTitle db title = some movie) : movie.title = title := by
  have := List.find?_some h
  simpa using this

/-- C21, failing input. The update data carries the empty title, which differs from
`Inception`; the guard `data.title && ...` takes the empty string for no title, the call
succeeds instead of failing with `Renaming the movie is not allowed.`, and the movie is
now titled with the empty string.  The title `Origin` in its place is rejected. -/
theorem empty_title_renames_the_movie :
    updateMovie 100 ⟨[⟨1, "Inception", "SciFi", 100, 8, 2010⟩], [], []⟩ "Inception"
      ⟨some "", none, none, none, none⟩ =
    (.ok ⟨1, "", "SciFi", 100, 8, 2010⟩, ⟨[⟨1, "", "SciFi", 100, 8, 2010⟩], [], []⟩) ∧
    updateMovie 100 ⟨[⟨1, "Inception", "SciFi", 100, 8, 2010⟩], [], []⟩ "Inception"
      ⟨some "Origin", none, none, none, none⟩ =
    (.error (mkError "Renaming the movie is not allowed."),
      ⟨[⟨1, "Inception", "SciFi", 100, 8, 2010⟩], [], []⟩) := by
  constructor <;> rfl

/-- Where the rename guard works: for every stored movie titled `X` and every update
data whose title `Y` is not empty and differs from `X`, `updateMovie(X, data)` fails with
`Renaming the movie is not allowed.`, whatever showtimes the movie has and whatever else
the data holds, and the store is unchanged: neither the movie nor any showtime. -/
theorem rename_is_rejected (now : Int) (db : Store) (movieTitle : String) (data : MovieUpdate)
    (movie : Movie) (newTitle : String)
    (hm : findMovieByTitle db movieTitle = some movie)
    (ht : data.title = some newTitle) (hne : newTitle ≠ "") (hdiff : newTitle ≠ movieTitle) :
    updateMovie now db movieTitle data =
      (.error (mkError "Renaming the movie is not allowed."), db) := by
  have hr : isRename data movie = true := by
    unfold isRename
    rw [ht, findMovieByTitle_title hm]
    simp [hne, hdiff]
  unfold updateMovie
  simp [hm, hr]

/-- An instance of the rename guard at work: a rename of a movie that has no showtime,
with a raised duration in the same data, is rejected and nothing changes. -/
theorem rename_is_rejected_witness :
    updateMovie 100 ⟨[⟨1, "Inception", "SciFi", 100, 8, 2010⟩], [], []⟩ "Inception"
      ⟨some "Origin", none, some 120, none, none⟩ =
    (.error (mkError "Renaming the movie is not allowed."),
      ⟨[⟨1, "Inception", "SciFi", 100, 8, 2010⟩], [], []⟩) :=
  rename_is_rejected 100 ⟨[⟨1, "Inception", "SciFi", 100, 8, 2010⟩], [], []⟩ "Inception"
    ⟨some "Origin", none, some 120, none, none⟩ ⟨1, "Inception", "SciFi", 100, 8, 2010⟩
    "Origin" rfl rfl (by decide) (by decide)

theorem raisedDuration_none_of_le {data : MovieUpdate} {movie : Movie}
    (h : data.duration = none ∨ ∃ d, data.duration = some d ∧ d ≤ movie.duration) :
    raisedDuration data movie = none := by
  unfold raisedDuration
  rcases h with h | ⟨d, h, hle⟩ <;> rw [h]
  simp only
  rw [if_neg]
  simp only [Bool.and_eq_true, decide_eq_true_eq, not_and, not_lt]
  intro _
  exact hle

/-- C22. The cascade is triggered only by a duration increase.  When the data has no
duration, or one that is not greater than the movie's current duration, `updateMovie`
leaves every showtime and every ticket as it was and its outcome does not depend on the
showtimes table at all (no showtime is read); and when the movie exists and the data does
not rename it, the call succeeds and the movie row is updated with exactly the given
data, every other movie row staying as it was. -/
theorem cascade_only_on_increase (now : Int) (db : Store) (movieTitle : String)
    (data : MovieUpdate)
    (hnot : ∀ movie, findMovieByTitle db movieTitle = some movie →
      data.duration = none ∨ ∃ d, data.duration = some d ∧ d ≤ movie.duration) :
    (updateMovie now db movieTitle data).2.showtimes = db.showtimes ∧
    (updateMovie now db movieTitle data).2.tickets = db.tickets ∧
    (∀ showtimes : List Showtime,
      (updateMovie now { db with showtimes := showtimes } movieTitle data).1 =
        (updateMovie now db movieTitle data).1 ∧
      (updateMovie now { db with showtimes := showtimes } movieTitle data).2.movies =
        (updateMovie now db movieTitle data).2.movies) ∧
    (∀ movie, findMovieByTitle db movieTitle = some movie → isRename data movie = false →
      updateMovie now db movieTitle data =
        (.ok (movie.applyUpdate data),
          { db with
            movies := db.movies.map
              (fun m => if m.id == movie.id then m.applyUpdate data else m) })) := by
  have key : ∀ showtimes : List Showtime,
      updateMovie now { db with showtimes := showtimes } movieTitle data =
        match findMovieByTitle db movieTitle with
        | none => (.error (mkError "Movie not found"), { db with showtimes := showtimes })
        | some movie =>
          if isRename data movie then
            (.error (mkError "Renaming the movie is not allowed."),
              { db with showtimes := showtimes })
          else movieUpdateRow { db with showtimes := showtimes } movie data := by
    intro showtimes
    unfold updateMovie
    have hf : findMovieByTitle { db with showtimes := showtimes } movieTitle =
        findMovieByTitle db movieTitle := rfl
    rw [hf]
    cases hm : findMovieByTitle db movieTitle with
    | none => rfl
    | some movie =>
      simp only [raisedDuration_none_of_le (hnot movie hm)]
  have key0 := key db.showtimes
  simp only at key0
  refine ⟨?_, ?_, ?_, ?_⟩
  · rw [key0]
    cases findMovieByTitle db movieTitle with
    | none => rfl
    | some movie => simp only; split <;> rfl
  · rw [key0]
    cases findMovieByTitle db movieTitle with
    | none => rfl
    | some movie => simp only; split <;> rfl
  · intro showtimes
    rw [key showtimes, key0]
    cases findMovieByTitle db movieTitle with
    | none => exact ⟨rfl, rfl⟩
    | some movie => simp only; split <;> exact ⟨rfl, rfl⟩
  · intro movie hm hr
    rw [key0, hm]
    simp only [hr, Bool.false_eq_true, if_false]
    rfl

/-- Witness for C22: a movie with a showtime is updated with a new genre and a lower
duration; the showtime stays as it was and the movie row holds the given data. -/
theorem cascade_only_on_increase_witness :
    updateMovie 100
      ⟨[⟨1, "Inception", "SciFi", 100, 8, 2010⟩], [⟨1, 1, "A", 7000000, 13000000, 10⟩], []⟩
      "Inception" ⟨none, some "Action", some 90, none, none⟩ =
    (.ok ⟨1, "Inception", "Action", 90, 8, 2010⟩,
      ⟨[⟨1, "Inception", "Action", 90, 8, 2010⟩], [⟨1, 1, "A", 7000000, 13000000, 10⟩], []⟩) :=
  (cascade_only_on_increase 100
    ⟨[⟨1, "Inception", "SciFi", 100, 8, 2010⟩], [⟨1, 1, "A", 7000000, 13000000, 10⟩], []⟩
    "Inception" ⟨none, some "Action", some 90, none, none⟩
    (fun movie hm => Or.inr ⟨90, rfl, by
      have : movie = ⟨1, "Inception", "SciFi", 100, 8, 2010⟩ := by
        have h1 : findMovieByTitle
            ⟨[⟨1, "Inception", "SciFi", 100, 8, 2010⟩],
              [⟨1, 1, "A", 7000000, 13000000, 10⟩], []⟩ "Inception" =
            some ⟨1, "Inception", "SciFi", 100, 8, 2010⟩ := rfl
        rw [h1] at hm
        exact (Option.some.inj hm).symm
      rw [this]
      decide⟩)).2.2.2 ⟨1, "Inception", "SciFi", 100, 8, 2010⟩ rfl rfl

/-! ## Deleting a movie -/

theorem findMovieByTitle_none_of_forall {db : Store} {title : String}
    (h : ∀ m ∈ db.movies, m.title ≠ title) : findMovieByTitle db title = none := by
  unfold findMovieByTitle
  rw [List.find?_eq_none]
  intro m hm
  simpa using h m hm

theorem anyTicketsSold_iff (db : Store) (showtimes : List Showtime) :
    anyTicketsSold db showtimes = true ↔
      ∃ st ∈ showtimes, ∃ t ∈ db.tickets, t.showtimeId = st.id := by
  unfold anyTicketsSold
  rw [List.any_eq_true]
  constructor
  · rintro ⟨st, hst, h⟩
    exact ⟨st, hst, (findTickets_length_pos_iff db st.id).mp (by simpa using h)⟩
  · rintro ⟨st, hst, h⟩
    exact ⟨st, hst, by simpa using (findTickets_length_pos_iff db st.id).mpr h⟩

theorem mem_futureShowtimes {db : Store} {movieId : Nat} {now : Int} {st : Showtime} :
    st ∈ (findShowtimesByMovieId db movieId).filter (fun st => decide (st.endTime ≥ now)) ↔
      st ∈ db.showtimes ∧ st.movieId = movieId ∧ st.endTime ≥ now := by
  simp [List.mem_filter, mem_findShowtimesByMovieId, and_assoc]

theorem deleteShowtime_error_message {now : Int} {db : Store} {id : Nat} {e : JsError}
    {db1 : Store} (h : deleteShowtime now db id = (.error e, db1)) :
    e.message = "Showtime not found" ∨
    e.message = "Cannot delete a showtime that has already ended." ∨
    e.message = "Cannot delete showtime that has existing ticket bookings." := by
  unfold deleteShowtime deleteShowtimeAmid at h
  split at h
  · next e1 he =>
    simp only [Prod.mk.injEq, Except.error.injEq] at h
    rw [← h.1, (getShowtimeById_error he).1]
    exact Or.inl rfl
  · split at h
    · simp only [Prod.mk.injEq, Except.error.injEq] at h
      rw [← h.1]; exact Or.inr (Or.inl rfl)
    · split at h
      · simp only [Prod.mk.injEq, Except.error.injEq] at h
        rw [← h.1]; exact Or.inr (Or.inr rfl)
      · unfold destroyShowtimeRow at h
        simp only at h
        split at h
        · simp only [Prod.mk.injEq, Except.error.injEq] at h
          rw [← h.1]; exact Or.inl rfl
        · simp at h

theorem deleteLoop_error_message {now : Int} {e : JsError} :
    ∀ {todo : List Showtime} {db db1 : Store}, deleteLoop now todo db = (some e, db1) →
      e.message = "Showtime not found" ∨
      e.message = "Cannot delete a showtime that has already ended." ∨
      e.message = "Cannot delete showtime that has existing ticket bookings."
  | [], _, _, h => by simp [deleteLoop_nil] at h
  | st :: rest, db, db1, h => by
    rw [deleteLoop_cons] at h
    rcases hres : deleteShowtime now db st.id with ⟨r, db2⟩
    rw [hres] at h
    cases r with
    | error e1 =>
      simp only [Prod.mk.injEq, Option.some.injEq] at h
      obtain ⟨rfl, rfl⟩ := h
      exact deleteShowtime_error_message hres
    | ok u => exact deleteLoop_error_message h

/-- C23. `deleteMovie` fails with `Movie not found` when no movie has the title.  When a
future showtime of the movie (end not before now) has a ticket it fails with the
pending-sales error and the store is unchanged: no showtime, no ticket and not the movie is
deleted.  When no future showtime of the movie has a ticket the pending-sales error is not
raised, whatever tickets the past showtimes of the movie hold. -/
theorem deleteMovie_guards (now : Int) (db : Store) (movieTitle : String) :
    ((∀ m ∈ db.movies, m.title ≠ movieTitle) →
      deleteMovie now db movieTitle = (.error (mkError "Movie not found"), db)) ∧
    (∀ movie, findMovieByTitle db movieTitle = some movie →
      ((∃ st ∈ db.showtimes, st.movieId = movie.id ∧ st.endTime ≥ now ∧
          ∃ t ∈ db.tickets, t.showtimeId = st.id) →
        deleteMovie now db movieTitle = (.error (mkError pendingSalesMessage), db)) ∧
      ((∀ st ∈ db.showtimes, st.movieId = movie.id → st.endTime ≥ now →
          ¬ ∃ t ∈ db.tickets, t.showtimeId = st.id) →
        ∀ e, (deleteMovie now db movieTitle).1 = .error e →
          e.message ≠ pendingSalesMessage)) := by
  refine ⟨?_, ?_⟩
  · intro h
    rw [deleteMovie_eq]
    rw [findMovieByTitle_none_of_forall h]
  · intro movie hm
    refine ⟨?_, ?_⟩
    · rintro ⟨st, hst, hmov, hfut, ht⟩
      have hany : anyTicketsSold db ((findShowtimesByMovieId db movie.id).filter
          (fun st => decide (st.endTime ≥ now))) = true :=
        (anyTicketsSold_iff _ _).mpr ⟨st, mem_futureShowtimes.mpr ⟨hst, hmov, hfut⟩, ht⟩
      rw [deleteMovie_eq]
      simp only [hm, hany, if_true]
      rfl
    · intro hfree e he
      have hany : anyTicketsSold db ((findShowtimesByMovieId db movie.id).filter
          (fun st => decide (st.endTime ≥ now))) = false := by
        rw [← Bool.not_eq_true, anyTicketsSold_iff]
        rintro ⟨st, hst, ht⟩
        obtain ⟨h1, h2, h3⟩ := mem_futureShowtimes.mp hst
        exact hfree st h1 h2 h3 ht
      rw [deleteMovie_eq] at he
      simp only [hm, hany, Bool.false_eq_true, if_false] at he
      split at he
      · next e1 db1 hloop =>
        simp only [Except.error.injEq] at he
        subst he
        rcases deleteLoop_error_message hloop with h | h | h <;> rw [h] <;> decide
      · cases he

/-- Witness for C23: the movie has a past showtime with a ticket and a future showtime
with a ticket; the deletion is refused and the store stays as it was. -/
theorem deleteMovie_guards_witness :
    deleteMovie 6500000
      ⟨[⟨1, "Inception", "SciFi", 100, 8, 2010⟩],
        [⟨1, 1, "A", 0, 6000000, 10⟩, ⟨2, 1, "A", 7000000, 13000000, 10⟩],
        [⟨1, 1, 5, "u0", "b0"⟩, ⟨2, 2, 7, "u1", "b1"⟩]⟩ "Inception" =
    (.error (mkError pendingSalesMessage),
      ⟨[⟨1, "Inception", "SciFi", 100, 8, 2010⟩],
        [⟨1, 1, "A", 0, 6000000, 10⟩, ⟨2, 1, "A", 7000000, 13000000, 10⟩],
        [⟨1, 1, 5, "u0", "b0"⟩, ⟨2, 2, 7, "u1", "b1"⟩]⟩) :=
  ((deleteMovie_guards 6500000
    ⟨[⟨1, "Inception", "SciFi", 100, 8, 2010⟩],
      [⟨1, 1, "A", 0, 6000000, 10⟩, ⟨2, 1, "A", 7000000, 13000000, 10⟩],
      [⟨1, 1, 5, "u0", "b0"⟩, ⟨2, 2, 7, "u1", "b1"⟩]⟩ "Inception").2
    ⟨1, "Inception", "SciFi", 100, 8, 2010⟩ rfl).1
    ⟨⟨2, 1, "A", 7000000, 13000000, 10⟩, by decide, rfl, by decide,
      ⟨2, 2, 7, "u1", "b1"⟩, by decide, rfl⟩

theorem deleteShowtime_ok_of_keys {now : Int} {db : Store} {st : Showtime}
    (hkeys : ShowtimeKeys db) (hst : st ∈ db.showtimes) (hfut : st.endTime ≥ now)
    (hno : ¬ ∃ t ∈ db.tickets, t.showtimeId = st.id) :
    deleteShowtime now db st.id =
      (.ok (), { db with showtimes := db.showtimes.filter (fun s => !(s.id == st.id)) }) := by
  have hs : getShowtimeById db st.id = .ok st := by
    cases hg : getShowtimeById db st.id with
    | error e => exact absurd rfl ((getShowtimeById_error hg).2 st hst)
    | ok found =>
      obtain ⟨hmem, hid⟩ := getShowtimeById_ok_mem hg
      rw [showtime_eq_of_id_eq hkeys hmem hst hid]
  have hp1 := (isDateInThePast_eq_false_iff now st.endTime).mpr (not_lt.mpr hfut)
  have ht1 : ¬ (findTicketsByShowtimeId db st.id).length > 0 := by
    rw [findTickets_length_pos_iff]; exact hno
  have hcount : (db.showtimes.filter (fun s => s.id == st.id)).length ≠ 0 := by
    apply Nat.ne_of_gt
    apply List.length_pos_of_mem (a := st)
    simp [List.mem_filter, hst]
  have htk : db.tickets.filter (fun t => !(t.showtimeId == st.id)) = db.tickets := by
    rw [List.filter_eq_self]
    intro t htm
    have : t.showtimeId ≠ st.id := fun h => hno ⟨t, htm, h⟩
    simpa using this
  unfold deleteShowtime deleteShowtimeAmid destroyShowtimeRow showtimeDestroy
  simp only [hs, hp1, Bool.false_eq_true, if_false, ht1, hcount, htk]

theorem showtimeKeys_filter {db : Store} (hkeys : ShowtimeKeys db) (p : Showtime → Bool) :
    ShowtimeKeys { db with showtimes := db.showtimes.filter p } :=
  List.Nodup.sublist (List.Sublist.map _ (List.filter_sublist _)) hkeys

/-- A delete loop over showtimes that are stored, have not ended and have no ticket
deletes exactly them, calling `deleteShowtime` once for each, and no call throws. -/
theorem deleteLoopRun_ok (now : Int) :
    ∀ (todo : List Showtime) (db : Store), ShowtimeKeys db →
      (todo.map (fun s => s.id)).Nodup →
      (∀ st ∈ todo, st ∈ db.showtimes ∧ st.endTime ≥ now ∧
        ¬ ∃ t ∈ db.tickets, t.showtimeId = st.id) →
      deleteLoopRun now todo db =
        ((none, { db with showtimes :=
          db.showtimes.filter (fun s => !(todo.any (fun st => st.id == s.id))) }),
          todo.map (fun s => s.id))
  | [], db, _, _, _ => by
    simp [deleteLoopRun]
  | st :: rest, db, hkeys, hnodup, hall => by
    obtain ⟨hst, hfut, hno⟩ := hall st (List.mem_cons_self _ _)
    have hdel := deleteShowtime_ok_of_keys hkeys hst hfut hno
    simp only [List.map_cons, List.nodup_cons, List.mem_map, not_exists, not_and] at hnodup
    have hrest : ∀ s ∈ rest,
        s ∈ ({ db with showtimes := db.showtimes.filter (fun s => !(s.id == st.id)) } :
          Store).showtimes ∧ s.endTime ≥ now ∧
        ¬ ∃ t ∈ ({ db with showtimes := db.showtimes.filter (fun s => !(s.id == st.id)) } :
          Store).tickets, t.showtimeId = s.id := by
      intro s hs
      obtain ⟨h1, h2, h3⟩ := hall s (List.mem_cons_of_mem _ hs)
      refine ⟨?_, h2, h3⟩
      simp only [List.mem_filter, Bool.not_eq_true', beq_eq_false_iff_ne, ne_eq]
      exact ⟨h1, hnodup.1 s hs⟩
    have ih := deleteLoopRun_ok now rest _ (showtimeKeys_filter hkeys _) hnodup.2 hrest
    rw [deleteLoopRun, hdel]
    simp only
    rw [ih]
    simp only [List.filter_filter, Prod.mk.injEq, true_and, List.map_cons, and_true]
    congr 1
    apply List.filter_congr
    intro s _
    have hsym : (st.id == s.id) = (s.id == st.id) := by
      rw [Bool.eq_iff_iff, beq_iff_eq, beq_iff_eq]
      exact eq_comm
    simp only [List.any_cons, Bool.not_or, hsym]
    exact Bool.and_comm _ _

/-- C24. When the movie exists and none of its future showtimes has a ticket (showtime
ids unique, the clock the same for the whole call), `deleteMovie` succeeds: the run calls
`deleteShowtime` once for every future showtime of the movie, in storage order, and for no
past showtime; no call throws, and after the loop exactly the future showtimes of the
movie are gone; then the movie row is removed, and with it, by the cascade of the foreign
keys, the past showtimes of the movie.  Every other movie and showtime stays as it was. -/
theorem deleteMovie_succeeds (now : Int) (db : Store) (movieTitle : String) (movie : Movie)
    (hkeys : ShowtimeKeys db)
    (hm : findMovieByTitle db movieTitle = some movie)
    (hfree : ∀ st ∈ db.showtimes, st.movieId = movie.id → st.endTime ≥ now →
      ¬ ∃ t ∈ db.tickets, t.showtimeId = st.id) :
    (deleteMovieRun now db movieTitle).result = .ok () ∧
    (deleteMovieRun now db movieTitle).deleteShowtimeCalls =
      ((findShowtimesByMovieId db movie.id).filter
        (fun st => decide (st.endTime ≥ now))).map (fun s => s.id) ∧
    (∀ st ∈ db.showtimes, st.movieId = movie.id → st.endTime ≥ now →
      st.id ∈ (deleteMovieRun now db movieTitle).deleteShowtimeCalls) ∧
    (∀ st ∈ db.showtimes, st.movieId = movie.id → st.endTime < now →
      st.id ∉ (deleteMovieRun now db movieTitle).deleteShowtimeCalls) ∧
    deleteLoopRun now ((findShowtimesByMovieId db movie.id).filter
        (fun st => decide (st.endTime ≥ now))) db =
      ((none,
        { db with
          showtimes := db.showtimes.filter
            (fun s => !(s.movieId == movie.id && decide (s.endTime ≥ now))) }),
        ((findShowtimesByMovieId db movie.id).filter
          (fun st => decide (st.endTime ≥ now))).map (fun s => s.id)) ∧
    (deleteMovieRun now db movieTitle).store.movies =
      db.movies.filter (fun m => !(m.id == movie.id)) ∧
    (deleteMovieRun now db movieTitle).store.showtimes =
      db.showtimes.filter (fun s => !(s.movieId == movie.id)) ∧
    deleteMovie now db movieTitle = (.ok (), (deleteMovieRun now db movieTitle).store) := by
  have hany : anyTicketsSold db ((findShowtimesByMovieId db movie.id).filter
      (fun st => decide (st.endTime ≥ now))) = false := by
    rw [← Bool.not_eq_true, anyTicketsSold_iff]
    rintro ⟨st, hst, ht⟩
    obtain ⟨h1, h2, h3⟩ := mem_futureShowtimes.mp hst
    exact hfree st h1 h2 h3 ht
  have hsub : List.Sublist ((findShowtimesByMovieId db movie.id).filter
      (fun st => decide (st.endTime ≥ now))) db.showtimes :=
    (List.filter_sublist _).trans (List.filter_sublist _)
  have hnodup : (((findShowtimesByMovieId db movie.id).filter
      (fun st => decide (st.endTime ≥ now))).map (fun s => s.id)).Nodup :=
    List.Nodup.sublist (List.Sublist.map _ hsub) hkeys
  have hloop := deleteLoopRun_ok now _ db hkeys hnodup (by
    intro st hst
    obtain ⟨h1, h2, h3⟩ := mem_futureShowtimes.mp hst
    exact ⟨h1, h3, hfree st h1 h2 h3⟩)
  have hfilter : db.showtimes.filter (fun s => !(((findShowtimesByMovieId db movie.id).filter
      (fun st => decide (st.endTime ≥ now))).any (fun st => st.id == s.id))) =
      db.showtimes.filter (fun s => !(s.movieId == movie.id && decide (s.endTime ≥ now))) := by
    apply List.filter_congr
    intro s hs
    congr 1
    rw [Bool.eq_iff_iff, List.any_eq_true]
    constructor
    · rintro ⟨st, hst, hid⟩
      obtain ⟨h1, h2, h3⟩ := mem_futureShowtimes.mp hst
      have := showtime_eq_of_id_eq hkeys h1 hs (by simpa using hid)
      subst this
      simp [h2, h3]
    · intro h
      simp only [Bool.and_eq_true, beq_iff_eq, decide_eq_true_eq] at h
      exact ⟨s, mem_futureShowtimes.mpr ⟨hs, h.1, h.2⟩, by simp⟩
  rw [hfilter] at hloop
  have hrun : deleteMovieRun now db movieTitle =
      ⟨.ok (), movieDestroy
        { db with
          showtimes := db.showtimes.filter
            (fun s => !(s.movieId == movie.id && decide (s.endTime ≥ now))) } movie,
        ((findShowtimesByMovieId db movie.id).filter
          (fun st => decide (st.endTime ≥ now))).map (fun s => s.id)⟩ := by
    unfold deleteMovieRun
    simp only [hm, hany, Bool.false_eq_true, if_false, hloop]
  have hcalls : (deleteMovieRun now db movieTitle).deleteShowtimeCalls =
      ((findShowtimesByMovieId db movie.id).filter
        (fun st => decide (st.endTime ≥ now))).map (fun s => s.id) := by
    rw [hrun]
  refine ⟨by rw [hrun], hcalls, ?_, ?_, hloop, by rw [hrun]; rfl, ?_, ?_⟩
  · intro st hst hmov hfut
    rw [hcalls]
    exact List.mem_map_of_mem _ (mem_futureShowtimes.mpr ⟨hst, hmov, hfut⟩)
  · intro st hst hmov hpast hin
    rw [hcalls] at hin
    obtain ⟨f, hf, hid⟩ := List.mem_map.mp hin
    obtain ⟨h1, -, h3⟩ := mem_futureShowtimes.mp hf
    have := showtime_eq_of_id_eq hkeys h1 hst hid
    subst this
    exact absurd hpast (not_lt.mpr h3)
  · rw [hrun]
    simp only [movieDestroy, List.filter_filter]
    apply List.filter_congr
    intro s _
    by_cases h : s.movieId = movie.id <;> simp [h]
  · unfold deleteMovie
    rw [hrun]

/-- Witness for C24: the movie has a past showtime with a ticket and a future showtime
without one; `deleteShowtime` is called for the future showtime only, and the movie, both
showtimes and the ticket of the past showtime are gone afterwards, the other movie and its
showtime staying. -/
theorem deleteMovie_succeeds_witness :
    deleteMovieRun 6500000
      ⟨[⟨1, "Inception", "SciFi", 100, 8, 2010⟩, ⟨2, "Heat", "Crime", 100, 8, 1995⟩],
        [⟨1, 1, "A", 0, 6000000, 10⟩, ⟨2, 1, "A", 7000000, 13000000, 10⟩,
          ⟨3, 2, "B", 7000000, 13000000, 10⟩],
        [⟨1, 1, 5, "u0", "b0"⟩]⟩ "Inception" =
      ⟨.ok (), ⟨[⟨2, "Heat", "Crime", 100, 8, 1995⟩], [⟨3, 2, "B", 7000000, 13000000, 10⟩],
        []⟩, [2]⟩ ∧
    (deleteMovieRun 6500000
      ⟨[⟨1, "Inception", "SciFi", 100, 8, 2010⟩, ⟨2, "Heat", "Crime", 100, 8, 1995⟩],
        [⟨1, 1, "A", 0, 6000000, 10⟩, ⟨2, 1, "A", 7000000, 13000000, 10⟩,
          ⟨3, 2, "B", 7000000, 13000000, 10⟩],
        [⟨1, 1, 5, "u0", "b0"⟩]⟩ "Inception").deleteShowtimeCalls =
      ((findShowtimesByMovieId
        ⟨[⟨1, "Inception", "SciFi", 100, 8, 2010⟩, ⟨2, "Heat", "Crime", 100, 8, 1995⟩],
          [⟨1, 1, "A", 0, 6000000, 10⟩, ⟨2, 1, "A", 7000000, 13000000, 10⟩,
            ⟨3, 2, "B", 7000000, 13000000, 10⟩],
          [⟨1, 1, 5, "u0", "b0"⟩]⟩ 1).filter
        (fun st => decide (st.endTime ≥ 6500000))).map (fun s => s.id) :=
  have h := deleteMovie_succeeds 6500000
    ⟨[⟨1, "Inception", "SciFi", 100, 8, 2010⟩, ⟨2, "Heat", "Crime", 100, 8, 1995⟩],
      [⟨1, 1, "A", 0, 6000000, 10⟩, ⟨2, 1, "A", 7000000, 13000000, 10⟩,
        ⟨3, 2, "B", 7000000, 13000000, 10⟩],
      [⟨1, 1, 5, "u0", "b0"⟩]⟩ "Inception" ⟨1, "Inception", "SciFi", 100, 8, 2010⟩
    (by decide) rfl (by decide)
  ⟨by decide, h.2.1⟩

/-! ## Movie titles -/

theorem createMovie_duplicate {db : Store} {data : MovieData}
    (h : ∃ m ∈ db.movies, m.title = data.title) :
    createMovie db data = (.error (mkError "Movie already exists with this title."), db) := by
  obtain ⟨m, hm, ht⟩ := h
  unfold createMovie
  cases hf : db.movies.find? (fun m => m.title == data.title) with
  | some found => rfl
  | none =>
    have := List.find?_eq_none.mp hf m hm
    simp [ht] at this

theorem createMovie_fresh {db : Store} {data : MovieData}
    (h : ∀ m ∈ db.movies, m.title ≠ data.title) :
    createMovie db data =
      (.ok ⟨nextId (db.movies.map (fun m => m.id)), data.title, data.genre, data.duration,
          data.rating, data.releaseYear⟩,
        { db with movies := db.movies ++
          [⟨nextId (db.movies.map (fun m => m.id)), data.title, data.genre, data.duration,
            data.rating, data.releaseYear⟩] }) := by
  have hf : db.movies.find? (fun m => m.title == data.title) = none := by
    rw [List.find?_eq_none]
    intro m hm
    simpa using h m hm
  unfold createMovie
  rw [hf]

theorem updateMovie_movies (now : Int) (db : Store) (movieTitle : String) (data : MovieUpdate) :
    (updateMovie now db movieTitle data).2.movies = db.movies ∨
    ∃ movie, findMovieByTitle db movieTitle = some movie ∧ isRename data movie = false ∧
      (updateMovie now db movieTitle data).2.movies =
        db.movies.map (fun m => if m.id == movie.id then m.applyUpdate data else m) := by
  rcases hres : updateMovie now db movieTitle data with ⟨r, db1⟩
  cases r with
  | error e =>
    rcases updateMovie_error_cases hres with ⟨hdb, -⟩ | ⟨movie, d, -, -, -, hloop⟩
    · exact Or.inl (by rw [hdb])
    · have hframe := cascadeLoop_frame now movie d (findShowtimesByMovieId db movie.id) db
      rw [hloop] at hframe
      exact Or.inl hframe.1
  | ok updated =>
    unfold updateMovie at hres
    split at hres
    · simp at hres
    · next movie hm =>
      split at hres
      · simp at hres
      · next hr =>
        have hr1 : isRename data movie = false := by simpa using hr
        refine Or.inr ⟨movie, hm, hr1, ?_⟩
        split at hres
        · next d _ =>
          simp only at hres
          split at hres
          · split at hres
            · simp at hres
            · split at hres
              · simp at hres
              · next db2 hloop =>
                have hframe := cascadeLoop_frame now movie d
                  (findShowtimesByMovieId db movie.id) db
                rw [hloop] at hframe
                have hmovies : db2.movies = db.movies := hframe.1
                simp only [movieUpdateRow, Prod.mk.injEq] at hres
                rw [← hres.2]
                simp only [hmovies]
          · simp only [movieUpdateRow, Prod.mk.injEq] at hres
            rw [← hres.2]
        · simp only [movieUpdateRow, Prod.mk.injEq] at hres
          rw [← hres.2]

theorem deleteMovie_movies_sublist (now : Int) (db : Store) (movieTitle : String) :
    List.Sublist (deleteMovie now db movieTitle).2.movies db.movies := by
  rw [deleteMovie_eq]
  split
  · exact List.Sublist.refl _
  · next movie _ =>
    simp only
    split
    · exact List.Sublist.refl _
    · have hf := deleteLoop_frame now
        ((findShowtimesByMovieId db movie.id).filter (fun st => decide (st.endTime ≥ now))) db
      split
      · next e db1 hloop =>
        rw [hloop] at hf
        simp only
        rw [hf.1]
      · next db1 hloop =>
        rw [hloop] at hf
        simp only [movieDestroy]
        rw [hf.1]
        exact List.filter_sublist _

theorem isRename_false_title {data : MovieUpdate} {movie : Movie}
    (hr : isRename data movie = false) (hne : data.title ≠ some "") :
    data.title.getD movie.title = movie.title := by
  unfold isRename at hr
  cases ht : data.title with
  | none => rfl
  | some t =>
    rw [ht] at hr hne
    have h1 : t ≠ "" := fun h => hne (by rw [h])
    simp only [bne_iff_ne, ne_eq, Bool.and_eq_false_iff, Bool.not_eq_true, bne_eq_false_iff_eq,
      h1, false_or] at hr
    simpa using hr

/-- One call of the movie service keeps movie ids unique and titles pairwise distinct,
unless it is an update with the empty title. -/
theorem runMovieCall_keeps_titles {db : Store} (hk : MovieKeys db) (ht : TitlesDistinct db)
    (call : MovieCall) (hcall : call.NoEmptyTitle) :
    MovieKeys (runMovieCall db call) ∧ TitlesDistinct (runMovieCall db call) := by
  cases call with
  | create data =>
    simp only [runMovieCall]
    by_cases hdup : ∃ m ∈ db.movies, m.title = data.title
    · rw [createMovie_duplicate hdup]
      exact ⟨hk, ht⟩
    · have hfresh : ∀ m ∈ db.movies, m.title ≠ data.title := fun m hm h => hdup ⟨m, hm, h⟩
      rw [createMovie_fresh hfresh]
      constructor
      · unfold MovieKeys
        simp only [List.map_append, List.map_cons, List.map_nil]
        refine List.Nodup.append hk (List.nodup_singleton _) ?_
        simp only [List.disjoint_singleton]
        exact fun h => Nat.lt_irrefl _ (lt_nextId h)
      · unfold TitlesDistinct
        simp only [List.map_append, List.map_cons, List.map_nil]
        refine List.Nodup.append ht (List.nodup_singleton _) ?_
        simp only [List.disjoint_singleton, List.mem_map, not_exists, not_and]
        exact fun m hm => hfresh m hm
  | update now movieTitle data =>
    simp only [runMovieCall]
    rcases updateMovie_movies now db movieTitle data with h | ⟨movie, hm, hr, h⟩
    · unfold MovieKeys TitlesDistinct
      rw [h]
      exact ⟨hk, ht⟩
    · have hids : (db.movies.map (fun m => if m.id == movie.id then m.applyUpdate data else m)).map
          (fun m => m.id) = db.movies.map (fun m => m.id) := by
        rw [List.map_map]
        apply List.map_congr_left
        intro m _
        by_cases hi : m.id = movie.id <;> simp [hi, Movie.applyUpdate]
      have htitles : (db.movies.map
          (fun m => if m.id == movie.id then m.applyUpdate data else m)).map
          (fun m => m.title) = db.movies.map (fun m => m.title) := by
        rw [List.map_map]
        apply List.map_congr_left
        intro m hmem
        by_cases hi : m.id = movie.id
        · have := movie_eq_of_id_eq hk hmem (findMovieByTitle_mem hm) hi
          subst this
          simp only [Function.comp_apply, beq_self_eq_true, if_true, Movie.applyUpdate]
          exact isRename_false_title hr hcall
        · simp [hi]
      unfold MovieKeys TitlesDistinct
      rw [h, hids, htitles]
      exact ⟨hk, ht⟩
  | delete now movieTitle =>
    simp only [runMovieCall]
    have hsub := deleteMovie_movies_sublist now db movieTitle
    exact ⟨List.Nodup.sublist (List.Sublist.map _ hsub) hk,
      List.Nodup.sublist (List.Sublist.map _ hsub) ht⟩

/-- C25, failing input. Two movies with distinct titles are each updated with the empty
title; the guard against renaming takes the empty string for no title, both updates
succeed, and both movies are then titled with the empty string: the titles are no longer
pairwise distinct. -/
theorem empty_titles_collide :
    TitlesDistinct ⟨[⟨1, "Inception", "SciFi", 100, 8, 2010⟩, ⟨2, "Heat", "Crime", 100, 8, 1995⟩],
      [], []⟩ ∧
    ¬ TitlesDistinct (runMovieCalls
      ⟨[⟨1, "Inception", "SciFi", 100, 8, 2010⟩, ⟨2, "Heat", "Crime", 100, 8, 1995⟩], [], []⟩
      [.update 100 "Inception" ⟨some "", none, none, none, none⟩,
        .update 100 "Heat" ⟨some "", none, none, none, none⟩]) ∧
    runMovieCalls
      ⟨[⟨1, "Inception", "SciFi", 100, 8, 2010⟩, ⟨2, "Heat", "Crime", 100, 8, 1995⟩], [], []⟩
      [.update 100 "Inception" ⟨some "", none, none, none, none⟩,
        .update 100 "Heat" ⟨some "", none, none, none, none⟩] =
    ⟨[⟨1, "", "SciFi", 100, 8, 2010⟩, ⟨2, "", "Crime", 100, 8, 1995⟩], [], []⟩ := by
  refine ⟨?_, ?_, ?_⟩ <;> decide

/-- What holds of the titles: `createMovie` fails with
`Movie already exists with this title.` and leaves the store unchanged when a movie with
the same title exists, and otherwise appends the movie with the given fields and returns
it; and from a store with unique movie ids whose titles are pairwise distinct, every
sequence of `createMovie`, `updateMovie` and `deleteMovie` calls in which no update gives
the empty string as the title, the one input the rename guard misses, keeps the titles
pairwise distinct. -/
theorem movie_titles_stay_distinct (db : Store) :
    (∀ data : MovieData, (∃ m ∈ db.movies, m.title = data.title) →
      createMovie db data = (.error (mkError "Movie already exists with this title."), db)) ∧
    (∀ data : MovieData, (∀ m ∈ db.movies, m.title ≠ data.title) →
      ∃ movie : Movie,
        createMovie db data = (.ok movie, { db with movies := db.movies ++ [movie] }) ∧
        movie.title = data.title ∧ movie.genre = data.genre ∧
        movie.duration = data.duration ∧ movie.rating = data.rating ∧
        movie.releaseYear = data.releaseYear) ∧
    (∀ calls : List MovieCall, MovieKeys db → TitlesDistinct db →
      (∀ c ∈ calls, c.NoEmptyTitle) → TitlesDistinct (runMovieCalls db calls)) := by
  refine ⟨fun data h => createMovie_duplicate h,
    fun data h => ⟨_, createMovie_fresh h, rfl, rfl, rfl, rfl, rfl⟩, ?_⟩
  intro calls
  induction calls generalizing db with
  | nil => exact fun _ ht _ => ht
  | cons c rest ih =>
    intro hk ht hall
    obtain ⟨hk1, ht1⟩ := runMovieCall_keeps_titles hk ht c (hall c (List.mem_cons_self _ _))
    exact ih (runMovieCall db c) hk1 ht1 (fun x hx => hall x (List.mem_cons_of_mem _ hx))

/-- An instance: a duplicate creation, a fresh creation, an update that keeps the title
and a deletion leave distinct titles. -/
theorem movie_titles_stay_distinct_witness :
    TitlesDistinct (runMovieCalls ⟨[⟨1, "Inception", "SciFi", 100, 8, 2010⟩], [], []⟩
      [.create ⟨"Inception", "SciFi", 100, 8, 2010⟩, .create ⟨"Heat", "Crime", 100, 8, 1995⟩,
        .update 100 "Heat" ⟨some "Heat", some "Drama", none, none, none⟩,
        .delete 100 "Inception"]) :=
  (movie_titles_stay_distinct ⟨[⟨1, "Inception", "SciFi", 100, 8, 2010⟩], [], []⟩).2.2
    [.create ⟨"Inception", "SciFi", 100, 8, 2010⟩, .create ⟨"Heat", "Crime", 100, 8, 1995⟩,
      .update 100 "Heat" ⟨some "Heat", some "Drama", none, none, none⟩,
      .delete 100 "Inception"]
    (by decide) (by decide)
    (by
      intro c hc
      simp only [List.mem_cons, List.mem_singleton, List.not_mem_nil, or_false] at hc
      rcases hc with rfl | rfl | rfl | rfl
      · trivial
      · trivial
      · simp [MovieCall.NoEmptyTitle]
      · trivial)

/-! ## Time helpers -/

/-! ### Rounding -/

theorem log2Fuel_le : ∀ (fuel n b : Nat), n < 2 ^ (b + 1) → log2Fuel fuel n ≤ b
  | 0, _, _, _ => Nat.zero_le _
  | fuel + 1, n, b, h => by
    unfold log2Fuel
    split
    · exact Nat.zero_le _
    · next hn =>
      cases b with
      | zero => simp at h; omega
      | succ b =>
        have h2 : n / 2 < 2 ^ (b + 1) := by
          rw [Nat.div_lt_iff_lt_mul (by decide)]
          rw [pow_succ] at h
          exact h
        have := log2Fuel_le fuel (n / 2) b h2
        omega

theorem pow_log2Fuel_le : ∀ (fuel n : Nat), 1 ≤ n → 2 ^ log2Fuel fuel n ≤ n
  | 0, _, h => by simpa [log2Fuel] using h
  | fuel + 1, n, h => by
    unfold log2Fuel
    split
    · simpa using h
    · next hn =>
      have h2 : 1 ≤ n / 2 := by omega
      have ih := pow_log2Fuel_le fuel (n / 2) h2
      rw [pow_succ]
      omega

theorem shiftUp_spec (num den : Nat) (hnum : 1 ≤ num) :
    ∀ (fuel j : Nat), den < 2 ^ (fuel + j) → den ≤ num * 2 ^ shiftUp fuel num den j
  | 0, j, h => by
    simp only [shiftUp]
    rw [Nat.zero_add] at h
    calc den ≤ 2 ^ j := Nat.le_of_lt h
      _ ≤ num * 2 ^ j := Nat.le_mul_of_pos_left _ hnum
  | fuel + 1, j, h => by
    unfold shiftUp
    split
    · next hle => exact hle
    · exact shiftUp_spec num den hnum fuel (j + 1) (by
        have : fuel + (j + 1) = fuel + 1 + j := by omega
        rw [this]; exact h)

theorem roundQuotient_neg (neg : Bool) (n d : Nat) (e : Int) :
    (roundQuotient neg n d e).neg = neg := by
  unfold roundQuotient
  split <;> rfl

theorem roundQuotient_e (neg : Bool) (n d : Nat) (e : Int) :
    (roundQuotient neg n d e).e = e := by
  unfold roundQuotient
  split <;> rfl

theorem roundQuotient_m_ge (neg : Bool) (n d : Nat) (e : Int) :
    n / d ≤ (roundQuotient neg n d e).m := by
  unfold roundQuotient
  split
  · exact Nat.le_succ _
  · exact Nat.le_refl _

theorem roundQuotient_exact (neg : Bool) (k d : Nat) (e : Int) (hd : 0 < d) :
    roundQuotient neg (k * d) d e = ⟨neg, k, e⟩ := by
  unfold roundQuotient
  rw [Nat.mul_mod_left, Nat.mul_div_cancel _ hd]
  rw [if_neg]
  omega

theorem roundRat_neg (neg : Bool) (num den : Nat) : (roundRat neg num den).neg = neg := by
  unfold roundRat
  split
  · rfl
  · exact roundQuotient_neg _ _ _ _

/-- The divisor of the scaled division is at most its dividend: the significand of a
rounded positive fraction is positive. -/
theorem roundRat_m_pos (neg : Bool) {num den : Nat} (hnum : 0 < num) (hden : 0 < den) :
    0 < (roundRat neg num den).m := by
  have hscaled : ∀ e : Int, e = binaryExponent num den - 52 →
      (if e < 0 then den else den * 2 ^ e.toNat) ≤
        (if e < 0 then num * 2 ^ (-e).toNat else num) := by
    intro e he
    unfold binaryExponent at he
    by_cases hle : den ≤ num
    · rw [if_pos hle] at he
      by_cases hneg : e < 0
      · rw [if_pos hneg, if_pos hneg]
        calc den ≤ num := hle
          _ ≤ num * 2 ^ (-e).toNat := Nat.le_mul_of_pos_right _ (Nat.pow_pos (by decide))
      · rw [if_neg hneg, if_neg hneg]
        have hq : 1 ≤ num / den := (Nat.one_le_div_iff hden).mpr hle
        have h1 : 2 ^ ilog2 (num / den) ≤ num / den := pow_log2Fuel_le _ _ hq
        have h2 : e.toNat ≤ ilog2 (num / den) := by omega
        calc den * 2 ^ e.toNat ≤ den * 2 ^ ilog2 (num / den) :=
              Nat.mul_le_mul_left _ (Nat.pow_le_pow_right (by decide) h2)
          _ ≤ den * (num / den) := Nat.mul_le_mul_left _ h1
          _ ≤ num := Nat.mul_div_le _ _
    · rw [if_neg hle] at he
      have hneg : e < 0 := by omega
      rw [if_pos hneg, if_pos hneg]
      have hs := shiftUp_spec num den hnum den 1 (by
        calc den < 2 ^ den := Nat.lt_two_pow den
          _ ≤ 2 ^ (den + 1) := Nat.pow_le_pow_right (by decide) (Nat.le_succ _))
      have hk : shiftUp den num den 1 ≤ (-e).toNat := by omega
      calc den ≤ num * 2 ^ shiftUp den num den 1 := hs
        _ ≤ num * 2 ^ (-e).toNat :=
            Nat.mul_le_mul_left _ (Nat.pow_le_pow_right (by decide) hk)
  unfold roundRat
  rw [if_neg (Nat.pos_iff_ne_zero.mp hnum)]
  simp only
  have h := hscaled _ rfl
  have hdpos : 0 < (if binaryExponent num den - 52 < 0 then den
      else den * 2 ^ (binaryExponent num den - 52).toNat) := by
    split
    · exact hden
    · exact Nat.mul_pos hden (Nat.pow_pos (by decide))
  exact Nat.lt_of_lt_of_le (Nat.div_pos h hdpos) (roundQuotient_m_ge _ _ _ _)

/-- A fraction whose value is a whole number with a significand of at most 53 bits is
rounded to that number. -/
theorem roundRat_exact (neg : Bool) {num den k j : Nat} (hden : 0 < den) (hk : k < 2 ^ 53)
    (hnum : num = k * 2 ^ j * den) :
    (roundRat neg num den).neg = neg ∧
    (roundRat neg num den).hasMagnitude (k * 2 ^ j) = true := by
  refine ⟨roundRat_neg _ _ _, ?_⟩
  unfold roundRat
  by_cases h0 : num = 0
  · rw [if_pos h0]
    have hk0 : k * 2 ^ j = 0 := by
      rw [h0] at hnum
      rcases Nat.mul_eq_zero.mp hnum.symm with h | h
      · exact h
      · omega
    simp [Double.hasMagnitude, hk0]
  · rw [if_neg h0]
    simp only
    have hle : binaryExponent num den - 52 ≤ (j : Int) := by
      unfold binaryExponent
      split
      · have hq : num / den = k * 2 ^ j := by
          rw [hnum]; exact Nat.mul_div_cancel _ hden
        have hlt : num / den < 2 ^ (52 + j + 1) := by
          rw [hq]
          have : 2 ^ (52 + j + 1) = 2 ^ 53 * 2 ^ j := by
            rw [← pow_add]; congr 1; omega
          rw [this]
          exact Nat.mul_lt_mul_of_pos_right hk (Nat.pow_pos (by decide))
        have := log2Fuel_le (num / den) (num / den) (52 + j) hlt
        unfold ilog2
        omega
      · omega
    generalize binaryExponent num den - 52 = e at hle
    by_cases hneg : e < 0
    · rw [if_pos hneg, if_pos hneg]
      have hn : num * 2 ^ (-e).toNat = (k * 2 ^ j * 2 ^ (-e).toNat) * den := by
        rw [hnum]; ring
      rw [hn, roundQuotient_exact _ _ _ _ hden]
      simp [Double.hasMagnitude, hneg]
    · rw [if_neg hneg, if_neg hneg]
      have ht : e.toNat ≤ j := by omega
      have hn : num = (k * 2 ^ (j - e.toNat)) * (den * 2 ^ e.toNat) := by
        rw [hnum]
        have : 2 ^ j = 2 ^ (j - e.toNat) * 2 ^ e.toNat := by
          rw [← pow_add]; congr 1; omega
        rw [this]; ring
      have hd : 0 < den * 2 ^ e.toNat := Nat.mul_pos hden (Nat.pow_pos (by decide))
      rw [hn, roundQuotient_exact _ _ _ _ hd]
      simp only [Double.hasMagnitude, hneg, if_false, beq_iff_eq]
      have : 2 ^ j = 2 ^ (j - e.toNat) * 2 ^ e.toNat := by
        rw [← pow_add]; congr 1; omega
      rw [this]; ring

theorem toRat_of_hasMagnitude {x : Double} {v : Nat} (h : x.hasMagnitude v = true) :
    x.toRat = (if x.neg then -1 else 1) * (v : ℚ) := by
  unfold Double.hasMagnitude at h
  unfold Double.toRat
  have h2 : (2 : ℚ) ≠ 0 := by norm_num
  by_cases hneg : x.e < 0
  · rw [if_pos hneg] at h
    obtain ⟨t, ht⟩ : ∃ t : Nat, x.e = -(t : Int) := ⟨(-x.e).toNat, by omega⟩
    have htn : (-x.e).toNat = t := by omega
    have hm : x.m = v * 2 ^ t := by rw [← htn]; simpa using h
    have hp : ((2 : ℚ) ^ t) ≠ 0 := pow_ne_zero _ h2
    rw [hm, ht, zpow_neg, zpow_natCast]
    push_cast
    field_simp
  · rw [if_neg hneg] at h
    obtain ⟨t, ht⟩ : ∃ t : Nat, x.e = (t : Int) := ⟨x.e.toNat, by omega⟩
    have htn : x.e.toNat = t := by omega
    have hm : x.m * 2 ^ t = v := by rw [← htn]; simpa using h
    rw [← hm, ht, zpow_natCast]
    push_cast
    ring

theorem toRat_neg_iff (x : Double) : x.toRat < 0 ↔ x.neg = true ∧ 0 < x.m := by
  unfold Double.toRat
  have hp : (0 : ℚ) < (2 : ℚ) ^ x.e := zpow_pos (by norm_num) _
  cases hneg : x.neg
  · simp only [Bool.false_eq_true, if_false, one_mul, false_and, iff_false, not_lt]
    exact mul_nonneg (Nat.cast_nonneg _) (le_of_lt hp)
  · simp only [if_true, true_and]
    constructor
    · intro h
      rcases Nat.eq_zero_or_pos x.m with h0 | h0
      · rw [h0] at h; simp at h
      · exact h0
    · intro h
      have hm : (0 : ℚ) < (x.m : ℚ) := Nat.cast_pos.mpr h
      have : (-1 : ℚ) * (x.m : ℚ) * (2 : ℚ) ^ x.e = -((x.m : ℚ) * (2 : ℚ) ^ x.e) := by ring
      rw [this]
      exact neg_neg_of_pos (mul_pos hm hp)

theorem divNat_neg (x : Double) (q : Nat) : (x.divNat q).neg = x.neg := by
  unfold Double.divNat
  split <;> exact roundRat_neg _ _ _

theorem divNat_m_pos {x : Double} {q : Nat} (hx : 0 < x.m) (hq : 0 < q) :
    0 < (x.divNat q).m := by
  unfold Double.divNat
  split
  · exact roundRat_m_pos _ hx (Nat.mul_pos hq (Nat.pow_pos (by decide)))
  · exact roundRat_m_pos _ (Nat.mul_pos hx (Nat.pow_pos (by decide))) hq

/-- The quotient of a double that is the whole number `n * q` by `q` is `n`. -/
theorem divNat_exact {x : Double} {q n : Nat} (hq : 0 < q) (hn : n < 2 ^ 53)
    (hx : x.hasMagnitude (n * q) = true) :
    (x.divNat q).hasMagnitude n = true := by
  unfold Double.hasMagnitude at hx
  unfold Double.divNat
  by_cases hneg : x.e < 0
  · rw [if_pos hneg] at hx ⊢
    have hm : x.m = n * q * 2 ^ (-x.e).toNat := by simpa using hx
    have := (@roundRat_exact x.neg x.m (q * 2 ^ (-x.e).toNat) n 0
      (Nat.mul_pos hq (Nat.pow_pos (by decide))) hn (by rw [hm]; ring)).2
    simpa using this
  · rw [if_neg hneg] at hx ⊢
    have hm : x.m * 2 ^ x.e.toNat = n * q := by simpa using hx
    have := (@roundRat_exact x.neg (x.m * 2 ^ x.e.toNat) q n 0
      hq hn (by rw [hm]; ring)).2
    simpa using this

theorem eqInt_of_hasMagnitude {x : Double} {d : Int} (hneg : x.neg = decide (d < 0))
    (h : x.hasMagnitude d.natAbs = true) : x.eqInt d = true := by
  unfold Double.eqInt
  split
  · next hm =>
    unfold Double.hasMagnitude at h
    rw [hm] at h
    have hp : 0 < 2 ^ (-x.e).toNat := Nat.pow_pos (by decide)
    split at h
    · have h1 : 0 = d.natAbs * 2 ^ (-x.e).toNat := by simpa using h
      rcases Nat.mul_eq_zero.mp h1.symm with h2 | h2
      · simp only [beq_iff_eq]; omega
      · omega
    · have h1 : 0 = d.natAbs := by simpa using h
      simp only [beq_iff_eq]; omega
  · simp [hneg, h]

/-- The rounded significand is within half a unit of the quotient. -/
theorem roundQuotient_near (neg : Bool) (n d : Nat) (e : Int) (hd : 0 < d) :
    2 * ((roundQuotient neg n d e).m * d - n) ≤ d ∧
    2 * (n - (roundQuotient neg n d e).m * d) ≤ d := by
  have hdm := Nat.div_add_mod n d
  have hr : n % d < d := Nat.mod_lt _ hd
  have hcomm : d * (n / d) = n / d * d := Nat.mul_comm _ _
  unfold roundQuotient
  split
  · next hc =>
    simp only
    have : (n / d + 1) * d = n / d * d + d := by ring
    rw [this]
    omega
  · next hc =>
    simp only
    omega

theorem pow_binaryExponent_le {num den : Nat} (hden : 0 < den) (hle : den ≤ num) :
    den * 2 ^ (binaryExponent num den).toNat ≤ num := by
  unfold binaryExponent
  rw [if_pos hle]
  simp only [Int.toNat_ofNat]
  have hq : 1 ≤ num / den := (Nat.one_le_div_iff hden).mpr hle
  calc den * 2 ^ ilog2 (num / den) ≤ den * (num / den) :=
        Nat.mul_le_mul_left _ (pow_log2Fuel_le _ _ hq)
    _ ≤ num := Nat.mul_div_le _ _

theorem binaryExponent_neg {num den : Nat} (hlt : ¬ den ≤ num) : binaryExponent num den < 0 := by
  unfold binaryExponent
  rw [if_neg hlt]
  have : 1 ≤ shiftUp den num den 1 := by
    have hge : ∀ (fuel j : Nat), j ≤ shiftUp fuel num den j := by
      intro fuel
      induction fuel with
      | zero => intro j; simp [shiftUp]
      | succ f ih =>
        intro j
        unfold shiftUp
        split
        · exact Nat.le_refl _
        · exact Nat.le_trans (Nat.le_succ _) (ih (j + 1))
    exact hge den 1
  omega

/-- A fraction `a / b` with `b` below `2 ^ 16` and a quotient below `2 ^ 38` is rounded
to a whole number only if it is that number. -/
theorem roundRat_int_imp (neg : Bool) {a b g v : Nat} (hg : 0 < g) (hb : 0 < b)
    (hb16 : b < 2 ^ 16) (hsmall : a < b * 2 ^ 38)
    (h : (roundRat neg (a * g) (b * g)).hasMagnitude v = true) : a = v * b := by
  unfold roundRat at h
  by_cases h0 : a * g = 0
  · rw [if_pos h0] at h
    have ha : a = 0 := by
      rcases Nat.mul_eq_zero.mp h0 with h1 | h1
      · exact h1
      · omega
    have hv : v = 0 := by
      simp [Double.hasMagnitude] at h
      exact h.symm
    rw [ha, hv]; simp
  · rw [if_neg h0] at h
    simp only at h
    have hbg : 0 < b * g := Nat.mul_pos hb hg
    have hbe : binaryExponent (a * g) (b * g) < 38 := by
      by_contra hge
      push_neg at hge
      have hle : b * g ≤ a * g := by
        by_contra hnot
        have := binaryExponent_neg hnot
        omega
      have hp := pow_binaryExponent_le hbg hle
      have h38 : 38 ≤ (binaryExponent (a * g) (b * g)).toNat := by omega
      have hpow : 2 ^ 38 ≤ 2 ^ (binaryExponent (a * g) (b * g)).toNat :=
        Nat.pow_le_pow_right (by decide) h38
      have h1 : b * g * 2 ^ 38 ≤ a * g :=
        Nat.le_trans (Nat.mul_le_mul_left _ hpow) hp
      have h2 : a * g < b * 2 ^ 38 * g := Nat.mul_lt_mul_of_pos_right hsmall hg
      have h3 : b * g * 2 ^ 38 = b * 2 ^ 38 * g := by ring
      omega
    have hneg : binaryExponent (a * g) (b * g) - 52 < 0 := by omega
    rw [if_pos hneg, if_pos hneg] at h
    unfold Double.hasMagnitude at h
    rw [roundQuotient_e, if_pos hneg] at h
    have hT : 15 ≤ (-(binaryExponent (a * g) (b * g) - 52)).toNat := by omega
    generalize (-(binaryExponent (a * g) (b * g) - 52)).toNat = T at h hT
    have hnear := roundQuotient_near neg (a * g * 2 ^ T) (b * g)
      (binaryExponent (a * g) (b * g) - 52) hbg
    have hm : (roundQuotient neg (a * g * 2 ^ T) (b * g)
        (binaryExponent (a * g) (b * g) - 52)).m = v * 2 ^ T := by simpa using h
    rw [hm] at hnear
    have e1 : v * 2 ^ T * (b * g) = v * b * (g * 2 ^ T) := by ring
    have e2 : a * g * 2 ^ T = a * (g * 2 ^ T) := by ring
    rw [e1, e2] at hnear
    have hpow : 2 ^ 15 ≤ 2 ^ T := Nat.pow_le_pow_right (by decide) hT
    have hG : b * g < 2 * (g * 2 ^ T) := by
      have h1 : g * 2 ^ 15 ≤ g * 2 ^ T := Nat.mul_le_mul_left _ hpow
      have h2 : b * g < 2 ^ 16 * g := Nat.mul_lt_mul_of_pos_right hb16 hg
      have h3 : 2 ^ 16 * g = 2 * (g * 2 ^ 15) := by ring
      omega
    by_contra hne
    rcases Nat.lt_or_gt_of_ne hne with hlt | hgt
    · have h1 : (a + 1) * (g * 2 ^ T) ≤ v * b * (g * 2 ^ T) := Nat.mul_le_mul_right _ hlt
      have h2 : (a + 1) * (g * 2 ^ T) = a * (g * 2 ^ T) + g * 2 ^ T := by ring
      omega
    · have h1 : (v * b + 1) * (g * 2 ^ T) ≤ a * (g * 2 ^ T) := Nat.mul_le_mul_right _ hgt
      have h2 : (v * b + 1) * (g * 2 ^ T) = v * b * (g * 2 ^ T) + g * 2 ^ T := by ring
      omega

/-- The quotient of a double that is a whole number below `60000 * 2 ^ 38` by 60000 is a
whole number only if the dividend is its multiple. -/
theorem divNat_int_imp {x : Double} {a v : Nat} (hx : x.hasMagnitude a = true)
    (hsmall : a < 60000 * 2 ^ 38) (h : (x.divNat 60000).hasMagnitude v = true) :
    a = v * 60000 := by
  unfold Double.hasMagnitude at hx
  unfold Double.divNat at h
  by_cases hneg : x.e < 0
  · rw [if_pos hneg] at hx h
    have hm : x.m = a * 2 ^ (-x.e).toNat := by simpa using hx
    rw [hm] at h
    exact roundRat_int_imp x.neg (Nat.pow_pos (by decide)) (by decide) (by norm_num) hsmall h
  · rw [if_neg hneg] at hx h
    have hm : x.m * 2 ^ x.e.toNat = a := by simpa using hx
    rw [hm] at h
    have h1 : (roundRat x.neg (a * 1) (60000 * 1)).hasMagnitude v = true := by simpa using h
    exact roundRat_int_imp x.neg (by decide) (by decide) (by norm_num) hsmall h1

theorem hasMagnitude_of_eqInt {x : Double} {d : Int} (h : x.eqInt d = true) :
    x.hasMagnitude d.natAbs = true ∧ (0 < x.m → x.neg = decide (d < 0)) := by
  unfold Double.eqInt at h
  split at h
  · next hm =>
    have hd : d = 0 := by simpa using h
    subst hd
    refine ⟨?_, fun hp => absurd hp (by omega)⟩
    simp [Double.hasMagnitude, hm]
  · simp only [Bool.and_eq_true, beq_iff_eq] at h
    exact ⟨h.2, fun _ => h.1⟩

/-- For instants less than `2 ^ 53` milliseconds apart, `matchesExactDuration` on the
numbers of the language is the comparison of the millisecond difference with the
minutes, which the services are embedded with. -/
theorem matchesExactDuration_agrees (startTime endTime d : Int)
    (hclose : (endTime - startTime).natAbs < 2 ^ 53) :
    timeHelpers.matchesExactDuration (some startTime) (some endTime) d =
      matchesExactDuration startTime endTime d := by
  have hx1 : (Double.ofInt (endTime - startTime)).hasMagnitude
      (endTime - startTime).natAbs = true := by
    have := (@roundRat_exact (decide (endTime - startTime < 0))
      (endTime - startTime).natAbs 1 (endTime - startTime).natAbs 0
      (by decide) hclose (by ring)).2
    simpa [Double.ofInt] using this
  have hnegx : ((Double.ofInt (endTime - startTime)).divNat 60000).neg =
      decide (endTime - startTime < 0) := by
    rw [divNat_neg]
    unfold Double.ofInt
    rw [roundRat_neg]
  rw [Bool.eq_iff_iff, matchesExactDuration_iff_ms]
  unfold timeHelpers.matchesExactDuration timeHelpers.differenceInMinutes
  simp only
  constructor
  · intro h
    obtain ⟨hmag, hsign⟩ := hasMagnitude_of_eqInt h
    have habs := divNat_int_imp hx1
      (Nat.lt_of_lt_of_le hclose (by norm_num)) hmag
    by_cases h0 : endTime - startTime = 0
    · have : d.natAbs * 60000 = 0 := by rw [← habs, h0]; rfl
      omega
    · have hpos : 0 < (Double.ofInt (endTime - startTime)).m := by
        unfold Double.ofInt
        exact roundRat_m_pos _ (Int.natAbs_pos.mpr h0) (by decide)
      have hs := hsign (divNat_m_pos hpos (by decide))
      rw [hnegx] at hs
      have hiff : endTime - startTime < 0 ↔ d < 0 := by
        constructor
        · intro h1; simpa [h1] using hs
        · intro h1; simpa [h1] using hs
      omega
  · intro h
    have habs : (endTime - startTime).natAbs = d.natAbs * 60000 := by
      rw [h, Int.natAbs_mul]; rfl
    have hd : d.natAbs < 2 ^ 53 := by omega
    have hmag : (Double.ofInt (endTime - startTime)).hasMagnitude (d.natAbs * 60000) = true := by
      rw [← habs]; exact hx1
    have hdiv := divNat_exact (q := 60000) (by decide) hd hmag
    refine eqInt_of_hasMagnitude ?_ hdiv
    rw [hnegx]
    congr 1
    apply propext
    constructor <;> intro h1 <;> omega

/-! ### The helpers -/

/-- In a process whose time zone has the same offset at all times, such as UTC,
`calculateEndTime` on a valid date holding `t`, with an end inside the range of `Date`,
returns a new date holding `t + m * 60000`; the date passed in and every other date of
the heap hold what they held before. -/
theorem calculateEndTime_fixed_offset (tz : TimeZone) (c : Int)
    (hutc : ∀ u, tz.offsetAtUTC u = c) (hlocal : ∀ u, tz.offsetAtLocal u = c)
    (heap : DateHeap) (startTime : Nat) (t m : Int)
    (hstart : heap[startTime]? = some (some t))
    (hrange : (t + m * 60000).natAbs ≤ 8640000000000000) :
    ∃ heap1 newEndTime,
      timeHelpers.calculateEndTime tz heap startTime m = some (heap1, newEndTime) ∧
      heap1[newEndTime]? = some (some (t + m * 60000)) ∧
      newEndTime ≠ startTime ∧
      heap1[startTime]? = some (some t) ∧
      ∀ i, i < heap.length → heap1[i]? = heap[i]? := by
  have hlt : startTime < heap.length := by
    rcases Nat.lt_or_ge startTime heap.length with h | h
    · exact h
    · rw [List.getElem?_eq_none h] at hstart
      cases hstart
  have hnew : (heap ++ [some t])[heap.length]? = some (some t) := by
    rw [List.getElem?_append_right (Nat.le_refl _)]
    simp
  have hother : ∀ (v : Option Int) i, i < heap.length →
      ((heap ++ [some t]).set heap.length v)[i]? = heap[i]? := by
    intro v i hi
    rw [List.getElem?_set_ne (by omega), List.getElem?_append_left hi]
  refine ⟨(heap ++ [some t]).set heap.length (some (t + m * 60000)), heap.length,
    ?_, ?_, by omega, ?_, hother _⟩
  · unfold timeHelpers.calculateEndTime newDate
    rw [hstart]
    simp only
    rw [hnew]
    simp only
    rw [setMinutes_getMinutes_add tz c hutc hlocal, TimeClip, if_pos hrange]
  · rw [List.getElem?_set_self (by simp)]
  · rw [hother _ startTime hlt, hstart]

/-- In a process in UTC the date `calculateEndTime` returns for a valid start date holds
the time value the services are embedded with, as long as it is inside the range of
`Date`. -/
theorem calculateEndTime_utc (heap : DateHeap) (startTime : Nat) (t m : Int)
    (hstart : heap[startTime]? = some (some t))
    (hrange : (calculateEndTime t m).natAbs ≤ 8640000000000000) :
    ∃ heap1 newEndTime,
      timeHelpers.calculateEndTime utcZone heap startTime m = some (heap1, newEndTime) ∧
      heap1[newEndTime]? = some (some (calculateEndTime t m)) := by
  rw [calculateEndTime_eq] at hrange ⊢
  obtain ⟨heap1, newEndTime, h1, h2, -⟩ := calculateEndTime_fixed_offset utcZone 0
    (fun _ => rfl) (fun _ => rfl) heap startTime t m hstart hrange
  exact ⟨heap1, newEndTime, h1, h2⟩

/-- C27, failing input. In a process in the zone `America/New_York`, `calculateEndTime`
on the date 2025-03-09T06:30Z (01:30 local time, half an hour before the clocks go
forward) with 120 minutes returns 2025-03-09T07:30Z, 60 minutes after the start and not
120: the minutes are added to the local wall-clock fields.  On the date 2025-11-02T05:30Z
(half an hour before the clocks go back) with 60 minutes it returns the instant 120
minutes after the start.  A process in UTC returns the start plus 120 minutes.  The date
passed in keeps its value in every case. -/
theorem calculateEndTime_across_clock_change :
    timeHelpers.calculateEndTime newYork [some 1741501800000] 0 120 =
      some ([some 1741501800000, some (1741501800000 + 60 * 60000)], 1) ∧
    timeHelpers.calculateEndTime newYork [some 1762061400000] 0 60 =
      some ([some 1762061400000, some (1762061400000 + 120 * 60000)], 1) ∧
    timeHelpers.calculateEndTime utcZone [some 1741501800000] 0 120 =
      some ([some 1741501800000, some (1741501800000 + 120 * 60000)], 1) := by
  refine ⟨?_, ?_, ?_⟩ <;> decide

/-- C26, failing input. In a process in the zone `America/New_York`, the end that
`calculateEndTime` computes for the start 2025-03-09T06:30Z and 120 minutes is
2025-03-09T07:30Z, and `matchesExactDuration` of the start, this end and 120 is false.
Besides, at the two ends of the range of `Date`, `matchesExactDuration` is true of an end
one millisecond before the end that `calculateEndTime` computes for 288000000000 minutes:
the difference of the two time values is rounded to a double before the division. -/
theorem exact_duration_fails_across_clock_change :
    timeHelpers.calculateEndTime newYork [some 1741501800000] 0 120 =
      some ([some 1741501800000, some 1741505400000], 1) ∧
    timeHelpers.matchesExactDuration (some 1741501800000) (some 1741505400000) 120 = false ∧
    timeHelpers.calculateEndTime utcZone [some (-8640000000000000)] 0 288000000000 =
      some ([some (-8640000000000000), some 8640000000000000], 1) ∧
    timeHelpers.matchesExactDuration (some (-8640000000000000)) (some 8639999999999999)
      288000000000 = true := by
  refine ⟨?_, ?_, ?_, ?_⟩ <;> decide

/-- Counterexample to C28: an end instant 90 seconds after the start gives one and a
half minutes, which is no integer. -/
theorem differenceInMinutes_not_integer :
    timeHelpers.differenceInMinutes (some 0) (some 90000) =
      some ⟨false, 6755399441055744, -52⟩ ∧
    (⟨false, 6755399441055744, -52⟩ : Double).toRat = 3 / 2 ∧
    ¬ ∃ n : Int, (⟨false, 6755399441055744, -52⟩ : Double).toRat = (n : ℚ) := by
  have h : (⟨false, 6755399441055744, -52⟩ : Double).toRat = 3 / 2 := by
    simp only [Double.toRat]
    norm_num
  refine ⟨by decide, h, ?_⟩
  rintro ⟨n, hn⟩
  rw [h] at hn
  have h2 : (3 : ℚ) = ((2 * n : Int) : ℚ) := by
    push_cast
    linarith
  have h3 : (3 : Int) = 2 * n := by exact_mod_cast h2
  omega

/-- C28, amended. For every pair of instants inside the range of `Date`,
`differenceInMinutes` returns a number that is negative exactly when the end precedes the
start; when the two instants are a whole number `n` of minutes apart
(`end - start = n * 60000` milliseconds) it returns exactly the integer `n`, so that
`matchesExactDuration` of the two instants and `n` is true. -/
theorem differenceInMinutes_value (startTime endTime : Int)
    (hs : startTime.natAbs ≤ 8640000000000000) (he : endTime.natAbs ≤ 8640000000000000) :
    ∃ x : Double,
      timeHelpers.differenceInMinutes (some startTime) (some endTime) = some x ∧
      (x.toRat < 0 ↔ endTime < startTime) ∧
      ∀ n : Int, endTime - startTime = n * 60000 →
        x.toRat = (n : ℚ) ∧
        timeHelpers.matchesExactDuration (some startTime) (some endTime) n = true := by
  refine ⟨(Double.ofInt (endTime - startTime)).divNat 60000, rfl, ?_, ?_⟩
  · rw [toRat_neg_iff, divNat_neg]
    unfold Double.ofInt
    rw [roundRat_neg]
    by_cases h0 : endTime - startTime = 0
    · rw [h0]
      simp only [lt_self_iff_false, decide_False, Bool.false_eq_true, false_and, false_iff]
      omega
    · have hpos : 0 < (roundRat (decide (endTime - startTime < 0))
          (endTime - startTime).natAbs 1).m :=
        roundRat_m_pos _ (Int.natAbs_pos.mpr h0) (by decide)
      have hm := divNat_m_pos (q := 60000) hpos (by decide)
      simp only [decide_eq_true_eq]
      constructor
      · intro h; omega
      · intro h; exact ⟨by omega, hm⟩
  · intro n hn
    have hlt : (endTime - startTime).natAbs < 2 ^ 54 := by
      have : (endTime - startTime).natAbs ≤ 17280000000000000 := by omega
      exact Nat.lt_of_le_of_lt this (by norm_num)
    have habs : (endTime - startTime).natAbs = n.natAbs * 30000 * 2 ^ 1 * 1 := by
      rw [hn, Int.natAbs_mul]
      norm_num
      ring
    have hk : n.natAbs * 30000 < 2 ^ 53 := by
      rw [habs] at hlt
      have e54 : (2 : Nat) ^ 54 = 2 ^ 53 * 2 := by norm_num
      omega
    have hx1 := @roundRat_exact (decide (endTime - startTime < 0))
      (endTime - startTime).natAbs 1 (n.natAbs * 30000) 1
      (by decide) hk habs
    have hmag : (Double.ofInt (endTime - startTime)).hasMagnitude (n.natAbs * 60000) = true := by
      unfold Double.ofInt
      have : n.natAbs * 60000 = n.natAbs * 30000 * 2 ^ 1 := by ring
      rw [this]
      exact hx1.2
    have hnlt : n.natAbs < 2 ^ 53 := by omega
    have hdiv := divNat_exact (q := 60000) (by decide) hnlt hmag
    have hneg : ((Double.ofInt (endTime - startTime)).divNat 60000).neg = decide (n < 0) := by
      rw [divNat_neg]
      unfold Double.ofInt
      rw [roundRat_neg]
      congr 1
      apply propext
      constructor <;> intro h <;> omega
    constructor
    · rw [toRat_of_hasMagnitude hdiv, hneg]
      by_cases hn0 : n < 0
      · simp only [hn0, decide_True, if_true]
        have : ((n.natAbs : Int) : ℚ) = -(n : ℚ) := by
          rw [Int.ofNat_natAbs_of_nonpos (le_of_lt hn0)]
          push_cast; ring
        have h2 : ((n.natAbs : Nat) : ℚ) = ((n.natAbs : Int) : ℚ) :=
          (Int.cast_natCast n.natAbs).symm
        rw [h2, this]; ring
      · simp only [hn0, decide_False, Bool.false_eq_true, if_false, one_mul]
        have : ((n.natAbs : Int) : ℚ) = (n : ℚ) := by
          rw [Int.natAbs_of_nonneg (not_lt.mp hn0)]
        have h2 : ((n.natAbs : Nat) : ℚ) = ((n.natAbs : Int) : ℚ) :=
          (Int.cast_natCast n.natAbs).symm
        rw [h2, this]
    · unfold timeHelpers.matchesExactDuration timeHelpers.differenceInMinutes
      simp only
      exact eqInt_of_hasMagnitude hneg hdiv

/-- Witness for C28, amended: from 10:00 to 11:45 there are 105 minutes, and from 11:00
back to 10:30 the difference is negative. -/
theorem differenceInMinutes_value_witness :
    (∃ x : Double,
      timeHelpers.differenceInMinutes (some 36000000) (some 42300000) = some x ∧
      x.toRat = ((105 : Int) : ℚ)) ∧
    (∃ x : Double,
      timeHelpers.differenceInMinutes (some 39600000) (some 37800000) = some x ∧
      x.toRat < 0) :=
  ⟨(differenceInMinutes_value 36000000 42300000 (by decide) (by decide)).elim
      (fun x hx => ⟨x, hx.1, (hx.2.2 105 (by decide)).1⟩),
    (differenceInMinutes_value 39600000 37800000 (by decide) (by decide)).elim
      (fun x hx => ⟨x, hx.1, hx.2.1.mpr (by decide)⟩)⟩

/-! ## Status codes -/

/-- The controller `updateMovie` answers the three failures that `updateMovie` raises
itself with 404 and 400 and the message of the failure. -/
theorem updateMovieCatch_own_failures :
    movieController.updateMovieCatch (mkError "Movie not found") =
      handleError 404 "Movie not found" none ∧
    movieController.updateMovieCatch (mkError "Renaming the movie is not allowed.") =
      handleError 400 "Renaming the movie is not allowed." none ∧
    movieController.updateMovieCatch (mkError conflictMessage) =
      handleError 400 "Movie duration update failed due to scheduling conflicts." none := by
  refine ⟨?_, ?_, ?_⟩ <;> decide

/-- C29, failing input. A movie has an upcoming showtime with a sold ticket, and the
request raises its duration from 100 to 120 minutes with a body that passes validation.
`updateMovie` fails in the pass over the showtimes with the business-rule failure
`Cannot update a showtime that already has tickets sold.`, and the controller
`updateMovie` answers 500 `Server error` with that message in the details, where the
controller `updateShowtime` answers the same failure with 400 and the message.  The same
holds of `Cannot update a showtime that has already ended.`, raised when the movie has an
ended showtime besides an upcoming one. -/
theorem updateMovie_conflict_answers_500 :
    updateMovie 6500000
      ⟨[⟨1, "Inception", "SciFi", 100, 8, 2010⟩], [⟨1, 1, "A", 7000000, 13000000, 10⟩],
        [⟨1, 1, 5, "u0", "b0"⟩]⟩
      "Inception" ⟨some "Inception", some "SciFi", some 120, some 8, some 2010⟩ =
    (.error (mkError "Cannot update a showtime that already has tickets sold."),
      ⟨[⟨1, "Inception", "SciFi", 100, 8, 2010⟩], [⟨1, 1, "A", 7000000, 13000000, 10⟩],
        [⟨1, 1, 5, "u0", "b0"⟩]⟩) ∧
    movieController.updateMovie none 6500000
      ⟨[⟨1, "Inception", "SciFi", 100, 8, 2010⟩], [⟨1, 1, "A", 7000000, 13000000, 10⟩],
        [⟨1, 1, 5, "u0", "b0"⟩]⟩
      "Inception" ⟨some "Inception", some "SciFi", some 120, some 8, some 2010⟩ =
    (⟨500, some ⟨false, "Server error",
        some "Cannot update a showtime that already has tickets sold."⟩⟩,
      ⟨[⟨1, "Inception", "SciFi", 100, 8, 2010⟩], [⟨1, 1, "A", 7000000, 13000000, 10⟩],
        [⟨1, 1, 5, "u0", "b0"⟩]⟩) ∧
    showtimeController.updateShowtimeCatch
      (mkError "Cannot update a showtime that already has tickets sold.") =
      ⟨400, some ⟨false, "Cannot update a showtime that already has tickets sold.", none⟩⟩ ∧
    movieController.updateMovie none 6500000
      ⟨[⟨1, "Inception", "SciFi", 100, 8, 2010⟩],
        [⟨1, 1, "A", 0, 6000000, 10⟩, ⟨2, 1, "B", 7000000, 13000000, 10⟩], []⟩
      "Inception" ⟨some "Inception", some "SciFi", some 120, some 8, some 2010⟩ =
    (⟨500, some ⟨false, "Server error",
        some "Cannot update a showtime that has already ended."⟩⟩,
      ⟨[⟨1, "Inception", "SciFi", 100, 8, 2010⟩],
        [⟨1, 1, "A", 0, 6000000, 10⟩, ⟨2, 1, "B", 7000000, 13000000, 10⟩], []⟩) ∧
    showtimeController.updateShowtimeCatch
      (mkError "Cannot update a showtime that has already ended.") =
      ⟨400, some ⟨false, "Cannot update a showtime that has already ended.", none⟩⟩ := by
  refine ⟨?_, ?_, ?_, ?_, ?_⟩ <;> decide

/-! ## Validation of the start time -/

/-- The start-time message is returned exactly when the theater passes its rules and
the start time is earlier than the constant `now` of the module. -/
theorem validateShowtime_past_iff (validators : Validators) (data : ShowtimeBody) :
    validateShowtime validators data = some "Start time cannot be in the past." ↔
      (trimChars data.theater.data).isEmpty = false ∧
      lettersOnly (trimChars data.theater.data) = true ∧
      data.startTime < validators.now := by
  unfold validateShowtime
  cases he : (trimChars data.theater.data).isEmpty
  · cases hl : lettersOnly (trimChars data.theater.data)
    · simp only [Bool.false_eq_true, if_false, Bool.not_false, if_true, Option.some.injEq,
        and_false, false_and, iff_false]
      decide
    · simp only [Bool.false_eq_true, if_false, Bool.not_true, true_and]
      by_cases hs : data.startTime < validators.now
      · simp only [hs, if_true]
      · simp only [hs, if_false, iff_false]
        split_ifs <;> simp
  · simp only [if_true, Option.some.injEq, Bool.true_eq_false, false_and, iff_false]
    decide

/-- A start time at or after the moment of the call is never answered with the
start-time message, the module having been loaded no later than the call. -/
theorem validateShowtime_future_start (loadTime callTime : Int) (data : ShowtimeBody)
    (hload : loadTime ≤ callTime) (hstart : callTime ≤ data.startTime) :
    validateShowtime (loadValidators loadTime) data ≠
      some "Start time cannot be in the past." := by
  intro h
  have := ((validateShowtime_past_iff _ _).mp h).2.2
  simp only [loadValidators] at this
  omega

/-- C30, failing input. The validators module is loaded at instant 0 and
`validateShowtime` is called one hour later, at 3600000, on a body that is valid but for
its start time 1800000, half an hour before the call: the start time is in the past for
`isDateInThePast` at the call, yet `validateShowtime` returns no error.  The body of the
unit test, a start one minute before the call and an end at the call, passes as well,
while a module loaded at the moment of the call rejects it with
`Start time cannot be in the past.`. -/
theorem validateShowtime_stale_now :
    isDateInThePast 3600000 1800000 = true ∧
    validateShowtime (loadValidators 0) ⟨1, "Cinema", 1800000, 9000000, 10⟩ = none ∧
    validateShowtime (loadValidators 0) ⟨1, "Cinema", 3540000, 3600000, 10⟩ = none ∧
    validateShowtime (loadValidators 3600000) ⟨1, "Cinema", 3540000, 3600000, 10⟩ =
      some "Start time cannot be in the past." := by
  refine ⟨?_, ?_, ?_, ?_⟩ <;> decide

end PopcornPalace
